import Mathlib

/-!
DockScope: observability core.

A shallow embedding of the Go handlers of DockScope (`backend/handlers/*.go`,
`agent/main.go`) and machine-checked statements about them.

Conventions of the embedding

* Go `uint64` values are natural numbers below `2 ^ 64`; arithmetic on them is
  written with an explicit `% 2 ^ 64`.
* Go `int` is the 64-bit two's-complement integer of the amd64/arm64 builds;
  arithmetic on it is written with an explicit wrap into `[-2 ^ 63, 2 ^ 63)`.
* Go `float64` is modelled by `F64`: IEEE-754 binary64 with round-to-nearest-even,
  overflow to infinity, gradual underflow and NaN, computed on integers. The sign
  of zero is not represented (no handler output depends on it).
* A Go `string` or `[]byte` is a list of bytes (`GoString`); `str "..."` is the UTF-8
  encoding of a literal.
* A Go `map` is an association list with distinct keys.
* Calls that leave the process (Docker, InfluxDB, the WebSocket peer, the clock) and the
  standard-library functions that depend on Unicode tables or are unspecified
  (`strings.ToLower`, `strings.TrimSpace`, `sort.Slice`, map iteration order) are
  parameters of the embedding.
* A run-time panic (index or slice bounds out of range) is the value `none`.
* Names follow the Go source; the field `Type` is written `Typ` (`Type` is reserved).
-/

namespace DockScope

/-! ## float64 -/

/-- Values of a Go `float64`: NaN, the two infinities, and the finite values
`(-1) ^ neg * m * 2 ^ e`. The values that the operations produce are in IEEE form
(`F64.canonical`). -/
inductive F64 where
  | nan : F64
  | inf (neg : Bool) : F64
  | fin (neg : Bool) (m : Nat) (e : Int) : F64
deriving DecidableEq

namespace F64

/-- The float zero. -/
def zero : F64 := fin false 0 0

/-- IEEE form of a value: zero is `fin false 0 0`; a non-zero finite value has a significand
below `2 ^ 53` and an exponent in `[-1074, 971]`, and its significand is at least `2 ^ 52`
(normal) unless the exponent is `-1074` (subnormal). -/
def canonical : F64 → Prop
  | nan => True
  | inf _ => True
  | fin s m e =>
    (m = 0 ∧ e = 0 ∧ s = false) ∨
    (0 < m ∧ m < 2 ^ 53 ∧ -1074 ≤ e ∧ e ≤ 971 ∧ (2 ^ 52 ≤ m ∨ e = -1074))

/-- Binary logarithm by halving, `fuel` bounding the number of halvings. -/
def log2Fuel : Nat → Nat → Nat
  | 0, _ => 0
  | fuel + 1, n => if n < 2 then 0 else log2Fuel fuel (n / 2) + 1

/-- The binary logarithm `⌊log₂ n⌋` of a positive natural number (and `0` for `0`). -/
def log2 (n : Nat) : Nat := log2Fuel n n

/-- The exponent at which the positive rational `n / d` is rounded: the `e` with
`2 ^ 52 ≤ (n / d) / 2 ^ e < 2 ^ 53`, and `-1074` when that is below `-1074` (subnormal range). -/
def roundExp (n d : Nat) : Int :=
  let e0 : Int := (log2 n : Int) - (log2 d : Int) - 52
  let e1 : Int := if 2 ^ 52 * (d * 2 ^ e0.toNat) ≤ n * 2 ^ (-e0).toNat then e0 else e0 - 1
  max e1 (-1074)

/-- The integer nearest to `(n / d) / 2 ^ e`, ties to even. -/
def roundSig (n d : Nat) (e : Int) : Nat :=
  let N := n * 2 ^ (-e).toNat
  let D := d * 2 ^ e.toNat
  let q := N / D
  let r := N % D
  if 2 * r < D then q else if D < 2 * r then q + 1 else if q % 2 = 0 then q else q + 1

/-- Rounding of the positive rational `n / d` (with sign `neg`) to binary64:
round-to-nearest, ties to even, gradual underflow, overflow to infinity. -/
def roundPos (neg : Bool) (n d : Nat) : F64 :=
  let e := roundExp n d
  let m := roundSig n d e
  if m = 0 then zero
  else if m = 2 ^ 53 then (if 971 < e + 1 then inf neg else fin neg (2 ^ 52) (e + 1))
  else if 971 < e then inf neg else fin neg m e

/-- Conversion `float64(n)` of a non-negative integer. -/
def ofNat (n : Nat) : F64 := if n = 0 then zero else roundPos false n 1

/-- Conversion `float64(i)` of a signed integer. -/
def ofInt (i : Int) : F64 := if i = 0 then zero else roundPos (decide (i < 0)) i.natAbs 1

/-- Float division `a / b`. -/
def div : F64 → F64 → F64
  | nan, _ => nan
  | _, nan => nan
  | inf _, inf _ => nan
  | inf s, fin t _ _ => inf (xor s t)
  | fin _ _ _, inf _ => zero
  | fin s m e, fin t k f =>
    if k = 0 then (if m = 0 then nan else inf s)
    else if m = 0 then zero
    else roundPos (xor s t) (m * 2 ^ (e - f).toNat) (k * 2 ^ (f - e).toNat)

/-- Float multiplication `a * b`. -/
def mul : F64 → F64 → F64
  | nan, _ => nan
  | _, nan => nan
  | inf s, inf t => inf (xor s t)
  | inf s, fin t k _ => if k = 0 then nan else inf (xor s t)
  | fin s m _, inf t => if m = 0 then nan else inf (xor s t)
  | fin s m e, fin t k f =>
    if m = 0 ∨ k = 0 then zero
    else roundPos (xor s t) (m * k * 2 ^ (e + f).toNat) (2 ^ (-(e + f)).toNat)

/-- The integer `(-1) ^ neg * m * 2 ^ (e - b)`, for a common exponent `b ≤ e`. -/
def scaled (neg : Bool) (m : Nat) (e b : Int) : Int :=
  let v : Int := (m * 2 ^ (e - b).toNat : Nat)
  if neg then -v else v

/-- Float comparison `a < b` (false as soon as one side is NaN). -/
def lt : F64 → F64 → Bool
  | nan, _ => false
  | _, nan => false
  | inf s, inf t => s && !t
  | inf s, fin _ _ _ => s
  | fin _ _ _, inf t => !t
  | fin s m e, fin t k f => decide (scaled s m e (min e f) < scaled t k f (min e f))

/-- Float comparison `a > b`. -/
def gt (a b : F64) : Bool := lt b a

/-- Float comparison `a <= b` (false as soon as one side is NaN). -/
def le : F64 → F64 → Bool
  | nan, _ => false
  | _, nan => false
  | inf s, inf t => s || !t
  | inf s, fin _ _ _ => s
  | fin _ _ _, inf t => !t
  | fin s m e, fin t k f => decide (scaled s m e (min e f) ≤ scaled t k f (min e f))

end F64

/-! ## Machine integers, strings, maps -/

/-- A byte. -/
abbrev Byte := Fin 256

/-- A Go `string` (or `[]byte`): a sequence of bytes. -/
abbrev GoString := List Byte

/-- The bytes of a string literal (its UTF-8 encoding). -/
def str (s : String) : GoString :=
  s.data.flatMap (fun c => (String.utf8EncodeChar c).map (fun b => b.val))

/-- Subtraction of two `uint64` values: it wraps modulo `2 ^ 64`. -/
def u64sub (a b : Nat) : Nat := (a + 2 ^ 64 - b % 2 ^ 64) % 2 ^ 64

/-- Addition of two `uint64` values: it wraps modulo `2 ^ 64`. -/
def u64add (a b : Nat) : Nat := (a + b) % 2 ^ 64

/-- The value of a 64-bit `int` computation whose exact result is `x`. -/
def wrapInt (x : Int) : Int := (x + 2 ^ 63) % 2 ^ 64 - 2 ^ 63

/-- Map lookup `m[k]` on a `map[string]uint64`: the zero value when the key is absent. -/
def mapGet (m : List (GoString × Nat)) (k : GoString) : Nat := (m.lookup k).getD 0

/-- Map assignment `m[k] = v`. -/
def mapSet {β : Type} (m : List (GoString × β)) (k : GoString) (v : β) : List (GoString × β) :=
  match m with
  | [] => [(k, v)]
  | (k0, v0) :: rest => if k0 = k then (k, v) :: rest else (k0, v0) :: mapSet rest k v

/-- Map lookup `m[k]` returning the stored value, if any. -/
def mapFind {β : Type} (m : List (GoString × β)) (k : GoString) : Option β := m.lookup k

/-- The slice expression `s[lo:hi]`; `none` is the run-time panic "slice bounds out of range".
The upper bound is checked against the length, which is the bound for a string and, in the
uses below on slices, never exceeded by a non-negative `hi`. -/
def goSlice {α : Type} (s : List α) (lo hi : Int) : Option (List α) :=
  if 0 ≤ lo ∧ lo ≤ hi ∧ hi ≤ (s.length : Int) then some ((s.take hi.toNat).drop lo.toNat) else none

/-! ## Docker stats (the fields of `types.StatsJSON` that the handlers read) -/

/-- Docker `types.CPUUsage`. -/
structure CPUUsage where
  TotalUsage : Nat
  PercpuUsage : List Nat
deriving DecidableEq

/-- Docker `types.CPUStats`. -/
structure CPUStats where
  CPUUsage : DockScope.CPUUsage
  SystemUsage : Nat
deriving DecidableEq

/-- Docker `types.MemoryStats`. -/
structure MemoryStats where
  Usage : Nat
  Stats : List (GoString × Nat)
  Limit : Nat
deriving DecidableEq

/-- Docker `types.NetworkStats`. -/
structure NetworkStats where
  RxBytes : Nat
  TxBytes : Nat
deriving DecidableEq

/-- Docker `types.BlkioStatEntry`. -/
structure BlkioStatEntry where
  Op : GoString
  Value : Nat
deriving DecidableEq

/-- Docker `types.BlkioStats`. -/
structure BlkioStats where
  IoServiceBytesRecursive : List BlkioStatEntry
deriving DecidableEq

/-- Docker `types.StatsJSON`. -/
structure StatsJSON where
  CPUStats : DockScope.CPUStats
  PreCPUStats : DockScope.CPUStats
  MemoryStats : DockScope.MemoryStats
  Networks : List (GoString × NetworkStats)
  BlkioStats : DockScope.BlkioStats
deriving DecidableEq

/-- Every `uint64` field of a reading is below `2 ^ 64` and every slice length is a Go `int`. -/
def StatsJSON.wf (d : StatsJSON) : Prop :=
  d.CPUStats.CPUUsage.TotalUsage < 2 ^ 64 ∧ d.PreCPUStats.CPUUsage.TotalUsage < 2 ^ 64 ∧
  d.CPUStats.SystemUsage < 2 ^ 64 ∧ d.PreCPUStats.SystemUsage < 2 ^ 64 ∧
  d.CPUStats.CPUUsage.PercpuUsage.length < 2 ^ 63 ∧
  d.MemoryStats.Usage < 2 ^ 64 ∧ d.MemoryStats.Limit < 2 ^ 64 ∧
  (∀ kv ∈ d.MemoryStats.Stats, kv.2 < 2 ^ 64) ∧
  (∀ kv ∈ d.Networks, kv.2.RxBytes < 2 ^ 64 ∧ kv.2.TxBytes < 2 ^ 64) ∧
  (∀ b ∈ d.BlkioStats.IoServiceBytesRecursive, b.Value < 2 ^ 64)

/-! ## `backend/handlers/types.go` -/

/-- Core container metrics (`ContainerMetrics` of `types.go`). -/
structure ContainerMetrics where
  ID : GoString
  Name : GoString
  Image : GoString
  CPUPercent : F64
  MemoryMB : F64
  MemoryPercent : F64
  Uptime : GoString
  Restart : GoString
  RestartCount : Int
  CPUHistory : List F64
  MemoryHistory : List F64
  Logs : List GoString
  HostID : GoString
deriving DecidableEq

/-- User-defined alert definition (`AlertDefinition` of `types.go`). -/
structure AlertDefinition where
  ID : GoString
  HostID : GoString
  Typ : GoString
  Threshold : F64
  Pattern : GoString
  ContainerID : GoString
  Enabled : Bool
  SlackWebhook : GoString
  Email : GoString
  AutoRestart : Bool
  AutoStop : Bool
deriving DecidableEq

/-- Triggered alert event (`AlertEvent` of `types.go`); `Timestamp` is a reading of the clock. -/
structure AlertEvent where
  AlertID : GoString
  HostID : GoString
  ContainerID : GoString
  Typ : GoString
  Message : GoString
  Timestamp : Nat
  Restarted : Bool
deriving DecidableEq

/-- Agent push payload (`AgentPayload` of `types.go`). -/
structure AgentPayload where
  HostID : GoString
  Timestamp : GoString
  Containers : List ContainerMetrics
deriving DecidableEq

/-- Alert rule for the local checks of `monitor.go` (`AlertRule` of `types.go`). -/
structure AlertRule where
  ID : GoString
  HostID : GoString
  ContainerID : GoString
  Typ : GoString
  Threshold : F64
  Pattern : GoString
  Email : GoString
  SlackWebhook : GoString
  AutoRestart : Bool
  AutoStop : Bool
  Enabled : Bool
deriving DecidableEq

/-- Listing entry (`ContainerInfo` of `types.go`). -/
structure ContainerInfo where
  ID : GoString
  Name : GoString
  CPUPercent : F64
  MemoryMB : F64
  Logs : List GoString
  Image : GoString
  HostID : GoString
deriving DecidableEq

/-- The shared in-memory variables of `types.go`. -/
structure State where
  alertRules : List AlertRule
  alertEvents : List AlertEvent
  alertDefinitions : List AlertDefinition
  agentMetrics : List (GoString × List ContainerMetrics)
deriving DecidableEq

/-- The constant `HighCPU`. -/
def HighCPU : GoString := str "high_cpu"

/-- The constant `HighMemory`. -/
def HighMemory : GoString := str "high_memory"

/-- The constant `LogPattern`. -/
def LogPattern : GoString := str "log_pattern"

/-- Go runtime and standard-library behaviour that the handlers call and that the repository
does not fix. -/
structure Runtime where
  /-- Go `strings.ToLower`. -/
  ToLower : GoString → GoString
  /-- Go `strings.TrimSpace`. -/
  TrimSpace : GoString → GoString
  /-- Go `sort.Slice` on a `[]ContainerInfo`, given the `less` function on elements. -/
  sortSlice : (ContainerInfo → ContainerInfo → Bool) → List ContainerInfo → List ContainerInfo
  /-- The order in which `range` visits the entries of the `agentMetrics` map. -/
  mapRange : List (GoString × List ContainerMetrics) → List (GoString × List ContainerMetrics)
  /-- Go `strconv.FormatFloat(x, 'f', 2, 64)`, which is also the `%.2f` verb. -/
  FormatFloat : F64 → GoString

/-! ## `backend/handlers/metrics.go` -/

/-- WebSocket payload format (`MetricsPayload`). -/
structure MetricsPayload where
  CPUPercent : F64
  MemoryUsage : Nat
  MemoryLimit : Nat
  MemoryPercent : F64
  NetRx : Nat
  NetTx : Nat
  DiskRead : Nat
  DiskWrite : Nat
deriving DecidableEq

namespace GetContainerMetricsHandler

/-- Lines 91-99: the CPU percentage of a decoded stats reading. -/
def cpuPercent (data : StatsJSON) : F64 :=
  let cpuDelta := F64.ofNat
    (u64sub data.CPUStats.CPUUsage.TotalUsage data.PreCPUStats.CPUUsage.TotalUsage)
  let systemDelta := F64.ofNat (u64sub data.CPUStats.SystemUsage data.PreCPUStats.SystemUsage)
  let cpuPercent :=
    if F64.gt systemDelta F64.zero && F64.gt cpuDelta F64.zero then
      F64.mul
        (F64.mul (F64.div cpuDelta systemDelta)
          (F64.ofInt (data.CPUStats.CPUUsage.PercpuUsage.length : Int)))
        (F64.ofNat 100)
    else F64.zero
  if F64.lt cpuPercent F64.zero || F64.gt cpuPercent (F64.ofNat 1000) then F64.zero
  else cpuPercent

/-- Line 101: `memUsed`, a `uint64`. -/
def memUsed (data : StatsJSON) : Nat :=
  u64sub data.MemoryStats.Usage (mapGet data.MemoryStats.Stats (str "cache"))

/-- Line 102: `memUsage`, the used memory in MiB. -/
def memUsage (data : StatsJSON) : F64 :=
  F64.div (F64.ofNat (memUsed data)) (F64.ofNat (1024 * 1024))

/-- Lines 139-149: the response built from a decoded reading; the container name, the uptime
and the restart time come from `ContainerInspect` and the clock. -/
def response (containerID hostID name uptime restart : GoString) (data : StatsJSON) :
    ContainerMetrics :=
  { ID := containerID
    Name := name
    Image := []
    CPUPercent := cpuPercent data
    MemoryMB := memUsage data
    MemoryPercent := F64.zero
    Uptime := uptime
    Restart := restart
    RestartCount := 0
    CPUHistory := [cpuPercent data]
    MemoryHistory := [memUsage data]
    Logs := []
    HostID := if hostID = [] then str "master" else hostID }

end GetContainerMetricsHandler

namespace WSContainerMetricsHandler

/-- Lines 218-226: the CPU percentage of a decoded stats reading. -/
def cpuPercent (data : StatsJSON) : F64 :=
  let cpuDelta := F64.ofNat
    (u64sub data.CPUStats.CPUUsage.TotalUsage data.PreCPUStats.CPUUsage.TotalUsage)
  let systemDelta := F64.ofNat (u64sub data.CPUStats.SystemUsage data.PreCPUStats.SystemUsage)
  let cpuPercent :=
    if F64.gt systemDelta F64.zero && F64.gt cpuDelta F64.zero then
      F64.mul
        (F64.mul (F64.div cpuDelta systemDelta)
          (F64.ofInt (data.CPUStats.CPUUsage.PercpuUsage.length : Int)))
        (F64.ofNat 100)
    else F64.zero
  if F64.lt cpuPercent F64.zero || F64.gt cpuPercent (F64.ofNat 1000) then F64.zero
  else cpuPercent

/-- Line 228: `memUsed`, a `uint64`. -/
def memUsed (data : StatsJSON) : Nat :=
  u64sub data.MemoryStats.Usage (mapGet data.MemoryStats.Stats (str "cache"))

/-- Line 229: `memPercent`. -/
def memPercent (data : StatsJSON) : F64 :=
  F64.mul (F64.div (F64.ofNat (memUsed data)) (F64.ofNat data.MemoryStats.Limit)) (F64.ofNat 100)

/-- Lines 231-235: received and transmitted bytes summed over the networks. -/
def netTotals (data : StatsJSON) : Nat × Nat :=
  data.Networks.foldl (fun acc kv => (u64add acc.1 kv.2.RxBytes, u64add acc.2 kv.2.TxBytes)) (0, 0)

/-- Lines 237-245: bytes read and written summed over the block-I/O entries. -/
def diskTotals (data : StatsJSON) : Nat × Nat :=
  data.BlkioStats.IoServiceBytesRecursive.foldl
    (fun acc block =>
      if block.Op = str "Read" then (u64add acc.1 block.Value, acc.2)
      else if block.Op = str "Write" then (acc.1, u64add acc.2 block.Value)
      else acc)
    (0, 0)

/-- Lines 251-260: the payload of one sampling tick. -/
def payload (data : StatsJSON) : MetricsPayload :=
  { CPUPercent := cpuPercent data
    MemoryUsage := memUsed data
    MemoryLimit := data.MemoryStats.Limit
    MemoryPercent := memPercent data
    NetRx := (netTotals data).1
    NetTx := (netTotals data).2
    DiskRead := (diskTotals data).1
    DiskWrite := (diskTotals data).2 }

/-- Lines 218-262, one iteration of the session loop after a successful fetch and decode:
the log line evaluates `containerID[:12]`, then the payload is handed to `WriteJSON`. -/
def iteration (containerID : GoString) (data : StatsJSON) : Option MetricsPayload :=
  match goSlice containerID 0 12 with
  | none => none
  | some _ => some (payload data)

end WSContainerMetricsHandler

/-! ## `backend/handlers/logs.go` -/

/-- Go `io.ReadFull` into a buffer of `n` bytes: the buffer and the rest of the stream, or
`none` (`io.EOF` or `io.ErrUnexpectedEOF`) when fewer than `n` bytes remain. -/
def readFull (n : Nat) (reader : List Byte) : Option (List Byte × List Byte) :=
  if reader.length < n then none else some (reader.take n, reader.drop n)

/-- Go `strings.Contains(s, substr)` on bytes. -/
def stringsContains (s substr : GoString) : Bool :=
  s.tails.any (fun t => substr.isPrefixOf t)

namespace WSLogsHandler

/-- Line 194: the payload length taken from header bytes 4 to 7. -/
def frameSize (header : List Byte) : Int :=
  (((header.getD 4 0).val <<< 24 ||| (header.getD 5 0).val <<< 16 |||
    (header.getD 6 0).val <<< 8 ||| (header.getD 7 0).val : Nat) : Int)

/-- Lines 186-214: the decode loop on the remaining stream. `writeOk k line` tells whether the
`WriteMessage` of `line`, after `k` messages were written, succeeds; the result is the list of
messages written, in order. `fuel` bounds the number of iterations. -/
def loop (rt : Runtime) (filter : GoString) (writeOk : Nat → GoString → Bool) :
    Nat → List Byte → List GoString → List GoString
  | 0, _, sent => sent
  | fuel + 1, reader, sent =>
    match readFull 8 reader with
    | none => sent
    | some (header, reader1) =>
      if frameSize header ≤ 0 then loop rt filter writeOk fuel reader1 sent
      else
        match readFull (frameSize header).toNat reader1 with
        | none => sent
        | some (frame, reader2) =>
          let line := frame
          if filter ≠ [] && !stringsContains (rt.ToLower line) (rt.ToLower filter) then
            loop rt filter writeOk fuel reader2 sent
          else if writeOk sent.length line then
            loop rt filter writeOk fuel reader2 (sent ++ [line])
          else sent

/-- The messages a log session writes for the byte stream `reader` of the container's logs.
Every iteration that goes on consumes at least the 8 header bytes, so `reader.length + 1`
iterations exhaust the stream. -/
def session (rt : Runtime) (filter : GoString) (writeOk : Nat → GoString → Bool)
    (reader : List Byte) : List GoString :=
  loop rt filter writeOk (reader.length + 1) reader []

end WSLogsHandler

/-! ## `backend/handlers/agent.go` -/

/-- ReceiveAgentMetricsHandler: `body` is the result of decoding the request body (`none`
when it is not valid JSON). Returns the new shared state and the HTTP status. The writes to
InfluxDB that follow the store update only log their errors. -/
def ReceiveAgentMetricsHandler (body : Option AgentPayload) (s : State) : State × Nat :=
  match body with
  | none => (s, 400)
  | some payload =>
    ({ s with agentMetrics := mapSet s.agentMetrics payload.HostID payload.Containers }, 200)

/-! ## `backend/handlers/containers.go` -/

/-- Outcome of a handler that answers with a JSON body. -/
inductive Reply (α : Type) where
  | ok (body : α) : Reply α
  | error (status : Nat) : Reply α
  | panic : Reply α
deriving DecidableEq

/-- A container as listed by the Docker client (`types.Container`): the fields read. -/
structure DockerContainer where
  ID : GoString
  Names : List GoString
  Image : GoString
deriving DecidableEq

/-- The query parameters of `GET /containers`. `limit` and `offset` are the Go `int` values
that `strconv.Atoi` returned; the handler drops the parse error. -/
structure Query where
  host_id : GoString
  name : GoString
  image : GoString
  label : GoString
  limit : Int
  offset : Int
  sort_by : GoString
  order : GoString
deriving DecidableEq

/-- Go `strings.Split(s, sep)` for a one-byte separator. -/
def stringsSplit (s : GoString) (sep : Byte) : List GoString :=
  match s with
  | [] => [[]]
  | c :: rest =>
    if c = sep then [] :: stringsSplit rest sep
    else
      match stringsSplit rest sep with
      | [] => [[c]]
      | w :: ws => (c :: w) :: ws

/-- Go `strings.TrimPrefix(s, p)`. -/
def stringsTrimPrefix (s p : GoString) : GoString :=
  if p.isPrefixOf s then s.drop p.length else s

/-- Go `a < b` on strings: bytewise lexicographic order. -/
def stringLt : GoString → GoString → Bool
  | _, [] => false
  | [], _ :: _ => true
  | a :: as, b :: bs => if a < b then true else if b < a then false else stringLt as bs

/-- Lines 139-146. -/
def contains (rt : Runtime) (list : List GoString) (item : GoString) : Bool :=
  list.any (fun v => rt.TrimSpace v = item)

/-- Lines 119-137; `none` is the index panic of `hostIDs[0]` on an empty slice. -/
def matchesFilters (rt : Runtime) (c : ContainerInfo) (hostIDs : List GoString)
    (name image label : GoString) : Option Bool :=
  match hostIDs with
  | [] => none
  | h0 :: _ =>
    if h0 ≠ [] && !contains rt hostIDs c.HostID then some false
    else if name ≠ [] && !stringsContains (rt.ToLower c.Name) name then some false
    else if image ≠ [] && !stringsContains (rt.ToLower c.Image) image then some false
    else if label ≠ [] && !stringsContains (rt.ToLower c.Image) label then some false
    else some true

namespace ListContainersHandler

/-- Lines 48-59: the entries of the local ("master") containers that pass the filters. -/
def masterEntries (rt : Runtime) (hostIDs : List GoString) (name image label : GoString) :
    List DockerContainer → Option (List ContainerInfo)
  | [] => some []
  | c :: rest =>
    match c.Names with
    | [] => none
    | n0 :: _ =>
      match goSlice c.ID 0 12 with
      | none => none
      | some id =>
        let info : ContainerInfo :=
          { ID := id
            Name := stringsTrimPrefix n0 (str "/")
            CPUPercent := F64.zero
            MemoryMB := F64.zero
            Logs := []
            Image := c.Image
            HostID := str "master" }
        match matchesFilters rt info hostIDs name image label with
        | none => none
        | some keep =>
          match masterEntries rt hostIDs name image label rest with
          | none => none
          | some results => some (if keep then info :: results else results)

/-- Lines 64-77: the entries of one host's snapshot that pass the filters. -/
def hostEntries (rt : Runtime) (hostIDs : List GoString) (name image label : GoString)
    (hostID : GoString) : List ContainerMetrics → Option (List ContainerInfo)
  | [] => some []
  | c :: rest =>
    let info : ContainerInfo :=
      { ID := c.ID
        Name := c.Name
        CPUPercent := c.CPUPercent
        MemoryMB := c.MemoryMB
        Logs := c.Logs
        Image := c.Image
        HostID := hostID }
    match matchesFilters rt info hostIDs name image label with
    | none => none
    | some keep =>
      match hostEntries rt hostIDs name image label hostID rest with
      | none => none
      | some results => some (if keep then info :: results else results)

/-- Lines 63-78: the entries of the agent snapshots, visited in the given order. -/
def agentEntries (rt : Runtime) (hostIDs : List GoString) (name image label : GoString) :
    List (GoString × List ContainerMetrics) → Option (List ContainerInfo)
  | [] => some []
  | (hostID, containers) :: rest =>
    match hostEntries rt hostIDs name image label hostID containers with
    | none => none
    | some here =>
      match agentEntries rt hostIDs name image label rest with
      | none => none
      | some results => some (here ++ results)

/-- Lines 82-102: the `less` function handed to `sort.Slice`, on elements. -/
def less (sortBy order : GoString) (a b : ContainerInfo) : Bool :=
  if sortBy = str "cpu" then
    if order = str "desc" then F64.gt a.CPUPercent b.CPUPercent
    else F64.lt a.CPUPercent b.CPUPercent
  else if sortBy = str "memory" then
    if order = str "desc" then F64.gt a.MemoryMB b.MemoryMB
    else F64.lt a.MemoryMB b.MemoryMB
  else
    if order = str "desc" then stringLt b.Name a.Name
    else stringLt a.Name b.Name

/-- Lines 104-112: the pagination step; `none` is the panic of `results[offset:end]`. -/
def paginate (results : List ContainerInfo) (offset limit : Int) : Option (List ContainerInfo) :=
  let offset := if offset > (results.length : Int) then (results.length : Int) else offset
  let end1 := wrapInt (offset + limit)
  let end2 := if limit ≤ 0 ∨ end1 > (results.length : Int) then (results.length : Int) else end1
  goSlice results offset end2

end ListContainersHandler

/-- ListContainersHandler: `clientOk` tells whether the Docker client could be created and
`containers` is the result of `cli.ContainerList` (`none` when it fails). -/
def ListContainersHandler (rt : Runtime) (clientOk : Bool)
    (containers : Option (List DockerContainer)) (q : Query) (s : State) :
    Reply (List ContainerInfo) :=
  if !clientOk then Reply.error 500
  else
    let hostIDsFilter := stringsSplit q.host_id 44
    let nameFilter := rt.ToLower q.name
    let imageFilter := rt.ToLower q.image
    let labelFilter := rt.ToLower q.label
    match containers with
    | none => Reply.error 500
    | some containers =>
      match ListContainersHandler.masterEntries rt hostIDsFilter nameFilter imageFilter
          labelFilter containers with
      | none => Reply.panic
      | some results1 =>
        match ListContainersHandler.agentEntries rt hostIDsFilter nameFilter imageFilter
            labelFilter (rt.mapRange s.agentMetrics) with
        | none => Reply.panic
        | some results2 =>
          let results :=
            rt.sortSlice (ListContainersHandler.less q.sort_by q.order) (results1 ++ results2)
          match ListContainersHandler.paginate results q.offset q.limit with
          | none => Reply.panic
          | some page => Reply.ok page

/-! ## `backend/handlers/alerts.go`, `influx.go` -/

/-- An effect that a handler hands to a collaborator: a chat message, an e-mail, or the
detached recovery task for a rule. -/
inductive Action where
  | slack (webhook message : GoString) : Action
  | email (recipient subject body : GoString) : Action
  | autoRecovery (rule : AlertRule) : Action
deriving DecidableEq

/-- CreateAlertRuleHandler: `body` is the result of decoding the request body (`none` when it
is not valid JSON). Returns the new shared state and the HTTP status. The call
`SaveAlertRulesToFile("data/alert_rules.json", alertRules)` that follows the append writes a
file and leaves the shared variables as they are. -/
def CreateAlertRuleHandler (body : Option AlertDefinition) (s : State) : State × Nat :=
  match body with
  | none => (s, 400)
  | some rule =>
    if rule.ID = [] ∨ rule.ContainerID = [] ∨ rule.Typ = [] then (s, 400)
    else ({ s with alertDefinitions := s.alertDefinitions ++ [rule] }, 200)

/-- ListAlertRulesHandler: the rules that are encoded into the response. -/
def ListAlertRulesHandler (s : State) : List AlertRule := s.alertRules

/-- QueryAverageMetric: `influx field hostID containerID` is the outcome of the mean query
sent to InfluxDB (`none` for a query error or an empty result). -/
def QueryAverageMetric (influx : GoString → GoString → GoString → Option F64)
    (metricType containerID hostID : GoString) : Option F64 :=
  if metricType = str "high_cpu" then influx (str "cpu") hostID containerID
  else if metricType = str "high_memory" then influx (str "memory") hostID containerID
  else none

/-- The collaborators of `EvaluateAlerts`, indexed by the position of the container in the
payload and of the alert in `alertDefinitions`: the InfluxDB query and the clock. -/
structure EvalEnv where
  influx : Nat → Nat → GoString → GoString → GoString → Option F64
  now : Nat → Nat → Nat

namespace EvaluateAlerts

/-- Lines 61-107: the body of the inner loop for container number `i` and alert number `j`:
the event appended and the e-mail dispatched, if the alert triggers. -/
def body (env : EvalEnv) (payload : AgentPayload) (i : Nat) (container : ContainerMetrics)
    (j : Nat) (alert : AlertDefinition) : Option (AlertEvent × List Action) :=
  if !alert.Enabled || alert.HostID ≠ payload.HostID || alert.ContainerID ≠ container.ID then
    none
  else
    match QueryAverageMetric (env.influx i j) alert.Typ container.ID payload.HostID with
    | none => none
    | some avg =>
      let tm : Bool × GoString :=
        if alert.Typ = str "high_cpu" then
          (if F64.gt avg alert.Threshold then (true, str "CPU usage exceeded threshold")
           else (false, []))
        else if alert.Typ = str "high_memory" then
          (if F64.gt avg alert.Threshold then (true, str "Memory usage exceeded threshold")
           else (false, []))
        else (false, [])
      if tm.1 then
        let event : AlertEvent :=
          { AlertID := alert.ID
            HostID := payload.HostID
            ContainerID := container.ID
            Typ := alert.Typ
            Message := tm.2
            Timestamp := env.now i j
            Restarted := false }
        let subject := str "[DockScope Alert] " ++ alert.Typ ++ str " on " ++ container.Name
        let text := str "Alert ID: " ++ alert.ID ++ str "\nContainer: " ++ container.Name ++
          str "\nType: " ++ alert.Typ ++ str "\n\nMessage:\n" ++ tm.2
        some (event, if alert.Email ≠ [] then [Action.email alert.Email subject text] else [])
      else none

/-- Lines 60-108: the inner loop over `alertDefinitions`, from alert number `j` on. -/
def inner (env : EvalEnv) (payload : AgentPayload) (i : Nat) (container : ContainerMetrics) :
    Nat → List AlertDefinition → State × List Action → State × List Action
  | _, [], acc => acc
  | j, alert :: rest, acc =>
    match body env payload i container j alert with
    | none => inner env payload i container (j + 1) rest acc
    | some (event, actions) =>
      inner env payload i container (j + 1) rest
        ({ acc.1 with alertEvents := acc.1.alertEvents ++ [event] }, acc.2 ++ actions)

/-- Lines 59-109: the outer loop over the containers of the payload, from number `i` on. The
inner loop ranges over the alert definitions as they are when it starts. -/
def outer (env : EvalEnv) (payload : AgentPayload) :
    Nat → List ContainerMetrics → State × List Action → State × List Action
  | _, [], acc => acc
  | i, container :: rest, acc =>
    outer env payload (i + 1) rest (inner env payload i container 0 acc.1.alertDefinitions acc)

end EvaluateAlerts

/-- EvaluateAlerts: the shared state after the call and the e-mails dispatched. -/
def EvaluateAlerts (env : EvalEnv) (payload : AgentPayload) (s : State) : State × List Action :=
  EvaluateAlerts.outer env payload 0 payload.Containers (s, [])

/-! ## `backend/handlers/monitor.go` -/

/-- The collaborators of one tick of the monitor, indexed by the position of the rule in the
snapshot: creation of the Docker client, the stats reading fetched and decoded for a container
(`none` when the fetch or the decoding fails) and the log tail fetched and read for a
container (`none` when the fetch or the read fails). -/
structure MonitorEnv where
  newClient : Nat → Bool
  containerStats : Nat → GoString → Option StatsJSON
  containerLogs : Nat → GoString → Option GoString

/-- Lines 126-146: the effects of `sendAlert`, in order. No shared variable is written. -/
def sendAlert (rt : Runtime) (rule : AlertRule) (message : GoString) : List Action :=
  (if rule.SlackWebhook ≠ [] then [Action.slack rule.SlackWebhook message] else []) ++
  (if rule.Email ≠ [] then
    [Action.email rule.Email (str "[DockScope Alert] " ++ rule.Typ)
      (str "Container: " ++ rule.ContainerID ++ str " triggered " ++ rule.Typ ++
        str ".\nMessage: " ++ message ++ str "\nThreshold: " ++ rt.FormatFloat rule.Threshold)]
   else []) ++
  [Action.autoRecovery rule]

/-- Lines 83-90 of `monitor.go`. -/
def calculateCPUPercent (stats : StatsJSON) : F64 :=
  let cpuDelta := F64.ofNat
    (u64sub stats.CPUStats.CPUUsage.TotalUsage stats.PreCPUStats.CPUUsage.TotalUsage)
  let systemDelta := F64.ofNat (u64sub stats.CPUStats.SystemUsage stats.PreCPUStats.SystemUsage)
  if F64.gt systemDelta F64.zero && F64.gt cpuDelta F64.zero then
    F64.mul
      (F64.mul (F64.div cpuDelta systemDelta)
        (F64.ofInt (stats.CPUStats.CPUUsage.PercpuUsage.length : Int)))
      (F64.ofNat 100)
  else F64.zero

namespace checkContainerResource

/-- Lines 72-80: the checks made once the stats reading is decoded. -/
def check (rt : Runtime) (rule : AlertRule) (containerStats : StatsJSON) : List Action :=
  let cpuPercent := calculateCPUPercent containerStats
  let memUsage := F64.div (F64.ofNat containerStats.MemoryStats.Usage) (F64.ofNat (1024 * 1024))
  (if rule.Typ = HighCPU && F64.gt cpuPercent rule.Threshold then
    sendAlert rt rule (str "High CPU usage: " ++ rt.FormatFloat cpuPercent ++ str "%")
   else []) ++
  (if rule.Typ = HighMemory && F64.gt memUsage rule.Threshold then
    sendAlert rt rule (str "High Memory usage: " ++ rt.FormatFloat memUsage ++ str " MB")
   else [])

end checkContainerResource

/-- Lines 50-81: `checkContainerResource` for rule number `k` of the snapshot. -/
def checkContainerResource (rt : Runtime) (env : MonitorEnv) (k : Nat) (rule : AlertRule) :
    List Action :=
  if !env.newClient k then []
  else
    match env.containerStats k rule.ContainerID with
    | none => []
    | some containerStats => checkContainerResource.check rt rule containerStats

/-- Lines 92-124: `checkLogPattern` for rule number `k` of the snapshot. -/
def checkLogPattern (rt : Runtime) (env : MonitorEnv) (k : Nat) (rule : AlertRule) :
    List Action :=
  if !env.newClient k then []
  else
    match env.containerLogs k rule.ContainerID with
    | none => []
    | some logs =>
      if stringsContains logs rule.Pattern then
        sendAlert rt rule (str "Log pattern matched: '" ++ rule.Pattern ++ str "' found")
      else []

namespace checkAllAlerts

/-- Lines 36-47: the loop over the snapshot `rulesCopy`, from rule number `k` on. -/
def rules (rt : Runtime) (env : MonitorEnv) : Nat → List AlertRule → List Action
  | _, [] => []
  | k, rule :: rest =>
    (if !rule.Enabled then []
     else if rule.Typ = HighCPU ∨ rule.Typ = HighMemory then checkContainerResource rt env k rule
     else if rule.Typ = LogPattern then checkLogPattern rt env k rule
     else []) ++ rules rt env (k + 1) rest

end checkAllAlerts

/-- Lines 30-48: one tick of the monitor: the shared state after the tick and the effects
dispatched. The tick reads `alertRules` and writes no shared variable. -/
def checkAllAlerts (rt : Runtime) (env : MonitorEnv) (s : State) : State × List Action :=
  let rulesCopy := s.alertRules
  (s, checkAllAlerts.rules rt env 0 rulesCopy)

/-! ## Specification-side definitions -/

/-- The CPU percentage in the words of the specification (MetricSampler): for the counter
deltas `cpuDelta`, `systemDelta` and the CPU count `cpuCount`, the value
`cpuDelta / systemDelta * cpuCount * 100` in `float64` arithmetic when both deltas are
strictly positive and `0` otherwise, and `0` in place of any such value outside `[0, 1000]`. -/
def cpuPercentSpec (cpuDelta systemDelta cpuCount : Nat) : F64 :=
  let p :=
    if 0 < cpuDelta ∧ 0 < systemDelta then
      F64.mul (F64.mul (F64.div (F64.ofNat cpuDelta) (F64.ofNat systemDelta)) (F64.ofNat cpuCount))
        (F64.ofNat 100)
    else F64.zero
  if F64.lt p F64.zero ∨ F64.lt (F64.ofNat 1000) p then F64.zero else p

/-- A frame of the multiplexed log stream in the words of the specification: an 8-byte header
(stream tag, three further bytes, four length bytes) and the payload. -/
structure Frame where
  tag : Byte
  pad1 : Byte
  pad2 : Byte
  pad3 : Byte
  len4 : Byte
  len5 : Byte
  len6 : Byte
  len7 : Byte
  payload : List Byte
deriving DecidableEq

/-- The payload length a header declares: bytes 4 to 7 read as a big-endian 32-bit number. -/
def Frame.declared (f : Frame) : Nat :=
  f.len4.val * 2 ^ 24 + f.len5.val * 2 ^ 16 + f.len6.val * 2 ^ 8 + f.len7.val

/-- A well-formed frame: the header is followed by exactly as many payload bytes as it
declares. -/
def Frame.wf (f : Frame) : Prop := f.declared = f.payload.length

instance (f : Frame) : Decidable f.wf := by
  unfold Frame.wf
  infer_instance

/-- The bytes of a frame on the wire. -/
def Frame.encode (f : Frame) : List Byte :=
  [f.tag, f.pad1, f.pad2, f.pad3, f.len4, f.len5, f.len6, f.len7] ++ f.payload

/-- The byte stream made of the given frames, in order. -/
def encodeFrames (frames : List Frame) : List Byte := frames.flatMap Frame.encode

/-- A stats reading with the given counters, `cpus` per-CPU entries, memory usage, optional
`cache` entry and memory limit; no networks and no block-I/O entries. -/
def StatsJSON.sample (total preTotal system preSystem cpus usage : Nat) (cache : Option Nat)
    (limit : Nat) : StatsJSON :=
  { CPUStats := { CPUUsage := { TotalUsage := total, PercpuUsage := List.replicate cpus 0 }
                  SystemUsage := system }
    PreCPUStats := { CPUUsage := { TotalUsage := preTotal, PercpuUsage := [] }
                     SystemUsage := preSystem }
    MemoryStats :=
      { Usage := usage
        Stats := match cache with
          | none => []
          | some c => [(str "cache", c)]
        Limit := limit }
    Networks := []
    BlkioStats := { IoServiceBytesRecursive := [] } }

instance (d : StatsJSON) : Decidable d.wf := by
  unfold StatsJSON.wf
  infer_instance

/-- The listing entry that `ListContainersHandler` builds for a sample `c` of host `hostID`. -/
def ContainerMetrics.toInfo (hostID : GoString) (c : ContainerMetrics) : ContainerInfo :=
  { ID := c.ID
    Name := c.Name
    CPUPercent := c.CPUPercent
    MemoryMB := c.MemoryMB
    Logs := c.Logs
    Image := c.Image
    HostID := hostID }

/-- The query without filters and without pagination (`GET /containers`, possibly with a
`sort_by` and an `order`). -/
def Query.unfiltered (sortBy order : GoString) : Query :=
  { host_id := [], name := [], image := [], label := [], limit := 0, offset := 0,
    sort_by := sortBy, order := order }

/-- ASCII lower-casing of one byte. -/
def asciiLower (b : Byte) : Byte := if 65 ≤ b.val ∧ b.val ≤ 90 then b + 32 else b

/-- Whether a byte is an ASCII white-space character. -/
def asciiSpace (b : Byte) : Bool := b = 32 || (9 ≤ b.val && b.val ≤ 13)

/-- Insertion of `x` into a list sorted by `less`, after the elements that are not above it. -/
def insertByLess {α : Type} (less : α → α → Bool) (x : α) : List α → List α
  | [] => [x]
  | y :: ys => if less x y then x :: y :: ys else y :: insertByLess less x ys

/-- A runtime for concrete runs: `strings.ToLower` and `strings.TrimSpace` as they act on ASCII
text, an insertion sort for `sort.Slice`, map iteration in insertion order, and a float
formatting that prints nothing. -/
def Runtime.ascii : Runtime :=
  { ToLower := fun s => s.map asciiLower
    TrimSpace := fun s => ((s.dropWhile asciiSpace).reverse.dropWhile asciiSpace).reverse
    sortSlice := fun less xs => xs.foldl (fun acc x => insertByLess less x acc) []
    mapRange := fun m => m
    FormatFloat := fun _ => [] }

/-- A sample with the given id, name, image, CPU percentage and memory figure. -/
def ContainerMetrics.sample (id name image : GoString) (cpu mem : F64) : ContainerMetrics :=
  { ID := id, Name := name, Image := image, CPUPercent := cpu, MemoryMB := mem,
    MemoryPercent := F64.zero, Uptime := [], Restart := [], RestartCount := 0,
    CPUHistory := [], MemoryHistory := [], Logs := [], HostID := [] }

/-- The shared variables at process start, before any request. -/
def State.initial : State :=
  { alertRules := [], alertEvents := [], alertDefinitions := [], agentMetrics := [] }

/-- An enabled alert rule with the given id, container, kind and threshold, on host `master`,
without notification targets. -/
def AlertRule.sample (id containerID typ : GoString) (threshold : F64) : AlertRule :=
  { ID := id, HostID := str "master", ContainerID := containerID, Typ := typ,
    Threshold := threshold, Pattern := [], Email := [], SlackWebhook := [],
    AutoRestart := false, AutoStop := false, Enabled := true }

/-- An enabled alert definition with the given id, host, container, kind and threshold,
without notification targets. -/
def AlertDefinition.sample (id hostID containerID typ : GoString) (threshold : F64) :
    AlertDefinition :=
  { ID := id, HostID := hostID, Typ := typ, Threshold := threshold, Pattern := [],
    ContainerID := containerID, Enabled := true, SlackWebhook := [], Email := [],
    AutoRestart := false, AutoStop := false }

/-- A monitor environment in which the Docker client is always created, every stats fetch
returns `stats` and every log fetch returns `logs`. -/
def MonitorEnv.steady (stats : StatsJSON) (logs : GoString) : MonitorEnv :=
  { newClient := fun _ => true
    containerStats := fun _ _ => some stats
    containerLogs := fun _ _ => some logs }

/-- An evaluation environment in which every mean query returns `avg` and the clock reads
`0`. -/
def EvalEnv.steady (avg : F64) : EvalEnv :=
  { influx := fun _ _ _ _ _ => some avg
    now := fun _ _ => 0 }

/-- The event that the specification asks for when alert number `j` is evaluated against
container number `i` of the payload: present when the alert is enabled, matches the payload's
host and the container's id, the mean query succeeds and the mean is strictly above the
threshold. -/
def specEvent (env : EvalEnv) (payload : AgentPayload) (i : Nat) (container : ContainerMetrics)
    (j : Nat) (alert : AlertDefinition) : Option AlertEvent :=
  if alert.Enabled = true ∧ alert.HostID = payload.HostID ∧ alert.ContainerID = container.ID then
    match QueryAverageMetric (env.influx i j) alert.Typ container.ID payload.HostID with
    | none => none
    | some avg =>
      if F64.gt avg alert.Threshold = true then
        some { AlertID := alert.ID
               HostID := payload.HostID
               ContainerID := container.ID
               Typ := alert.Typ
               Message := if alert.Typ = str "high_cpu" then str "CPU usage exceeded threshold"
                 else str "Memory usage exceeded threshold"
               Timestamp := env.now i j
               Restarted := false }
      else none
  else none

/-- The events that the specification asks `EvaluateAlerts` to append: one per (container,
alert) pair with a `specEvent`, containers in payload order and, for each container, alerts
in list order. -/
def specEvents (env : EvalEnv) (payload : AgentPayload) (defs : List AlertDefinition) :
    List AlertEvent :=
  payload.Containers.enum.flatMap
    (fun ic => defs.enum.filterMap (fun ja => specEvent env payload ic.1 ic.2 ja.1 ja.2))

/-! ## `agent/main.go` -/

namespace agent

/-- Lines 109-116 of `agent/main.go`. -/
def calculateCPUPercent (stats : StatsJSON) : F64 :=
  let cpuDelta := F64.ofNat
    (u64sub stats.CPUStats.CPUUsage.TotalUsage stats.PreCPUStats.CPUUsage.TotalUsage)
  let systemDelta := F64.ofNat (u64sub stats.CPUStats.SystemUsage stats.PreCPUStats.SystemUsage)
  if F64.gt systemDelta F64.zero && F64.gt cpuDelta F64.zero then
    F64.mul
      (F64.mul (F64.div cpuDelta systemDelta)
        (F64.ofInt (stats.CPUStats.CPUUsage.PercpuUsage.length : Int)))
      (F64.ofNat 100)
  else F64.zero

end agent

/-! ## `backend/handlers/logs.go`, `GetContainerLogsHandler` -/

namespace GetContainerLogsHandler

/-- Lines 34, 37-42: the page number. `pageParam` is the value that `fmt.Sscanf` stored into
`page`, `none` when the `page` parameter is empty or nothing was stored (the variable then
keeps its initial value `1`). -/
def pageOf (pageParam : Option Int) : Int :=
  match pageParam with
  | none => 1
  | some page => if page < 1 then 1 else page

/-- Lines 35, 43-48: the page size, with initial value `100`. -/
def limitOf (limitParam : Option Int) : Int :=
  match limitParam with
  | none => 100
  | some limit => if limit < 1 then 100 else limit

/-- Lines 122-132: the pagination step on the filtered lines; `none` is the panic of
`filtered[start:end]`. -/
def paginate (filtered : List GoString) (page limit : Int) : Option (List GoString) :=
  let start := wrapInt ((page - 1) * limit)
  let end1 := wrapInt (start + limit)
  let start := if start > (filtered.length : Int) then (filtered.length : Int) else start
  let end2 := if end1 > (filtered.length : Int) then (filtered.length : Int) else end1
  goSlice filtered start end2

/-- Lines 34-48 and 122-136: the lines written to the response for the filtered lines and the
two parameters. -/
def paged (filtered : List GoString) (pageParam limitParam : Option Int) :
    Option (List GoString) :=
  paginate filtered (pageOf pageParam) (limitOf limitParam)

end GetContainerLogsHandler

/-! ## Specification-side definitions: log sessions -/

/-- The payload length that an 8-byte header declares: bytes 4 to 7 read as a big-endian
32-bit number. -/
def headerDeclared (header : List Byte) : Nat :=
  (header.getD 4 0).val * 2 ^ 24 + (header.getD 5 0).val * 2 ^ 16 +
    (header.getD 6 0).val * 2 ^ 8 + (header.getD 7 0).val

/-- A truncated tail of a log stream: fewer than 8 header bytes, or a complete header followed
by fewer payload bytes than it declares. -/
def truncatedTail (tail : List Byte) : Prop :=
  tail.length < 8 ∨ tail.length - 8 < headerDeclared (tail.take 8)

instance (tail : List Byte) : Decidable (truncatedTail tail) := by
  unfold truncatedTail
  infer_instance

/-- The lines decoded from a list of frames: the payloads of the frames whose payload is not
empty, in frame order. -/
def decodedLines (frames : List Frame) : List GoString :=
  (frames.map Frame.payload).filter (fun p => p ≠ [])

/-- Whether a line passes the filter of a log session: the filter is empty, or the lower-cased
line contains the lower-cased filter. -/
def lineMatches (rt : Runtime) (filter line : GoString) : Bool :=
  decide (filter = []) || stringsContains (rt.ToLower line) (rt.ToLower filter)

/-- The lines pushed when the given lines are pushed one after the other until a push fails;
`k` is the number of lines pushed before. -/
def pushUntilFailure (writeOk : Nat → GoString → Bool) : Nat → List GoString → List GoString
  | _, [] => []
  | k, line :: rest =>
    if writeOk k line then line :: pushUntilFailure writeOk (k + 1) rest else []

/-- The frame made of an 8-byte header and a payload. -/
def Frame.ofBytes (header payload : List Byte) : Frame :=
  { tag := header.getD 0 0, pad1 := header.getD 1 0, pad2 := header.getD 2 0,
    pad3 := header.getD 3 0, len4 := header.getD 4 0, len5 := header.getD 5 0,
    len6 := header.getD 6 0, len7 := header.getD 7 0, payload := payload }

/-! ## Specification-side definitions: the order of the listing -/

namespace F64

/-- The rational number `(-1) ^ neg * m * 2 ^ e`. -/
def toRat (neg : Bool) (m : Nat) (e : Int) : ℚ :=
  (if neg then -1 else 1) * (m : ℚ) * (2 : ℚ) ^ e

/-- The value of a float on the rational line extended by `-∞` and `+∞` (NaN, which has no
place in the order, is sent to `-∞`). -/
def toExt : F64 → WithBot (WithTop ℚ)
  | nan => ⊥
  | inf true => ⊥
  | inf false => ((⊤ : WithTop ℚ) : WithBot (WithTop ℚ))
  | fin s m e => ((toRat s m e : WithTop ℚ) : WithBot (WithTop ℚ))

end F64

/-- The keys by which the listing can be sorted. -/
inductive SortKey where
  | cpu : SortKey
  | memory : SortKey
  | name : SortKey
deriving DecidableEq

/-- The key that a `sort_by` parameter chooses: `cpu`, `memory`, and the name for a missing
parameter and for any other value. -/
def SortKey.ofParam (sortBy : GoString) : SortKey :=
  if sortBy = str "cpu" then SortKey.cpu
  else if sortBy = str "memory" then SortKey.memory
  else SortKey.name

/-- The order `a ≤ b` of strings, bytewise lexicographic. -/
def stringLe : GoString → GoString → Bool
  | [], _ => true
  | _ :: _, [] => false
  | a :: as, b :: bs => decide (a < b) || (decide (a = b) && stringLe as bs)

/-- Whether the key of entry `a` is at most the key of entry `b`. -/
def SortKey.le (k : SortKey) (a b : ContainerInfo) : Bool :=
  match k with
  | SortKey.cpu => F64.le a.CPUPercent b.CPUPercent
  | SortKey.memory => F64.le a.MemoryMB b.MemoryMB
  | SortKey.name => stringLe a.Name b.Name

/-- Whether entry `a` may stand before entry `b` in a listing sorted by the key `k`, descending
when `desc` holds and ascending otherwise. -/
def keyOrdered (k : SortKey) (desc : Bool) (a b : ContainerInfo) : Prop :=
  if desc then k.le b a = true else k.le a b = true

/-- Whether two entries have equal sort keys. -/
def keyTied (k : SortKey) (a b : ContainerInfo) : Prop :=
  k.le a b = true ∧ k.le b a = true

/-- The figures of a listing entry are numbers: they are 0 for a local container and decoded
from JSON, which has no notation for NaN, for a container of an agent. -/
def ContainerInfo.wf (c : ContainerInfo) : Prop :=
  c.CPUPercent ≠ F64.nan ∧ c.MemoryMB ≠ F64.nan

instance (c : ContainerInfo) : Decidable c.wf := by
  unfold ContainerInfo.wf
  infer_instance

/-- What `less` must satisfy on the elements of `xs` for Go's `sort` package: it describes a
transitive ordering (nothing is below itself; `less` is transitive; "neither below the other"
is transitive). -/
def transitiveOrdering (less : ContainerInfo → ContainerInfo → Bool)
    (xs : List ContainerInfo) : Prop :=
  (∀ a ∈ xs, less a a = false) ∧
  (∀ a ∈ xs, ∀ b ∈ xs, ∀ c ∈ xs, less a b = true → less b c = true → less a c = true) ∧
  (∀ a ∈ xs, ∀ b ∈ xs, ∀ c ∈ xs, less a b = false → less b c = false → less a c = false)

/-- The documented behaviour of Go's `sort.Slice`: given a `less` that describes a transitive
ordering of the elements, the slice is rearranged so that no element is below an earlier one.
The sort is not guaranteed to be stable, so nothing is said of the order of elements neither
of which is below the other. -/
def Runtime.sortsSlices (rt : Runtime) : Prop :=
  ∀ (less : ContainerInfo → ContainerInfo → Bool) (xs : List ContainerInfo),
    transitiveOrdering less xs →
      (rt.sortSlice less xs).Perm xs ∧
      (rt.sortSlice less xs).Pairwise (fun a b => less b a = false)

/-- A runtime like `Runtime.ascii` whose `sort.Slice` visits the slice from its last element:
it sorts, and leaves elements neither of which is below the other in reverse input order. -/
def Runtime.tieReversing : Runtime :=
  { ToLower := Runtime.ascii.ToLower
    TrimSpace := Runtime.ascii.TrimSpace
    sortSlice := fun less xs => xs.reverse.foldl (fun acc x => insertByLess less x acc) []
    mapRange := Runtime.ascii.mapRange
    FormatFloat := Runtime.ascii.FormatFloat }

/-- Whether the key of entry `a` is below the key of entry `b`. -/
def SortKey.lt (k : SortKey) (a b : ContainerInfo) : Bool :=
  match k with
  | SortKey.cpu => F64.lt a.CPUPercent b.CPUPercent
  | SortKey.memory => F64.lt a.MemoryMB b.MemoryMB
  | SortKey.name => stringLt a.Name b.Name

/-! ## Go's `sort.Slice` on short slices -/

namespace GoSort

/-- The call `data.Less(i, j)` of the sort package: `less` on the elements at `i` and `j`. -/
def lessAt {α : Type} (less : α → α → Bool) (data : List α) (i j : Nat) : Bool :=
  match data.get? i, data.get? j with
  | some x, some y => less x y
  | _, _ => false

/-- The call `data.Swap(i, j)`. -/
def swap {α : Type} (data : List α) (i j : Nat) : List α :=
  match data.get? i, data.get? j with
  | some x, some y => (data.set i y).set j x
  | _, _ => data

/-- The inner loop of `insertionSort_func`:
`for j := i; j > a && data.Less(j, j-1); j-- { data.Swap(j, j-1) }`. -/
def insertionSort.inner {α : Type} (less : α → α → Bool) (a : Nat) : Nat → List α → List α
  | 0, data => data
  | j + 1, data =>
    if j + 1 > a && lessAt less data (j + 1) j then inner less a j (swap data (j + 1) j)
    else data

/-- Go `insertionSort_func(data, a, b)`: insertion sort of `data[a:b]`. -/
def insertionSort {α : Type} (less : α → α → Bool) (data : List α) (a b : Nat) : List α :=
  (List.range' (a + 1) (b - (a + 1))).foldl (fun data i => insertionSort.inner less a i data)
    data

/-- Go `order2_func`: the two indices in order, and the number of swaps so far. -/
def order2 {α : Type} (less : α → α → Bool) (data : List α) (a b swaps : Nat) :
    Nat × Nat × Nat :=
  if lessAt less data b a then (b, a, swaps + 1) else (a, b, swaps)

/-- Go `median_func`: the index of the median of three elements, and the number of swaps. -/
def median {α : Type} (less : α → α → Bool) (data : List α) (a b c swaps : Nat) : Nat × Nat :=
  let r1 := order2 less data a b swaps
  let r2 := order2 less data r1.2.1 c r1.2.2
  let r3 := order2 less data r1.1 r2.1 r2.2.2
  (r3.2.1, r3.2.2)

/-- Go `choosePivot_func(data, a, b)` on fewer than 50 elements (no ninther): the pivot index
and the number of swaps; no swap is the hint "increasing". -/
def choosePivot {α : Type} (less : α → α → Bool) (data : List α) (a b : Nat) : Nat × Nat :=
  let l := b - a
  if l ≥ 8 then median less data (a + l / 4 * 1) (a + l / 4 * 2) (a + l / 4 * 3) 0
  else (a + l / 4 * 2, 0)

/-- Go `partialInsertionSort_func(data, a, b)` on fewer than 50 elements: nothing is moved,
and the result tells whether `data[a:b]` is already sorted. -/
def partialInsertionSort {α : Type} (less : α → α → Bool) (data : List α) (a b : Nat) : Bool :=
  (List.range' (a + 1) (b - (a + 1))).all (fun i => !lessAt less data i (i - 1))

/-- The loop `for i <= j && data.Less(i, a) { i++ }` of `partition_func`. -/
def partition.scanUp {α : Type} (less : α → α → Bool) (data : List α) (a j : Nat) :
    Nat → Nat → Nat
  | 0, i => i
  | fuel + 1, i => if i ≤ j && lessAt less data i a then scanUp less data a j fuel (i + 1) else i

/-- The loop `for i <= j && !data.Less(j, a) { j-- }` of `partition_func`. -/
def partition.scanDown {α : Type} (less : α → α → Bool) (data : List α) (a i : Nat) :
    Nat → Nat → Nat
  | 0, j => j
  | fuel + 1, j =>
    if i ≤ j && !lessAt less data j a then scanDown less data a i fuel (j - 1) else j

/-- The main loop of `partition_func`. -/
def partition.loop {α : Type} (less : α → α → Bool) (a : Nat) :
    Nat → List α → Nat → Nat → List α × Nat
  | 0, data, _, j => (data, j)
  | fuel + 1, data, i, j =>
    let i1 := partition.scanUp less data a j data.length i
    let j1 := partition.scanDown less data a i1 data.length j
    if i1 > j1 then (data, j1)
    else loop less a fuel (swap data i1 j1) (i1 + 1) (j1 - 1)

/-- Go `partition_func(data, a, b, pivot)`: the rearranged slice and the new index of the
pivot. -/
def partition {α : Type} (less : α → α → Bool) (data : List α) (a b pivot : Nat) :
    List α × Nat :=
  let data := swap data a pivot
  let i := partition.scanUp less data a (b - 1) data.length (a + 1)
  let j := partition.scanDown less data a i data.length (b - 1)
  if i > j then (swap data j a, j)
  else
    let r := partition.loop less a data.length (swap data i j) (i + 1) (j - 1)
    (swap r.1 r.2 a, r.2)

/-- Go `sort.Slice` (`pdqsort_func` of Go 1.19 and later) on a slice of at most 13 elements:
up to 12 elements are insertion-sorted; on 13 elements the pivot is chosen, a slice found
sorted is left as it is, and otherwise the slice is partitioned once and its two sides are
insertion-sorted. Longer slices are not covered (`none`). -/
def pdqsort {α : Type} (less : α → α → Bool) (data : List α) : Option (List α) :=
  if data.length ≤ 12 then some (insertionSort less data 0 data.length)
  else if data.length = 13 then
    let p := choosePivot less data 0 data.length
    if p.2 = 0 && partialInsertionSort less data 0 data.length then some data
    else
      let r := partition less data 0 data.length p.1
      some (insertionSort less (insertionSort less r.1 0 r.2) (r.2 + 1) data.length)
  else none

end GoSort

/-- A listing for the given container numbers: containers 0 and 1 are named `"web"`, the
others `"api"`; the id of container `i` is the byte `i`. -/
def tiedListing (numbers : List Nat) : List ContainerInfo :=
  numbers.map (fun i =>
    { ID := [Fin.ofNat i], Name := if i < 2 then str "web" else str "api",
      CPUPercent := F64.zero, MemoryMB := F64.zero, Logs := [], Image := str "nginx",
      HostID := str "h1" })

/-! ## Specification-side definitions: a tick of the monitor -/

/-- The message with which rule number `k` of a tick triggers, in the words of the
specification: the rule is enabled, its fetch succeeded (the Docker client was created and the
stats reading, or the log tail, was fetched and read) and its condition holds (the measured
value is above the threshold, or the log tail contains the pattern). `none` when the rule does
not trigger. -/
def specTrigger (rt : Runtime) (env : MonitorEnv) (k : Nat) (rule : AlertRule) :
    Option GoString :=
  if rule.Enabled = true ∧ env.newClient k = true then
    if rule.Typ = HighCPU then
      (env.containerStats k rule.ContainerID).bind (fun stats =>
        if F64.gt (calculateCPUPercent stats) rule.Threshold = true then
          some (str "High CPU usage: " ++ rt.FormatFloat (calculateCPUPercent stats) ++ str "%")
        else none)
    else if rule.Typ = HighMemory then
      (env.containerStats k rule.ContainerID).bind (fun stats =>
        if F64.gt (F64.div (F64.ofNat stats.MemoryStats.Usage) (F64.ofNat (1024 * 1024)))
            rule.Threshold = true then
          some (str "High Memory usage: " ++
            rt.FormatFloat (F64.div (F64.ofNat stats.MemoryStats.Usage)
              (F64.ofNat (1024 * 1024))) ++ str " MB")
        else none)
    else if rule.Typ = LogPattern then
      (env.containerLogs k rule.ContainerID).bind (fun logs =>
        if stringsContains logs rule.Pattern = true then
          some (str "Log pattern matched: '" ++ rule.Pattern ++ str "' found")
        else none)
    else none
  else none

/-- The effects of rule number `k` in a tick, in the words of the specification: the alert of
the rule when it triggers, nothing otherwise. -/
def specRuleActions (rt : Runtime) (env : MonitorEnv) (k : Nat) (rule : AlertRule) :
    List Action :=
  match specTrigger rt env k rule with
  | some message => sendAlert rt rule message
  | none => []

/-- The effects of a tick in the words of the specification: the alerts of the rules that
trigger, in rule order. -/
def specTick (rt : Runtime) (env : MonitorEnv) (rules : List AlertRule) : List Action :=
  rules.enum.flatMap (fun kr => specRuleActions rt env kr.1 kr.2)

/-- A monitor environment in which the Docker client is always created and the fetches for
the rule numbers in `failing` fail, while every other stats fetch returns `stats` and every
other log fetch returns `logs`. -/
def MonitorEnv.failingAt (failing : List Nat) (stats : StatsJSON) (logs : GoString) :
    MonitorEnv :=
  { newClient := fun _ => true
    containerStats := fun k _ => if k ∈ failing then none else some stats
    containerLogs := fun k _ => if k ∈ failing then none else some logs }

/-! ## `backend/handlers/logs.go`, the filter of `GetContainerLogsHandler` -/

/-- Go `strings.SplitN(s, sep, 2)` for a one-byte separator: the text before the first
separator and the text after it, or the text alone when it has no separator. -/
def stringsSplitN2 (s : GoString) (sep : Byte) : List GoString :=
  if (s.takeWhile (fun b => b ≠ sep)).length = s.length then [s]
  else [s.takeWhile (fun b => b ≠ sep), s.drop ((s.takeWhile (fun b => b ≠ sep)).length + 1)]

namespace GetContainerLogsHandler

/-- Go `dropCR` of package `bufio`: one trailing carriage return is dropped. -/
def dropCR (data : List Byte) : List Byte :=
  if data.getLast? = some 13 then data.dropLast else data

/-- Lines 91-95: the texts that `scanner.Scan()` and `scanner.Text()` give one after the other
on the stream `data`, for a `bufio.Scanner` with its default split function (`ScanLines`) and
buffer: a line ends at a newline byte, one trailing carriage return is dropped, a last line
without newline is given too, and the scan ends (`ErrTooLong`, which the handler does not look
at) at a line of more than 65535 bytes. `fuel` bounds the number of lines. -/
def scanLines : Nat → List Byte → List GoString
  | 0, _ => []
  | fuel + 1, data =>
    if data = [] then []
    else if 65535 < (data.takeWhile (fun b => b ≠ 10)).length then []
    else
      dropCR (data.takeWhile (fun b => b ≠ 10)) ::
        scanLines fuel (data.drop ((data.takeWhile (fun b => b ≠ 10)).length + 1))

/-- Lines 95-119: whether the loop body appends the scanned text `raw` to `filtered`.
`timeParse` is Go `time.Parse(time.RFC3339Nano, ·)` (the instant in nanoseconds, `none` for a
parse error); `sinceTime` and `untilTime` are the bounds that lines 50-65 settle. -/
def keeps (rt : Runtime) (timeParse : GoString → Option Int) (sinceTime untilTime : Int)
    (search raw : GoString) : Bool :=
  match stringsSplitN2 raw 32 with
  | [timestampStr, message] =>
    match timeParse timestampStr with
    | none => false
    | some t =>
      if t < sinceTime || untilTime < t then false
      else if search ≠ [] && !stringsContains (rt.ToLower message) (rt.ToLower search) then
        false
      else true
  | _ => false

/-- Lines 91-120: the list `filtered` built from the stream that `cli.ContainerLogs`
returned. Every line takes at least one byte, so `reader.length + 1` lines exhaust the
stream. -/
def filtered (rt : Runtime) (timeParse : GoString → Option Int) (sinceTime untilTime : Int)
    (search : GoString) (reader : List Byte) : List GoString :=
  (scanLines (reader.length + 1) reader).filter (keeps rt timeParse sinceTime untilTime search)

end GetContainerLogsHandler

/-- GetContainerLogsHandler: `clientOk` tells whether the Docker client could be created and
`logs` is the stream returned by `cli.ContainerLogs` (`none` when the call fails); the reply
carries the lines written to the response. -/
def GetContainerLogsHandler (rt : Runtime) (timeParse : GoString → Option Int)
    (containerID search : GoString) (sinceTime untilTime : Int)
    (pageParam limitParam : Option Int) (clientOk : Bool) (logs : Option (List Byte)) :
    Reply (List GoString) :=
  if containerID = [] then Reply.error 400
  else if !clientOk then Reply.error 500
  else
    match logs with
    | none => Reply.error 500
    | some reader =>
      match GetContainerLogsHandler.paged
          (GetContainerLogsHandler.filtered rt timeParse sinceTime untilTime search reader)
          pageParam limitParam with
      | none => Reply.panic
      | some page => Reply.ok page

/-! ## Specification-side definitions: historical logs -/

/-- The header bytes of a frame. -/
def Frame.header (f : Frame) : List Byte :=
  [f.tag, f.pad1, f.pad2, f.pad3, f.len4, f.len5, f.len6, f.len7]

/-- A frame that carries one line: it is well formed, its tag is one of the stream tags 0, 1
and 2, its header has no newline byte, and its payload is a line of at most 65000 bytes without
newline followed by a newline. -/
def Frame.oneLine (f : Frame) : Prop :=
  f.wf ∧ f.tag.val ≤ 2 ∧ (10 : Byte) ∉ f.header ∧ f.payload.getLast? = some 10 ∧
    (10 : Byte) ∉ f.payload.dropLast ∧ f.payload.length ≤ 65000

instance (f : Frame) : Decidable f.oneLine := by
  unfold Frame.oneLine
  infer_instance

/-- The value of an ASCII digit. -/
def digitValue (b : Byte) : Option Nat :=
  if 48 ≤ b.val ∧ b.val ≤ 57 then some (b.val - 48) else none

/-- The number written by a sequence of ASCII digits. -/
def digitsValue (s : List Byte) : Option Nat :=
  s.foldl (fun acc b =>
    match acc, digitValue b with
    | some n, some d => some (10 * n + d)
    | _, _ => none) (some 0)

/-- The number of days of month `m` of year `y`. -/
def daysInMonth (y m : Nat) : Nat :=
  if m = 2 then (if y % 4 = 0 ∧ (y % 100 ≠ 0 ∨ y % 400 = 0) then 29 else 28)
  else if m = 4 ∨ m = 6 ∨ m = 9 ∨ m = 11 then 30
  else 31

/-- The number of days from 1 January of year 1 to the given day. -/
def daysBefore (y m d : Nat) : Nat :=
  365 * (y - 1) + (y - 1) / 4 - (y - 1) / 100 + (y - 1) / 400 +
    ((List.range (m - 1)).map (fun i => daysInMonth y (i + 1))).sum + (d - 1)

/-- The nanoseconds written by the fraction of a timestamp: nothing, or a period followed by
digits (the first nine count), up to the closing `Z`. -/
def fractionNanos (rest : List Byte) : Option Nat :=
  if rest = [90] then some 0
  else
    match rest with
    | p :: more =>
      if p = 46 ∧ more.getLast? = some 90 ∧ 2 ≤ more.length then
        (digitsValue more.dropLast).bind (fun _ =>
          digitsValue ((more.dropLast ++ List.replicate 9 48).take 9))
      else none
    | [] => none

/-- A time parser for concrete runs: Go `time.Parse(time.RFC3339Nano, ·)` on the UTC
timestamps `YYYY-MM-DDTHH:MM:SS[.fraction]Z` of the years from 1 on, as the number of
nanoseconds since the zero time `0001-01-01T00:00:00Z`; every other text is refused. -/
def timeParseUTC (s : GoString) : Option Int :=
  if s.getD 4 0 = 45 ∧ s.getD 7 0 = 45 ∧ s.getD 10 0 = 84 ∧ s.getD 13 0 = 58 ∧
      s.getD 16 0 = 58 ∧ 19 ≤ s.length then
    match digitsValue (s.take 4), digitsValue ((s.drop 5).take 2),
      digitsValue ((s.drop 8).take 2), digitsValue ((s.drop 11).take 2),
      digitsValue ((s.drop 14).take 2), digitsValue ((s.drop 17).take 2),
      fractionNanos (s.drop 19) with
    | some y, some m, some d, some h, some n, some sec, some ns =>
      if 1 ≤ y ∧ 1 ≤ m ∧ m ≤ 12 ∧ 1 ≤ d ∧ d ≤ daysInMonth y m ∧ h < 24 ∧ n < 60 ∧ sec < 60 then
        some ((((((daysBefore y m d * 24 + h) * 60 + n) * 60 + sec) * 1000000000 + ns : Nat) :
          Int))
      else none
    | _, _, _, _, _, _, _ => none
  else none

/-! ## `agent/main.go`: the push of the agent, and its decoding by the backend -/

/-- A JSON value as `encoding/json` writes it for a `string` field or a `float64` field (texts
are valid UTF-8, as the ids, names and images of the Docker API are; a number stands for the
shortest literal that reads back as the same `float64`). -/
inductive JSONValue where
  | string (s : GoString) : JSONValue
  | number (x : F64) : JSONValue
deriving DecidableEq

/-- A JSON object with such values: its keys and values in document order. -/
abbrev JSONObject := List (GoString × JSONValue)

/-- The JSON document of a push, by the three keys that the `AgentPayload` of the agent and
the `AgentPayload` of the backend share: `host_id`, `containers` (an array of objects, or
`null` for a nil slice, both the empty list here) and `timestamp`. -/
structure PushDocument where
  host_id : GoString
  containers : List JSONObject
  timestamp : GoString
deriving DecidableEq

/-- Whether a float is a number (neither NaN nor an infinity). -/
def F64.isFinite : F64 → Bool
  | F64.fin _ _ _ => true
  | _ => false

/-- The integer that a float is, if it is one. -/
def F64.toInt? : F64 → Option Int
  | F64.fin s m e =>
    if 0 ≤ e then some ((if s then -1 else 1) * ((m * 2 ^ e.toNat : Nat) : Int))
    else if m % 2 ^ (-e).toNat = 0 then
      some ((if s then -1 else 1) * ((m / 2 ^ (-e).toNat : Nat) : Int))
    else none
  | _ => none

namespace agent

/-- `ContainerMetrics` of `agent/main.go` (lines 23-29). -/
structure ContainerMetrics where
  ID : GoString
  Name : GoString
  Image : GoString
  CPU : F64
  Memory : F64
deriving DecidableEq

/-- `AgentPayload` of `agent/main.go` (lines 31-35). -/
structure AgentPayload where
  HostID : GoString
  Containers : List ContainerMetrics
  Timestamp : GoString
deriving DecidableEq

namespace collectMetrics

/-- Lines 71-99: the loop over the listed containers, each with the stats reading fetched and
decoded for it (`none` when the fetch or the decoding fails); `none` is the index panic of
`container.Names[0]`. -/
def loop : List (DockerContainer × Option StatsJSON) → List ContainerMetrics →
    Option (List ContainerMetrics)
  | [], metrics => some metrics
  | (container, stats) :: rest, metrics =>
    match stats with
    | none => loop rest metrics
    | some containerStats =>
      let cpu := calculateCPUPercent containerStats
      let mem := F64.div (F64.ofNat containerStats.MemoryStats.Usage) (F64.ofNat (1024 * 1024))
      match container.Names with
      | [] => none
      | n0 :: _ =>
        let name := stringsTrimPrefix n0 (str "/")
        loop rest (metrics ++
          [{ ID := container.ID, Name := name, Image := container.Image, CPU := cpu,
             Memory := mem }])

end collectMetrics

/-- Lines 57-107: `collectMetrics`, once the Docker client is created. `containers` is the
result of `cli.ContainerList` (`none` when it fails) and `now` the formatted clock reading. -/
def collectMetrics (hostID : GoString)
    (containers : Option (List (DockerContainer × Option StatsJSON))) (now : GoString) :
    Option AgentPayload :=
  match containers with
  | none => some { HostID := hostID, Containers := [], Timestamp := [] }
  | some containers =>
    match collectMetrics.loop containers [] with
    | none => none
    | some metrics => some { HostID := hostID, Containers := metrics, Timestamp := now }

/-- The JSON object that `json.Marshal` writes for a `ContainerMetrics` of the agent: the
struct tags of lines 24-28. -/
def ContainerMetrics.marshal (c : ContainerMetrics) : JSONObject :=
  [(str "id", JSONValue.string c.ID), (str "name", JSONValue.string c.Name),
   (str "image", JSONValue.string c.Image), (str "cpu", JSONValue.number c.CPU),
   (str "memory", JSONValue.number c.Memory)]

/-- Line 119: `json.Marshal(payload)`; `none` is the error for a float that is not a number,
after which nothing is sent. -/
def AgentPayload.marshal (p : AgentPayload) : Option PushDocument :=
  if p.Containers.all (fun c => c.CPU.isFinite && c.Memory.isFinite) then
    some { host_id := p.HostID, containers := p.Containers.map ContainerMetrics.marshal,
           timestamp := p.Timestamp }
  else none

end agent

/-- The zero value of the backend's `ContainerMetrics`. -/
def ContainerMetrics.zero : ContainerMetrics :=
  { ID := [], Name := [], Image := [], CPUPercent := F64.zero, MemoryMB := F64.zero,
    MemoryPercent := F64.zero, Uptime := [], Restart := [], RestartCount := 0,
    CPUHistory := [], MemoryHistory := [], Logs := [], HostID := [] }

/-- The JSON keys of the backend's `ContainerMetrics`, in field order: the struct tags of
`types.go`, lines 10-22. -/
def ContainerMetrics.jsonKeys : List GoString :=
  [str "id", str "name", str "image", str "cpu_percent", str "memory_mb", str "memory_percent",
   str "uptime", str "restart", str "restart_count", str "cpu_history", str "memory_history",
   str "logs", str "host_id"]

/-- The field that `encoding/json` fills for a key of the document: the field with exactly
this key, else the first field whose key differs from it only in the case of letters; `none`
when there is no such field and the key is skipped. -/
def ContainerMetrics.fieldFor (key : GoString) : Option GoString :=
  match ContainerMetrics.jsonKeys.find? (fun k => k = key) with
  | some k => some k
  | none => ContainerMetrics.jsonKeys.find? (fun k => k.map asciiLower = key.map asciiLower)

/-- The decoding of one key and value of the document into the struct; `none` is the error of
a value that does not fit the type of the field (`UnmarshalTypeError`). -/
def ContainerMetrics.setField (c : ContainerMetrics) (key : GoString) (v : JSONValue) :
    Option ContainerMetrics :=
  match ContainerMetrics.fieldFor key with
  | none => some c
  | some k =>
    match v with
    | JSONValue.string s =>
      if k = str "id" then some { c with ID := s }
      else if k = str "name" then some { c with Name := s }
      else if k = str "image" then some { c with Image := s }
      else if k = str "uptime" then some { c with Uptime := s }
      else if k = str "restart" then some { c with Restart := s }
      else if k = str "host_id" then some { c with HostID := s }
      else none
    | JSONValue.number x =>
      if k = str "cpu_percent" then some { c with CPUPercent := x }
      else if k = str "memory_mb" then some { c with MemoryMB := x }
      else if k = str "memory_percent" then some { c with MemoryPercent := x }
      else if k = str "restart_count" then
        match x.toInt? with
        | some i => if -(2 ^ 63) ≤ i ∧ i < 2 ^ 63 then some { c with RestartCount := i } else none
        | none => none
      else none

/-- The decoding of a JSON object into the backend's `ContainerMetrics`: the keys are taken in
document order, starting from the zero value. -/
def ContainerMetrics.unmarshal (obj : JSONObject) : Option ContainerMetrics :=
  obj.foldl (fun acc kv => acc.bind (fun c => c.setField kv.1 kv.2)) (some ContainerMetrics.zero)

/-- The decoding of the array of a push document. -/
def ContainerMetrics.unmarshalAll : List JSONObject → Option (List ContainerMetrics)
  | [] => some []
  | obj :: rest =>
    match ContainerMetrics.unmarshal obj, ContainerMetrics.unmarshalAll rest with
    | some c, some cs => some (c :: cs)
    | _, _ => none

/-- Line 14 of `agent.go`: `json.NewDecoder(r.Body).Decode(&payload)` on a push document. -/
def AgentPayload.unmarshal (doc : PushDocument) : Option AgentPayload :=
  match ContainerMetrics.unmarshalAll doc.containers with
  | none => none
  | some containers =>
    some { HostID := doc.host_id, Timestamp := doc.timestamp, Containers := containers }

/-- The push of an agent payload as the backend receives it: marshalled by the agent, then
decoded and stored by `ReceiveAgentMetricsHandler`. `none` when the agent cannot marshal the
payload and sends nothing. -/
def pushToServer (p : agent.AgentPayload) (s : State) : Option (State × Nat) :=
  match p.marshal with
  | none => none
  | some doc => some (ReceiveAgentMetricsHandler (AgentPayload.unmarshal doc) s)

/-- The snapshot that the claim of the round trip asks for: the host id and, for each
container, the id, name, image, CPU percentage and memory figure of the agent. -/
def specSnapshot (p : agent.AgentPayload) : List ContainerMetrics :=
  p.Containers.map (fun c =>
    { ContainerMetrics.zero with
      ID := c.ID, Name := c.Name, Image := c.Image, CPUPercent := c.CPU, MemoryMB := c.Memory })

/-! ## Synchronisation: `alertsMutex` and the `agentMetrics` map -/

/-- A step of a handler that matters for the exclusion on the `agentMetrics` map: an operation
of `alertsMutex` (a `sync.RWMutex`), or the start or the end of an access to the map. -/
inductive SyncOp where
  | rlock : SyncOp
  | runlock : SyncOp
  | lock : SyncOp
  | unlock : SyncOp
  | readBegin : SyncOp
  | readEnd : SyncOp
  | writeBegin : SyncOp
  | writeEnd : SyncOp
deriving DecidableEq

/-- Lines 19-22 of `agent.go`: the assignment `agentMetrics[payload.HostID] =
payload.Containers`; the handler calls no operation of the mutex. -/
def ReceiveAgentMetricsHandler.sync : List SyncOp :=
  [SyncOp.writeBegin, SyncOp.writeEnd]

/-- Lines 62-79 of `containers.go`: `alertsMutex.RLock()`, the `range` over `agentMetrics`,
`alertsMutex.RUnlock()`. -/
def ListContainersHandler.sync : List SyncOp :=
  [SyncOp.rlock, SyncOp.readBegin, SyncOp.readEnd, SyncOp.runlock]

/-- The mutex, the accesses to the map that are under way, and the steps that each request
still has to take. -/
structure SyncState where
  readers : Nat
  writer : Bool
  reading : Nat
  writing : Nat
  pending : List (List SyncOp)
deriving DecidableEq

/-- The state in which the given requests arrive: the mutex is free and no access is under
way. -/
def SyncState.start (requests : List (List SyncOp)) : SyncState :=
  { readers := 0, writer := false, reading := 0, writing := 0, pending := requests }

/-- The next step of request number `t`; `none` when the request has finished or is blocked:
`RLock` waits while the write lock is held, `Lock` waits while any lock is held. -/
def SyncState.step (st : SyncState) (t : Nat) : Option SyncState :=
  match st.pending.get? t with
  | some (op :: rest) =>
    match op with
    | SyncOp.rlock =>
      if st.writer then none
      else some { st with pending := st.pending.set t rest, readers := st.readers + 1 }
    | SyncOp.runlock =>
      some { st with pending := st.pending.set t rest, readers := st.readers - 1 }
    | SyncOp.lock =>
      if st.writer ∨ 0 < st.readers then none
      else some { st with pending := st.pending.set t rest, writer := true }
    | SyncOp.unlock => some { st with pending := st.pending.set t rest, writer := false }
    | SyncOp.readBegin =>
      some { st with pending := st.pending.set t rest, reading := st.reading + 1 }
    | SyncOp.readEnd =>
      some { st with pending := st.pending.set t rest, reading := st.reading - 1 }
    | SyncOp.writeBegin =>
      some { st with pending := st.pending.set t rest, writing := st.writing + 1 }
    | SyncOp.writeEnd =>
      some { st with pending := st.pending.set t rest, writing := st.writing - 1 }
  | _ => none

/-- The state after the requests took steps in the order of `schedule`; `none` when the
schedule asks a finished or blocked request for a step. -/
def SyncState.run (st : SyncState) : List Nat → Option SyncState
  | [] => some st
  | t :: rest =>
    match st.step t with
    | none => none
    | some st1 => st1.run rest

/-- A reader is in the middle of reading the map while it is being written, or two writes are
under way. -/
def SyncState.conflict (st : SyncState) : Bool :=
  (decide (0 < st.writing) && decide (0 < st.reading)) || decide (2 ≤ st.writing)

/-- An ingest in the words of the specification: the map assignment under the exclusive
lock. -/
def specIngestSync : List SyncOp :=
  [SyncOp.lock, SyncOp.writeBegin, SyncOp.writeEnd, SyncOp.unlock]

/-- The states reached from `seen` in at most `fuel` further steps of `n` requests. -/
def SyncState.reach (n : Nat) : Nat → List SyncState → List SyncState
  | 0, seen => seen
  | fuel + 1, seen =>
    SyncState.reach n fuel
      (seen ++ (seen.flatMap (fun st => (List.range n).filterMap st.step)).filter
        (fun st => !seen.contains st)).eraseDups

/-- The states that a query and two ingests of the specification can reach. -/
def specReachable : List SyncState :=
  SyncState.reach 3 12
    [SyncState.start [ListContainersHandler.sync, specIngestSync, specIngestSync]]

/-! ## Specification-side definitions: the local runtime in the listing -/

/-- The entries that stand for the containers of the local runtime in a listing: one per
container listed by the Docker client, in listing order, with the first 12 bytes of its id, its
first name without the leading slash, its image, no figures, and the host id `"master"`. -/
def specLocalEntries (containers : List DockerContainer) : List ContainerInfo :=
  containers.map (fun c =>
    { ID := c.ID.take 12
      Name := stringsTrimPrefix (c.Names.headD []) (str "/")
      CPUPercent := F64.zero
      MemoryMB := F64.zero
      Logs := []
      Image := c.Image
      HostID := str "master" })

/-! # Theorems -/

/-! ## float64 arithmetic -/

namespace F64

theorem log2Fuel_spec : ∀ fuel n : Nat, n ≤ fuel → 1 ≤ n →
    2 ^ log2Fuel fuel n ≤ n ∧ n < 2 ^ (log2Fuel fuel n + 1)
  | 0, n, h, h1 => by omega
  | fuel + 1, n, h, h1 => by
    unfold log2Fuel
    by_cases hn : n < 2
    · simp only [hn, if_true]
      omega
    · simp only [hn, if_false]
      obtain ⟨ih1, ih2⟩ := log2Fuel_spec fuel (n / 2) (by omega) (by omega)
      rw [pow_succ] at ih2 ⊢
      rw [pow_succ, pow_succ]
      omega

theorem log2_le (n : Nat) (h : 1 ≤ n) : 2 ^ log2 n ≤ n :=
  (log2Fuel_spec n n (Nat.le_refl n) h).1

theorem lt_log2 (n : Nat) (h : 1 ≤ n) : n < 2 ^ (log2 n + 1) :=
  (log2Fuel_spec n n (Nat.le_refl n) h).2

theorem log2_lt_of_lt (n k : Nat) (h : 1 ≤ n) (hk : n < 2 ^ k) : log2 n < k := by
  by_contra hc
  have h1 : 2 ^ k ≤ 2 ^ log2 n := Nat.pow_le_pow_right (by decide) (by omega)
  have h2 := log2_le n h
  omega

theorem roundExp_bounds (n d : Nat) :
    max ((log2 n : Int) - (log2 d : Int) - 53) (-1074) ≤ roundExp n d ∧
    roundExp n d ≤ max ((log2 n : Int) - (log2 d : Int) - 52) (-1074) := by
  simp only [roundExp]
  split_ifs <;> omega

theorem roundSig_le (n d : Nat) (e : Int) : roundSig n d e ≤ n * 2 ^ (-e).toNat + 1 := by
  simp only [roundSig]
  have hq : n * 2 ^ (-e).toNat / (d * 2 ^ e.toNat) ≤ n * 2 ^ (-e).toNat := Nat.div_le_self _ _
  split_ifs <;> omega

theorem roundSig_ge (n d : Nat) (e : Int) :
    n * 2 ^ (-e).toNat / (d * 2 ^ e.toNat) ≤ roundSig n d e := by
  simp only [roundSig]
  split_ifs <;> omega

/-- The significand chosen by `roundSig` is a nearest integer to `N / D`: twice its distance
to `N / D`, scaled by `D`, is at most `D`. -/
theorem roundSig_nearest (n d : Nat) (e : Int) (hd : 1 ≤ d) :
    2 * (roundSig n d e * (d * 2 ^ e.toNat)) ≤ 2 * (n * 2 ^ (-e).toNat) + d * 2 ^ e.toNat ∧
    2 * (n * 2 ^ (-e).toNat) ≤ 2 * (roundSig n d e * (d * 2 ^ e.toNat)) + d * 2 ^ e.toNat := by
  simp only [roundSig]
  have hD : 0 < d * 2 ^ e.toNat := Nat.mul_pos hd (Nat.pow_pos (by decide))
  generalize d * 2 ^ e.toNat = D at hD ⊢
  generalize n * 2 ^ (-e).toNat = N
  have hdm := Nat.div_add_mod N D
  have hmod := Nat.mod_lt N hD
  have hmul : (N / D + 1) * D = N / D * D + D := by ring
  rw [Nat.mul_comm D (N / D)] at hdm
  split_ifs <;> constructor <;> omega

/-- On a tie between two integers `roundSig` takes the even one. -/
theorem roundSig_tie_even (n d : Nat) (e : Int)
    (htie : 2 * (n * 2 ^ (-e).toNat % (d * 2 ^ e.toNat)) = d * 2 ^ e.toNat) :
    roundSig n d e % 2 = 0 := by
  simp only [roundSig]
  have h1 : ¬ (2 * (n * 2 ^ (-e).toNat % (d * 2 ^ e.toNat)) < d * 2 ^ e.toNat) := by omega
  have h2 : ¬ (d * 2 ^ e.toNat < 2 * (n * 2 ^ (-e).toNat % (d * 2 ^ e.toNat))) := by omega
  simp only [h1, h2, if_false]
  split_ifs with h3 <;> omega

theorem roundPos_cases (neg : Bool) (n d : Nat) :
    (roundPos neg n d = zero ∧ roundSig n d (roundExp n d) = 0) ∨
    (roundPos neg n d = inf neg ∧ 971 < max ((log2 n : Int) - (log2 d : Int) - 52) (-1074) + 1) ∨
    ∃ m e, roundPos neg n d = fin neg m e ∧ m ≠ 0 ∧ e ≤ 971 ∧
      max ((log2 n : Int) - (log2 d : Int) - 53) (-1074) ≤ e ∧
      e ≤ max ((log2 n : Int) - (log2 d : Int) - 52) (-1074) + 1 ∧
      m ≤ n * 2 ^ (1 - e).toNat + 2 ^ 52 := by
  simp only [roundPos]
  obtain ⟨hlo, hhi⟩ := roundExp_bounds n d
  have hm := roundSig_le n d (roundExp n d)
  generalize roundSig n d (roundExp n d) = m at hm ⊢
  generalize roundExp n d = e at hlo hhi hm ⊢
  have hN : n * 2 ^ (-e).toNat ≤ n * 2 ^ (1 - e).toNat :=
    Nat.mul_le_mul_left n (Nat.pow_le_pow_right (by decide) (by omega))
  have hN1 : n * 2 ^ (1 - (e + 1)).toNat = n * 2 ^ (-e).toNat := by
    congr 3
    omega
  have hp : (2 : Nat) ^ 52 = 4503599627370496 := by decide
  split_ifs with h1 h2 h3 h4
  · exact Or.inl ⟨rfl, h1⟩
  · exact Or.inr (Or.inl ⟨rfl, by omega⟩)
  · refine Or.inr (Or.inr ⟨2 ^ 52, e + 1, rfl, by decide, by omega, by omega, by omega, ?_⟩)
    omega
  · exact Or.inr (Or.inl ⟨rfl, by omega⟩)
  · refine Or.inr (Or.inr ⟨m, e, rfl, h1, by omega, by omega, by omega, ?_⟩)
    omega

theorem roundPos_ne_nan (neg : Bool) (n d : Nat) : roundPos neg n d ≠ nan := by
  rcases roundPos_cases neg n d with h | h | ⟨m, e, h, _⟩
  · rw [h.1]; intro hc; cases hc
  · rw [h.1]; intro hc; cases hc
  · rw [h]; intro hc; cases hc

theorem log2_one : log2 1 = 0 := by decide

theorem roundSig_nat_pos (n : Nat) (h : 1 ≤ n) : roundSig n 1 (roundExp n 1) ≠ 0 := by
  have hge := roundSig_ge n 1 (roundExp n 1)
  obtain ⟨_, hhi⟩ := roundExp_bounds n 1
  rw [log2_one] at hhi
  generalize roundExp n 1 = e at hge hhi
  have hD : 0 < 1 * 2 ^ e.toNat := Nat.mul_pos (by decide) (Nat.pow_pos (by decide))
  have hle : 1 * 2 ^ e.toNat ≤ n * 2 ^ (-e).toNat := by
    rcases le_or_lt e 0 with he | he
    · have h0 : e.toNat = 0 := by omega
      rw [h0]
      have : 0 < 2 ^ (-e).toNat := Nat.pow_pos (by decide)
      have := Nat.mul_le_mul h this
      omega
    · have h0 : (-e).toNat = 0 := by omega
      rw [h0]
      have h1 : 2 ^ e.toNat ≤ 2 ^ log2 n := Nat.pow_le_pow_right (by decide) (by omega)
      have h2 := log2_le n h
      omega
  have := Nat.div_pos hle hD
  omega

theorem ofNat_pos_cases (n : Nat) (h1 : 1 ≤ n) (h2 : n < 2 ^ 64) :
    ∃ m e, ofNat n = fin false m e ∧ m ≠ 0 ∧ -53 ≤ e ∧ e ≤ 12 ∧ m ≤ 2 ^ 119 := by
  have hlog := log2_lt_of_lt n 64 h1 h2
  have hne : n ≠ 0 := by omega
  simp only [ofNat, hne, if_false]
  rcases roundPos_cases false n 1 with h | h | ⟨m, e, h, hm, he, hlo, hhi, hb⟩
  · exact absurd h.2 (roundSig_nat_pos n h1)
  · rw [log2_one] at h
    omega
  · rw [log2_one] at hlo hhi
    refine ⟨m, e, h, hm, by omega, by omega, ?_⟩
    have hp : 2 ^ (1 - e).toNat ≤ 2 ^ 54 := Nat.pow_le_pow_right (by decide) (by omega)
    have := Nat.mul_le_mul (Nat.le_of_lt h2) hp
    have e1 : (2 : Nat) ^ 64 * 2 ^ 54 + 2 ^ 52 ≤ 2 ^ 119 := by decide
    omega

theorem ofNat_fin (n : Nat) (h2 : n < 2 ^ 64) : ∃ m e, ofNat n = fin false m e := by
  rcases Nat.eq_zero_or_pos n with h | h
  · exact ⟨0, 0, by simp [ofNat, h, zero]⟩
  · obtain ⟨m, e, h, _⟩ := ofNat_pos_cases n h h2
    exact ⟨m, e, h⟩

theorem ofInt_natCast (n : Nat) : ofInt (n : Int) = ofNat n := by
  unfold ofInt ofNat
  by_cases h : n = 0
  · simp [h]
  · have h1 : ¬ ((n : Int) = 0) := by omega
    have h2 : ¬ ((n : Int) < 0) := by omega
    simp [h, h1, h2]

theorem gt_ofNat_zero (n : Nat) (h2 : n < 2 ^ 64) : gt (ofNat n) zero = decide (0 < n) := by
  rcases Nat.eq_zero_or_pos n with h | h
  · subst h
    decide
  · obtain ⟨m, e, hfin, hm, _⟩ := ofNat_pos_cases n h h2
    rw [hfin]
    have hpos : 0 < m * 2 ^ (e - min 0 e).toNat :=
      Nat.mul_pos (Nat.pos_of_ne_zero hm) (Nat.pow_pos (by decide))
    simp only [gt, lt, zero, scaled, h, decide_True, decide_eq_true_eq]
    simp
    exact Nat.pos_of_ne_zero hm

theorem div_ofNat_fin (a b : Nat) (ha : 1 ≤ a) (ha2 : a < 2 ^ 64) (hb : 1 ≤ b) (hb2 : b < 2 ^ 64) :
    ∃ s m e, div (ofNat a) (ofNat b) = fin s m e := by
  obtain ⟨m1, e1, h1, hm1, hl1, hu1, hb1⟩ := ofNat_pos_cases a ha ha2
  obtain ⟨m2, e2, h2, hm2, hl2, hu2, hb2⟩ := ofNat_pos_cases b hb hb2
  rw [h1, h2]
  simp only [div, hm1, hm2, if_false]
  rcases roundPos_cases (xor false false) (m1 * 2 ^ (e1 - e2).toNat) (m2 * 2 ^ (e2 - e1).toNat)
    with h | h | ⟨m, e, h, _⟩
  · exact ⟨false, 0, 0, h.1⟩
  · exfalso
    have hp : 2 ^ (e1 - e2).toNat ≤ 2 ^ 65 := Nat.pow_le_pow_right (by decide) (by omega)
    have hN := Nat.mul_le_mul hb1 hp
    have hpos : 1 ≤ m1 * 2 ^ (e1 - e2).toNat :=
      Nat.mul_pos (Nat.pos_of_ne_zero hm1) (Nat.pow_pos (by decide))
    have e1 : (2 : Nat) ^ 119 * 2 ^ 65 < 2 ^ 185 := by decide
    have := log2_lt_of_lt _ 185 hpos (by omega)
    omega
  · exact ⟨_, m, e, h⟩


theorem le_of_lt_eq_false (a b : F64) (ha : a ≠ nan) (hb : b ≠ nan) (h : lt a b = false) :
    le b a = true := by
  cases a with
  | nan => exact absurd rfl ha
  | inf s =>
    cases b with
    | nan => exact absurd rfl hb
    | inf t => cases s <;> cases t <;> simp_all [lt, le]
    | fin t k f => cases s <;> simp_all [lt, le]
  | fin s m e =>
    cases b with
    | nan => exact absurd rfl hb
    | inf t => cases t <;> simp_all [lt, le]
    | fin t k f =>
      simp only [lt, decide_eq_false_iff_not, not_lt] at h
      simp only [le, decide_eq_true_eq]
      rw [min_comm f e]
      exact h

theorem mul_fin_ne_nan (s : Bool) (m : Nat) (e : Int) (t : Bool) (k : Nat) (f : Int) :
    mul (fin s m e) (fin t k f) ≠ nan := by
  simp only [mul]
  split_ifs
  · intro hc; cases hc
  · exact roundPos_ne_nan _ _ _

theorem mul_ne_nan_of_ne_zero (x : F64) (hx : x ≠ nan) (t : Bool) (k : Nat) (f : Int)
    (hk : k ≠ 0) : mul x (fin t k f) ≠ nan := by
  cases x with
  | nan => exact absurd rfl hx
  | inf s => simp [mul, hk]
  | fin s m e => exact mul_fin_ne_nan s m e t k f

theorem ofNat_hundred : ofNat 100 = fin false 7036874417766400 (-46) := by decide

/-- Known binary64 values: `0.1`, `0.2`, `80.1`, `1`, the largest finite value, the rounding of
ties to even, the overflow threshold and the smallest subnormal. -/
theorem roundPos_known_values :
    roundPos false 1 10 = fin false 0x1999999999999a (-56) ∧
    roundPos false 1 5 = fin false 0x1999999999999a (-55) ∧
    roundPos false 801 10 = fin false 0x14066666666666 (-46) ∧
    ofNat 1 = fin false (2 ^ 52) (-52) ∧
    roundPos false (2 ^ 1024 - 2 ^ 970 - 1) 1 = fin false (2 ^ 53 - 1) 971 ∧
    roundPos false (2 ^ 1024 - 2 ^ 970) 1 = inf false ∧
    ofNat (2 ^ 53 + 1) = fin false (2 ^ 52) 1 ∧
    ofNat (2 ^ 53 + 3) = fin false (2 ^ 52 + 2) 1 ∧
    ofNat (2 ^ 64 - 1) = ofNat (2 ^ 64) ∧
    roundPos false 1 (2 ^ 1074) = fin false 1 (-1074) ∧
    roundPos false 1 (2 ^ 1075) = zero ∧
    roundPos true 3 (2 ^ 1075) = fin true 2 (-1074) := by
  decide!

/-! ### The rounding is well formed -/

theorem two_pow_toNat (e : Int) :
    ((2 : ℚ) ^ e.toNat) = (2 : ℚ) ^ e * (2 : ℚ) ^ (-e).toNat := by
  rcases le_or_lt 0 e with h | h
  · have h1 : (-e).toNat = 0 := by omega
    have h2 : ((e.toNat : Int)) = e := Int.toNat_of_nonneg h
    rw [h1, pow_zero, mul_one, ← zpow_natCast, h2]
  · have h1 : e.toNat = 0 := by omega
    have h2 : (((-e).toNat : Int)) = -e := Int.toNat_of_nonneg (by omega)
    rw [h1, pow_zero, ← zpow_natCast (2 : ℚ) (-e).toNat, h2, ← zpow_add₀ (by norm_num)]
    simp

theorem scaled_lt_iff (n d K : Nat) (e : Int) :
    n * 2 ^ (-e).toNat < K * (d * 2 ^ e.toNat) ↔ (n : ℚ) < K * d * (2 : ℚ) ^ e := by
  have hp : (0 : ℚ) < (2 : ℚ) ^ (-e).toNat := by positivity
  rw [← Nat.cast_lt (α := ℚ)]
  push_cast
  rw [two_pow_toNat e]
  constructor
  · intro h
    have h' : (n : ℚ) * 2 ^ (-e).toNat < (K * d * (2 : ℚ) ^ e) * 2 ^ (-e).toNat := by
      calc (n : ℚ) * 2 ^ (-e).toNat < K * (d * ((2 : ℚ) ^ e * 2 ^ (-e).toNat)) := h
        _ = (K * d * (2 : ℚ) ^ e) * 2 ^ (-e).toNat := by ring
    exact lt_of_mul_lt_mul_right h' hp.le
  · intro h
    calc (n : ℚ) * 2 ^ (-e).toNat < (K * d * (2 : ℚ) ^ e) * 2 ^ (-e).toNat :=
          mul_lt_mul_of_pos_right h hp
      _ = K * (d * ((2 : ℚ) ^ e * 2 ^ (-e).toNat)) := by ring

theorem scaled_le_iff (n d K : Nat) (e : Int) :
    K * (d * 2 ^ e.toNat) ≤ n * 2 ^ (-e).toNat ↔ K * d * (2 : ℚ) ^ e ≤ (n : ℚ) := by
  have h := scaled_lt_iff n d K e
  constructor
  · intro h1
    by_contra hc
    exact absurd (h.mpr (lt_of_not_le hc)) (by omega)
  · intro h1
    by_contra hc
    exact absurd (h.mp (by omega)) (not_lt.mpr h1)

theorem zpow_two_mono (a b : Int) (h : a ≤ b) : (2 : ℚ) ^ a ≤ (2 : ℚ) ^ b :=
  zpow_le_zpow_right₀ (by norm_num) h

theorem natCast_two_pow (k : Nat) : (((2 ^ k : Nat) : ℚ)) = (2 : ℚ) ^ (k : Int) := by
  push_cast
  rw [zpow_natCast]

theorem roundExp_spec (n d : Nat) (hn : 1 ≤ n) (hd : 1 ≤ d) :
    (n : ℚ) < ((2 ^ 53 : Nat) : ℚ) * d * (2 : ℚ) ^ (roundExp n d) ∧
    (roundExp n d = -1074 ∨ ((2 ^ 52 : Nat) : ℚ) * d * (2 : ℚ) ^ (roundExp n d) ≤ (n : ℚ)) := by
  have hx1 : (2 : ℚ) ^ (log2 n : Int) ≤ (n : ℚ) := by
    rw [← natCast_two_pow]
    exact_mod_cast log2_le n hn
  have hx2 : (n : ℚ) < (2 : ℚ) ^ ((log2 n : Int) + 1) := by
    have h := lt_log2 n hn
    have h' : (n : ℚ) < ((2 ^ (log2 n + 1) : Nat) : ℚ) := by exact_mod_cast h
    rw [natCast_two_pow] at h'
    exact_mod_cast h'
  have hy1 : (2 : ℚ) ^ (log2 d : Int) ≤ (d : ℚ) := by
    rw [← natCast_two_pow]
    exact_mod_cast log2_le d hd
  have hy2 : (d : ℚ) < (2 : ℚ) ^ ((log2 d : Int) + 1) := by
    have h := lt_log2 d hd
    have h' : (d : ℚ) < ((2 ^ (log2 d + 1) : Nat) : ℚ) := by exact_mod_cast h
    rw [natCast_two_pow] at h'
    exact_mod_cast h'
  have h53 : (((2 ^ 53 : Nat) : ℚ)) = (2 : ℚ) ^ (53 : Int) := natCast_two_pow 53
  have h52 : (((2 ^ 52 : Nat) : ℚ)) = (2 : ℚ) ^ (52 : Int) := natCast_two_pow 52
  have h2 : (2 : ℚ) ≠ 0 := by norm_num
  have hpos : ∀ a : Int, (0 : ℚ) < (2 : ℚ) ^ a := fun a => zpow_pos (by norm_num) a
  -- bounds at the estimate `e0`
  generalize he0 : (log2 n : Int) - (log2 d : Int) - 52 = e0
  have hub0 : (n : ℚ) < (2 : ℚ) ^ (53 : Int) * d * (2 : ℚ) ^ e0 := by
    have e : (2 : ℚ) ^ ((log2 n : Int) + 1) =
        (2 : ℚ) ^ (53 : Int) * (2 : ℚ) ^ (log2 d : Int) * (2 : ℚ) ^ e0 := by
      rw [← zpow_add₀ h2, ← zpow_add₀ h2]
      congr 1
      omega
    calc (n : ℚ) < (2 : ℚ) ^ ((log2 n : Int) + 1) := hx2
      _ = (2 : ℚ) ^ (53 : Int) * (2 : ℚ) ^ (log2 d : Int) * (2 : ℚ) ^ e0 := e
      _ ≤ (2 : ℚ) ^ (53 : Int) * d * (2 : ℚ) ^ e0 := by
          apply mul_le_mul_of_nonneg_right _ (hpos e0).le
          exact mul_le_mul_of_nonneg_left hy1 (hpos 53).le
  have hlbm : (2 : ℚ) ^ (52 : Int) * d * (2 : ℚ) ^ (e0 - 1) ≤ (n : ℚ) := by
    have e : (2 : ℚ) ^ (52 : Int) * (2 : ℚ) ^ ((log2 d : Int) + 1) * (2 : ℚ) ^ (e0 - 1) =
        (2 : ℚ) ^ (log2 n : Int) := by
      rw [← zpow_add₀ h2, ← zpow_add₀ h2]
      congr 1
      omega
    calc (2 : ℚ) ^ (52 : Int) * d * (2 : ℚ) ^ (e0 - 1)
        ≤ (2 : ℚ) ^ (52 : Int) * (2 : ℚ) ^ ((log2 d : Int) + 1) * (2 : ℚ) ^ (e0 - 1) := by
          apply mul_le_mul_of_nonneg_right _ (hpos _).le
          exact mul_le_mul_of_nonneg_left hy2.le (hpos 52).le
      _ = (2 : ℚ) ^ (log2 n : Int) := e
      _ ≤ (n : ℚ) := hx1
  have hstep : (2 : ℚ) ^ (53 : Int) * d * (2 : ℚ) ^ (e0 - 1) =
      (2 : ℚ) ^ (52 : Int) * d * (2 : ℚ) ^ e0 := by
    have e1 : (2 : ℚ) ^ (53 : Int) = (2 : ℚ) ^ (52 : Int) * 2 := by norm_num
    have e2 : (2 : ℚ) ^ e0 = 2 * (2 : ℚ) ^ (e0 - 1) := by
      rw [show e0 = 1 + (e0 - 1) by omega, zpow_add₀ h2]
      simp
    rw [e1, e2]
    ring
  -- the exponent before the clamp
  have key : ∀ e1 : Int,
      ((n : ℚ) < (2 : ℚ) ^ (53 : Int) * d * (2 : ℚ) ^ e1 ∧
        (2 : ℚ) ^ (52 : Int) * d * (2 : ℚ) ^ e1 ≤ (n : ℚ)) →
      (n : ℚ) < (2 : ℚ) ^ (53 : Int) * d * (2 : ℚ) ^ (max e1 (-1074)) ∧
        (max e1 (-1074) = -1074 ∨
          (2 : ℚ) ^ (52 : Int) * d * (2 : ℚ) ^ (max e1 (-1074)) ≤ (n : ℚ)) := by
    intro e1 ⟨hu, hl⟩
    rcases le_or_lt (-1074) e1 with hc | hc
    · rw [max_eq_left hc]
      exact ⟨hu, Or.inr hl⟩
    · rw [max_eq_right hc.le]
      refine ⟨lt_of_lt_of_le hu ?_, Or.inl rfl⟩
      have hd0 : (0 : ℚ) ≤ (2 : ℚ) ^ (53 : Int) * d :=
        mul_nonneg (hpos 53).le (Nat.cast_nonneg d)
      exact mul_le_mul_of_nonneg_left (zpow_two_mono _ _ hc.le) hd0
  rw [h53, h52]
  simp only [roundExp, he0]
  by_cases hcond : 2 ^ 52 * (d * 2 ^ e0.toNat) ≤ n * 2 ^ (-e0).toNat
  · simp only [hcond, if_true]
    have hl := (scaled_le_iff n d (2 ^ 52) e0).mp hcond
    rw [h52] at hl
    exact key e0 ⟨hub0, hl⟩
  · simp only [hcond, if_false]
    have hl := (scaled_lt_iff n d (2 ^ 52) e0).mp (by omega)
    rw [h52] at hl
    refine key (e0 - 1) ⟨?_, hlbm⟩
    rw [hstep]
    exact hl

theorem roundSig_le_succ (n d : Nat) (e : Int) :
    roundSig n d e ≤ n * 2 ^ (-e).toNat / (d * 2 ^ e.toNat) + 1 := by
  simp only [roundSig]
  split_ifs <;> omega

/-- Rounding produces values in IEEE form. -/
theorem roundPos_canonical (neg : Bool) (n d : Nat) (hn : 1 ≤ n) (hd : 1 ≤ d) :
    (roundPos neg n d).canonical := by
  obtain ⟨hub, hlb⟩ := roundExp_spec n d hn hd
  obtain ⟨hlo, _⟩ := roundExp_bounds n d
  have hge := roundSig_ge n d (roundExp n d)
  have hle := roundSig_le_succ n d (roundExp n d)
  have hD : 0 < d * 2 ^ (roundExp n d).toNat := Nat.mul_pos hd (Nat.pow_pos (by decide))
  have hq : n * 2 ^ (-(roundExp n d)).toNat / (d * 2 ^ (roundExp n d).toNat) < 2 ^ 53 := by
    apply Nat.div_lt_of_lt_mul
    have := (scaled_lt_iff n d (2 ^ 53) (roundExp n d)).mpr hub
    rw [Nat.mul_comm (d * 2 ^ (roundExp n d).toNat)]
    exact this
  have hq2 : roundExp n d = -1074 ∨
      2 ^ 52 ≤ n * 2 ^ (-(roundExp n d)).toNat / (d * 2 ^ (roundExp n d).toNat) := by
    rcases hlb with h | h
    · exact Or.inl h
    · right
      rw [Nat.le_div_iff_mul_le hD]
      exact (scaled_le_iff n d (2 ^ 52) (roundExp n d)).mpr h
  simp only [roundPos]
  generalize roundSig n d (roundExp n d) = m at hge hle ⊢
  generalize n * 2 ^ (-(roundExp n d)).toNat / (d * 2 ^ (roundExp n d).toNat) = q at hge hle hq hq2
  generalize roundExp n d = e at hlo hq2 ⊢
  have h53 : (2 : Nat) ^ 53 = 9007199254740992 := by decide
  have h52 : (2 : Nat) ^ 52 = 4503599627370496 := by decide
  split_ifs with h1 h2 h3 h4
  · exact Or.inl ⟨rfl, rfl, rfl⟩
  · trivial
  · exact Or.inr ⟨by omega, by omega, by omega, by omega, Or.inl (le_refl _)⟩
  · trivial
  · refine Or.inr ⟨by omega, by omega, by omega, by omega, ?_⟩
    rcases hq2 with h | h
    · exact Or.inr h
    · exact Or.inl (by omega)

theorem zero_canonical : zero.canonical := Or.inl ⟨rfl, rfl, rfl⟩

/-- Integer conversion produces values in IEEE form. -/
theorem ofNat_canonical (n : Nat) : (ofNat n).canonical := by
  unfold ofNat
  split_ifs with h
  · exact zero_canonical
  · exact roundPos_canonical false n 1 (by omega) (le_refl 1)

/-- Division produces values in IEEE form. -/
theorem div_canonical (a b : F64) : (div a b).canonical := by
  cases a with
  | nan => cases b <;> trivial
  | inf s =>
    cases b with
    | nan => trivial
    | inf t => trivial
    | fin t k f => trivial
  | fin s m e =>
    cases b with
    | nan => trivial
    | inf t => exact zero_canonical
    | fin t k f =>
      simp only [div]
      split_ifs with h1 h2 h3
      · trivial
      · trivial
      · exact zero_canonical
      · exact roundPos_canonical _ _ _
          (Nat.mul_pos (Nat.pos_of_ne_zero h3) (Nat.pow_pos (by decide)))
          (Nat.mul_pos (Nat.pos_of_ne_zero h1) (Nat.pow_pos (by decide)))

/-- Multiplication produces values in IEEE form. -/
theorem mul_canonical (a b : F64) : (mul a b).canonical := by
  cases a with
  | nan => cases b <;> trivial
  | inf s =>
    cases b with
    | nan => trivial
    | inf t => trivial
    | fin t k f =>
      simp only [mul]
      split_ifs <;> trivial
  | fin s m e =>
    cases b with
    | nan => trivial
    | inf t =>
      simp only [mul]
      split_ifs <;> trivial
    | fin t k f =>
      simp only [mul]
      split_ifs with h1
      · exact zero_canonical
      · rw [not_or] at h1
        exact roundPos_canonical _ _ _
          (Nat.mul_pos (Nat.mul_pos (Nat.pos_of_ne_zero h1.1) (Nat.pos_of_ne_zero h1.2))
            (Nat.pow_pos (by decide)))
          (Nat.pow_pos (by decide))

end F64


/-! ### The CPU percentage is a number in range -/

theorem cpuPercentSpec_ne_nan_aux (cd sd n : Nat) (hcd : cd < 2 ^ 64) (hsd : sd < 2 ^ 64)
    (hn : n < 2 ^ 64) (h : 0 < cd ∧ 0 < sd) :
    F64.mul (F64.mul (F64.div (F64.ofNat cd) (F64.ofNat sd)) (F64.ofNat n)) (F64.ofNat 100)
      ≠ F64.nan := by
  obtain ⟨s, m, e, hdiv⟩ := F64.div_ofNat_fin cd sd h.1 hcd h.2 hsd
  obtain ⟨k, f, hnn⟩ := F64.ofNat_fin n hn
  rw [hdiv, hnn, F64.ofNat_hundred]
  exact F64.mul_ne_nan_of_ne_zero _ (F64.mul_fin_ne_nan s m e false k f) _ _ _ (by decide)

theorem cpuPercentSpec_range (cd sd n : Nat) (hcd : cd < 2 ^ 64) (hsd : sd < 2 ^ 64)
    (hn : n < 2 ^ 64) :
    F64.le F64.zero (cpuPercentSpec cd sd n) = true ∧
    F64.le (cpuPercentSpec cd sd n) (F64.ofNat 1000) = true := by
  have hz1 : F64.le F64.zero F64.zero = true := by decide
  have hz2 : F64.le F64.zero (F64.ofNat 1000) = true := by decide
  have hk : F64.ofNat 1000 ≠ F64.nan := by decide
  have hz : F64.zero ≠ F64.nan := by decide
  simp only [cpuPercentSpec]
  by_cases h : 0 < cd ∧ 0 < sd
  · have hp := cpuPercentSpec_ne_nan_aux cd sd n hcd hsd hn h
    simp only [h, and_self, if_true]
    generalize F64.mul (F64.mul (F64.div (F64.ofNat cd) (F64.ofNat sd)) (F64.ofNat n))
      (F64.ofNat 100) = p at hp
    split_ifs with hc
    · exact ⟨hz1, hz2⟩
    · rw [not_or] at hc
      exact ⟨F64.le_of_lt_eq_false p F64.zero hp hz (by simpa using hc.1),
        F64.le_of_lt_eq_false (F64.ofNat 1000) p hk hp (by simpa using hc.2)⟩
  · simp only [h, if_false]
    split_ifs
    · exact ⟨hz1, hz2⟩
    · exact ⟨hz1, hz2⟩

theorem u64sub_of_le (a b : Nat) (ha : a < 2 ^ 64) (h : b ≤ a) : u64sub a b = a - b := by
  unfold u64sub
  omega

theorem handler_cpuPercent_eq (t pt sy psy : Nat) (n : Nat)
    (ht : t < 2 ^ 64) (hsy : sy < 2 ^ 64) (h1 : pt ≤ t) (h2 : psy ≤ sy) :
    (let cpuDelta := F64.ofNat (u64sub t pt)
     let systemDelta := F64.ofNat (u64sub sy psy)
     let cpuPercent :=
       if F64.gt systemDelta F64.zero && F64.gt cpuDelta F64.zero then
         F64.mul (F64.mul (F64.div cpuDelta systemDelta) (F64.ofInt (n : Int))) (F64.ofNat 100)
       else F64.zero
     if F64.lt cpuPercent F64.zero || F64.gt cpuPercent (F64.ofNat 1000) then F64.zero
     else cpuPercent) = cpuPercentSpec (t - pt) (sy - psy) n := by
  have hd1 : t - pt < 2 ^ 64 := by omega
  have hd2 : sy - psy < 2 ^ 64 := by omega
  simp only [u64sub_of_le t pt ht h1, u64sub_of_le sy psy hsy h2, F64.ofInt_natCast,
    F64.gt_ofNat_zero _ hd1, F64.gt_ofNat_zero _ hd2, cpuPercentSpec]
  by_cases hc : 0 < t - pt ∧ 0 < sy - psy
  · have hb : (decide (0 < sy - psy) && decide (0 < t - pt)) = true := by
      simp only [Bool.and_eq_true, decide_eq_true_eq]
      exact ⟨hc.2, hc.1⟩
    simp only [hb]
    simp only [hc, and_self, if_true, F64.gt, Bool.or_eq_true]
  · have hb : (decide (0 < sy - psy) && decide (0 < t - pt)) = false := by
      rw [Bool.and_eq_false_iff]
      simp only [decide_eq_false_iff_not]
      by_cases h3 : 0 < sy - psy
      · exact Or.inr (fun h4 => hc ⟨h4, h3⟩)
      · exact Or.inl h3
    simp only [hb]
    simp only [hc, if_false, Bool.false_eq_true, F64.gt, Bool.or_eq_true]

/-! ## C1, C10: MetricSampler -/

/-- C1. For every stats reading whose counters did not decrease, the CPU percentage computed
by `GetContainerMetricsHandler` and by `WSContainerMetricsHandler` is the value of the
specification, `cpuPercentSpec` at the two deltas and the number of per-CPU entries
(`cpu_delta / system_delta * n * 100` when both deltas are positive, `0` otherwise, and `0` in
place of a value outside `[0, 1000]`), and the reported value lies in `[0, 1000]`. -/
theorem C1_cpu_percent (data : StatsJSON) (hwf : data.wf)
    (h1 : data.PreCPUStats.CPUUsage.TotalUsage ≤ data.CPUStats.CPUUsage.TotalUsage)
    (h2 : data.PreCPUStats.SystemUsage ≤ data.CPUStats.SystemUsage) :
    GetContainerMetricsHandler.cpuPercent data =
      cpuPercentSpec (data.CPUStats.CPUUsage.TotalUsage - data.PreCPUStats.CPUUsage.TotalUsage)
        (data.CPUStats.SystemUsage - data.PreCPUStats.SystemUsage)
        data.CPUStats.CPUUsage.PercpuUsage.length ∧
    WSContainerMetricsHandler.cpuPercent data =
      cpuPercentSpec (data.CPUStats.CPUUsage.TotalUsage - data.PreCPUStats.CPUUsage.TotalUsage)
        (data.CPUStats.SystemUsage - data.PreCPUStats.SystemUsage)
        data.CPUStats.CPUUsage.PercpuUsage.length ∧
    F64.le F64.zero (GetContainerMetricsHandler.cpuPercent data) = true ∧
    F64.le (GetContainerMetricsHandler.cpuPercent data) (F64.ofNat 1000) = true ∧
    F64.le F64.zero (WSContainerMetricsHandler.cpuPercent data) = true ∧
    F64.le (WSContainerMetricsHandler.cpuPercent data) (F64.ofNat 1000) = true := by
  obtain ⟨ht, _, hsy, _, hn, _⟩ := hwf
  have hget := handler_cpuPercent_eq _ _ _ _ data.CPUStats.CPUUsage.PercpuUsage.length
    ht hsy h1 h2
  have hG : GetContainerMetricsHandler.cpuPercent data = _ := hget
  have hW : WSContainerMetricsHandler.cpuPercent data = _ := hget
  have hr := cpuPercentSpec_range
    (data.CPUStats.CPUUsage.TotalUsage - data.PreCPUStats.CPUUsage.TotalUsage)
    (data.CPUStats.SystemUsage - data.PreCPUStats.SystemUsage)
    data.CPUStats.CPUUsage.PercpuUsage.length (by omega) (by omega) (by omega)
  rw [hG, hW]
  exact ⟨rfl, rfl, hr.1, hr.2, hr.1, hr.2⟩

set_option maxRecDepth 8000 in
/-- C1, witness (Scenario A): counters that advance by `cpu_delta = 200` and
`system_delta = 1000` on 4 CPUs give `80`. -/
theorem C1_cpu_percent_witness :
    GetContainerMetricsHandler.cpuPercent (StatsJSON.sample 1200 1000 6000 5000 4 0 none 0) =
      F64.ofNat 80 ∧
    WSContainerMetricsHandler.cpuPercent (StatsJSON.sample 1200 1000 6000 5000 4 0 none 0) =
      F64.ofNat 80 := by
  have h := C1_cpu_percent (StatsJSON.sample 1200 1000 6000 5000 4 0 none 0)
    (by decide) (by decide) (by decide)
  exact ⟨h.1.trans (by decide), h.2.1.trans (by decide)⟩

/-- C10. For every stats reading whose cache bytes (the `"cache"` entry of the memory stats, `0`
when the entry is missing) do not exceed its usage bytes, `memUsed` in both handlers is exactly
`usage - cache`, the WebSocket payload carries it in `memory_usage`, and the megabyte figure of
`GetContainerMetricsHandler` is that number converted and divided by `1024 * 1024`. -/
theorem C10_memory_used (data : StatsJSON) (hwf : data.wf)
    (h : mapGet data.MemoryStats.Stats (str "cache") ≤ data.MemoryStats.Usage) :
    GetContainerMetricsHandler.memUsed data =
      data.MemoryStats.Usage - mapGet data.MemoryStats.Stats (str "cache") ∧
    WSContainerMetricsHandler.memUsed data =
      data.MemoryStats.Usage - mapGet data.MemoryStats.Stats (str "cache") ∧
    (WSContainerMetricsHandler.payload data).MemoryUsage =
      data.MemoryStats.Usage - mapGet data.MemoryStats.Stats (str "cache") ∧
    GetContainerMetricsHandler.memUsage data =
      F64.div (F64.ofNat (data.MemoryStats.Usage - mapGet data.MemoryStats.Stats (str "cache")))
        (F64.ofNat (1024 * 1024)) ∧
    (data.MemoryStats.Stats.lookup (str "cache") = none →
      WSContainerMetricsHandler.memUsed data = data.MemoryStats.Usage) := by
  obtain ⟨_, _, _, _, _, hu, _⟩ := hwf
  have e := u64sub_of_le _ _ hu h
  refine ⟨e, e, e, ?_, ?_⟩
  · simp only [GetContainerMetricsHandler.memUsage, GetContainerMetricsHandler.memUsed, e]
  · intro hnone
    have e0 : mapGet data.MemoryStats.Stats (str "cache") = 0 := by
      simp [mapGet, hnone]
    have e2 : WSContainerMetricsHandler.memUsed data = _ := e
    rw [e2, e0]
    rfl

/-- C10, witness (Scenario B): usage 200 MB and cache 50 MB give 150 MB. -/
theorem C10_memory_used_witness :
    WSContainerMetricsHandler.memUsed
        (StatsJSON.sample 0 0 0 0 1 (200 * 2 ^ 20) (some (50 * 2 ^ 20)) (2 ^ 30)) = 150 * 2 ^ 20 ∧
    (WSContainerMetricsHandler.payload
        (StatsJSON.sample 0 0 0 0 1 (200 * 2 ^ 20) (some (50 * 2 ^ 20)) (2 ^ 30))).MemoryUsage =
      150 * 2 ^ 20 := by
  have h := C10_memory_used
    (StatsJSON.sample 0 0 0 0 1 (200 * 2 ^ 20) (some (50 * 2 ^ 20)) (2 ^ 30))
    (by decide) (by decide)
  exact ⟨h.2.1.trans (by decide), h.2.2.1.trans (by decide)⟩

/-! ## C2: LogFrameDemuxer -/

theorem be32_or_eq_add (a b c d : Nat) (hb : b < 256) (hc : c < 256) (hd : d < 256) :
    (a <<< 24 ||| b <<< 16 ||| c <<< 8 ||| d) = a * 2 ^ 24 + b * 2 ^ 16 + c * 2 ^ 8 + d := by
  simp only [Nat.shiftLeft_eq]
  have h1 : a * 2 ^ 24 ||| b * 2 ^ 16 = 2 ^ 16 * (a * 2 ^ 8 + b) := by
    have := Nat.mul_add_lt_is_or (i := 24) (b := b * 2 ^ 16) (by omega) a
    rw [show a * 2 ^ 24 = 2 ^ 24 * a by ring, ← this]
    ring
  have h2 : 2 ^ 16 * (a * 2 ^ 8 + b) ||| c * 2 ^ 8 = 2 ^ 8 * ((a * 2 ^ 8 + b) * 2 ^ 8 + c) := by
    have := Nat.mul_add_lt_is_or (i := 16) (b := c * 2 ^ 8) (by omega) (a * 2 ^ 8 + b)
    rw [← this]
    ring
  have h3 := Nat.mul_add_lt_is_or (i := 8) (b := d) (by omega) ((a * 2 ^ 8 + b) * 2 ^ 8 + c)
  rw [h1, h2, ← h3]
  ring

theorem frameSize_encode (f : Frame) (rest : List Byte) :
    WSLogsHandler.frameSize ((f.encode ++ rest).take 8) = (f.declared : Int) := by
  simp only [WSLogsHandler.frameSize, Frame.encode, Frame.declared]
  simp only [List.cons_append, List.take_succ_cons, List.take_zero, List.getD_cons_succ,
    List.getD_cons_zero]
  rw [be32_or_eq_add _ _ _ _ f.len5.isLt f.len6.isLt f.len7.isLt]

theorem readFull_encode (f : Frame) (rest : List Byte) :
    readFull 8 (f.encode ++ rest) = some ((f.encode ++ rest).take 8, f.payload ++ rest) := by
  simp [readFull, Frame.encode]

theorem readFull_append (p rest : List Byte) :
    readFull p.length (p ++ rest) = some (p, rest) := by
  simp [readFull]

theorem readFull_length (n : Nat) (reader buf rest : List Byte)
    (h : readFull n reader = some (buf, rest)) : rest.length + n = reader.length := by
  unfold readFull at h
  split_ifs at h with hlt
  simp only [Option.some.injEq, Prod.mk.injEq] at h
  rw [← h.2, List.length_drop]
  omega

/-- The decode loop does not depend on the fuel once it exceeds the length of the stream: the
session runs the loop to its end on every stream. -/
theorem loop_fuel (rt : Runtime) (filter : GoString) (writeOk : Nat → GoString → Bool) :
    ∀ (fuel1 fuel2 : Nat) (reader : List Byte) (sent : List GoString),
      reader.length < fuel1 → reader.length < fuel2 →
      WSLogsHandler.loop rt filter writeOk fuel1 reader sent =
        WSLogsHandler.loop rt filter writeOk fuel2 reader sent := by
  intro fuel1
  induction fuel1 with
  | zero => intro fuel2 reader sent h1; omega
  | succ fuel1 ih =>
    intro fuel2 reader sent h1 h2
    cases fuel2 with
    | zero => omega
    | succ fuel2 =>
      unfold WSLogsHandler.loop
      cases hr : readFull 8 reader with
      | none => rfl
      | some hb =>
        obtain ⟨header, reader1⟩ := hb
        have hlen := readFull_length 8 reader header reader1 hr
        simp only
        split_ifs with hz
        · exact ih fuel2 reader1 sent (by omega) (by omega)
        · cases hr2 : readFull (WSLogsHandler.frameSize header).toNat reader1 with
          | none => rfl
          | some fb =>
            obtain ⟨frame, reader2⟩ := fb
            have hlen2 := readFull_length _ reader1 frame reader2 hr2
            simp only
            split_ifs
            · exact ih fuel2 reader2 sent (by omega) (by omega)
            · exact ih fuel2 reader2 _ (by omega) (by omega)
            · rfl

theorem loop_encodeFrames (rt : Runtime) (frames : List Frame) :
    ∀ (fuel : Nat) (sent : List GoString), (∀ f ∈ frames, f.wf) →
      (encodeFrames frames).length < fuel →
      WSLogsHandler.loop rt [] (fun _ _ => true) fuel (encodeFrames frames) sent =
        sent ++ (frames.map Frame.payload).filter (fun p => p ≠ []) := by
  induction frames with
  | nil =>
    intro fuel sent _ hfuel
    cases fuel with
    | zero => simp [WSLogsHandler.loop]
    | succ fuel => simp [WSLogsHandler.loop, encodeFrames, readFull]
  | cons f frames ih =>
    intro fuel sent hwf hfuel
    have hf : f.wf := hwf f (List.mem_cons_self _ _)
    have hrest : ∀ g ∈ frames, g.wf := fun g hg => hwf g (List.mem_cons_of_mem _ hg)
    have henc : encodeFrames (f :: frames) = f.encode ++ encodeFrames frames := by
      simp [encodeFrames]
    have hlen : (encodeFrames (f :: frames)).length =
        8 + f.payload.length + (encodeFrames frames).length := by
      rw [henc]
      simp [Frame.encode]
      omega
    cases fuel with
    | zero => omega
    | succ fuel =>
      rw [henc]
      unfold WSLogsHandler.loop
      rw [readFull_encode]
      simp only [frameSize_encode]
      by_cases hp : f.payload = []
      · have hd : f.declared = 0 := by
          rw [hf, hp]
          rfl
        simp only [hd, hp, List.nil_append]
        rw [if_pos (by simp)]
        rw [ih fuel sent hrest (by omega)]
        simp [hp]
      · have hd : ¬ ((f.declared : Int) ≤ 0) := by
          have : f.payload.length ≠ 0 := fun h => hp (List.length_eq_zero.mp h)
          have := hf
          unfold Frame.wf at this
          omega
        rw [if_neg hd]
        have hn : (f.declared : Int).toNat = f.payload.length := by
          rw [hf]
          simp
        rw [hn, readFull_append]
        simp only [ne_eq, not_true_eq_false, decide_False, Bool.false_and, Bool.false_eq_true,
          if_false, if_true]
        rw [ih fuel (sent ++ [f.payload]) hrest (by omega)]
        simp [hp]

/-- C2. For every list of well-formed frames, the decode loop of `WSLogsHandler`, run with an
empty filter on the stream made of these frames and with every `WriteMessage` succeeding, writes
exactly the payloads of the frames whose payload is not empty, byte for byte and in frame order;
a frame of length zero writes nothing and decoding goes on with the next frame. -/
theorem C2_decode_frames (rt : Runtime) (frames : List Frame) (hwf : ∀ f ∈ frames, f.wf) :
    WSLogsHandler.session rt [] (fun _ _ => true) (encodeFrames frames) =
      (frames.map Frame.payload).filter (fun p => p ≠ []) := by
  unfold WSLogsHandler.session
  rw [loop_encodeFrames rt frames _ [] hwf (Nat.lt_succ_self _)]
  rfl

/-- C2, witness (Scenario C): the frames `[stdout, 5, "hello"]`, `[stderr, 5, "world"]`, with
an empty frame in between, decode to `"hello"`, `"world"`. -/
theorem C2_decode_frames_witness :
    WSLogsHandler.session Runtime.ascii [] (fun _ _ => true)
      (encodeFrames
        [⟨1, 0, 0, 0, 0, 0, 0, 5, str "hello"⟩, ⟨1, 0, 0, 0, 0, 0, 0, 0, []⟩,
         ⟨2, 0, 0, 0, 0, 0, 0, 5, str "world"⟩]) = [str "hello", str "world"] :=
  (C2_decode_frames Runtime.ascii
    [⟨1, 0, 0, 0, 0, 0, 0, 5, str "hello"⟩, ⟨1, 0, 0, 0, 0, 0, 0, 0, []⟩,
     ⟨2, 0, 0, 0, 0, 0, 0, 5, str "world"⟩] (by decide)).trans (by decide)

/-! ## C3: HostMetricStore, ingest then query -/

theorem mapFind_mapSet_self {β : Type} (m : List (GoString × β)) (k : GoString) (v : β) :
    mapFind (mapSet m k v) k = some v := by
  induction m with
  | nil => simp [mapSet, mapFind]
  | cons kv rest ih =>
    obtain ⟨k0, v0⟩ := kv
    unfold mapSet
    by_cases h : k0 = k
    · simp [h, mapFind]
    · have hb : (k == k0) = false := by
        simp only [beq_eq_false_iff_ne, ne_eq]
        exact fun e => h e.symm
      simp only [h, if_false, mapFind, List.lookup_cons, hb]
      exact ih

theorem mapFind_mapSet_ne {β : Type} (m : List (GoString × β)) (k k' : GoString) (v : β)
    (hne : k' ≠ k) : mapFind (mapSet m k v) k' = mapFind m k' := by
  induction m with
  | nil =>
    have hb : (k' == k) = false := by simpa using hne
    simp [mapSet, mapFind, List.lookup_cons, hb]
  | cons kv rest ih =>
    obtain ⟨k0, v0⟩ := kv
    unfold mapSet
    by_cases h : k0 = k
    · subst h
      have hb : (k' == k0) = false := by simpa using hne
      simp [mapFind, List.lookup_cons, hb]
    · simp only [h, if_false, mapFind, List.lookup_cons]
      cases hk : (k' == k0)
      · exact ih
      · rfl

theorem mapSet_keys {β : Type} (m : List (GoString × β)) (k : GoString) (v : β) :
    (mapSet m k v).map Prod.fst = if k ∈ m.map Prod.fst then m.map Prod.fst
      else m.map Prod.fst ++ [k] := by
  induction m with
  | nil => simp [mapSet]
  | cons kv rest ih =>
    obtain ⟨k0, v0⟩ := kv
    unfold mapSet
    by_cases h : k0 = k
    · simp [h]
    · have h' : ¬ k = k0 := fun e => h e.symm
      simp only [h, if_false, List.map_cons, ih, List.mem_cons, h', false_or]
      split_ifs <;> simp

theorem mapSet_nodup {β : Type} (m : List (GoString × β)) (k : GoString) (v : β)
    (h : (m.map Prod.fst).Nodup) : ((mapSet m k v).map Prod.fst).Nodup := by
  rw [mapSet_keys]
  split_ifs with hk
  · exact h
  · rw [List.nodup_append]
    refine ⟨h, List.nodup_singleton k, ?_⟩
    intro a ha hb
    rw [List.mem_singleton] at hb
    subst hb
    exact hk ha

theorem filter_host_flatMap (m : List (GoString × List ContainerMetrics)) (h : GoString) :
    (m.map Prod.fst).Nodup →
    (m.flatMap (fun kv => kv.2.map (ContainerMetrics.toInfo kv.1))).filter
        (fun e => decide (e.HostID = h)) =
      ((mapFind m h).getD []).map (ContainerMetrics.toInfo h) := by
  induction m with
  | nil => intro _; simp [mapFind]
  | cons kv rest ih =>
    obtain ⟨k0, v0⟩ := kv
    intro hnd
    rw [List.map_cons, List.nodup_cons] at hnd
    simp only [List.flatMap_cons, List.filter_append, mapFind, List.lookup_cons]
    by_cases hk : h = k0
    · subst hk
      have hrest : mapFind rest h = none := by
        unfold mapFind
        rw [List.lookup_eq_none_iff]
        intro p hp
        have : p.1 ∈ rest.map Prod.fst := List.mem_map_of_mem Prod.fst hp
        simp only [bne_iff_ne, ne_eq]
        intro e'
        exact hnd.1 (e' ▸ this)
      rw [ih hnd.2, hrest]
      simp [ContainerMetrics.toInfo]
    · have hb : (h == k0) = false := by simpa using hk
      rw [ih hnd.2]
      have hnil : List.filter (fun e => decide (e.HostID = h))
          (v0.map (ContainerMetrics.toInfo k0)) = [] := by
        rw [List.filter_eq_nil_iff]
        intro e he
        rw [List.mem_map] at he
        obtain ⟨c, _, rfl⟩ := he
        simp only [ContainerMetrics.toInfo, decide_eq_true_eq]
        exact fun e => hk e.symm
      simp [hnil, hb, mapFind]

theorem matchesFilters_unfiltered (rt : Runtime) (c : ContainerInfo) :
    matchesFilters rt c [[]] [] [] [] = some true := by
  simp [matchesFilters]

/-- On an unfiltered request the loop over a well-formed local listing (every container with a
name and an id of at least 12 bytes) yields one entry per container, labelled `"master"`. -/
theorem masterEntries_unfiltered (rt : Runtime) (containers : List DockerContainer)
    (hwf : ∀ c ∈ containers, c.Names ≠ [] ∧ 12 ≤ c.ID.length) :
    ListContainersHandler.masterEntries rt [[]] [] [] [] containers =
      some (specLocalEntries containers) := by
  induction containers with
  | nil => rfl
  | cons c rest ih =>
    have hres := ih (fun d hd => hwf d (List.mem_cons_of_mem _ hd))
    obtain ⟨hnames, hid⟩ := hwf c (List.mem_cons_self _ _)
    unfold ListContainersHandler.masterEntries
    cases hn : c.Names with
    | nil => exact absurd hn hnames
    | cons n0 ns =>
      have hs : goSlice c.ID 0 12 = some (c.ID.take 12) := by
        unfold goSlice
        rw [if_pos]
        · rfl
        · refine ⟨le_refl _, by decide, ?_⟩
          exact_mod_cast hid
      simp only [hs, matchesFilters_unfiltered, hres, if_true]
      simp [specLocalEntries, hn]

theorem specLocalEntries_host (containers : List DockerContainer) :
    ∀ e ∈ specLocalEntries containers, e.HostID = str "master" := by
  intro e he
  unfold specLocalEntries at he
  rw [List.mem_map] at he
  obtain ⟨c, _, rfl⟩ := he
  rfl

theorem hostEntries_unfiltered (rt : Runtime) (hostID : GoString)
    (containers : List ContainerMetrics) :
    ListContainersHandler.hostEntries rt [[]] [] [] [] hostID containers =
      some (containers.map (ContainerMetrics.toInfo hostID)) := by
  induction containers with
  | nil => rfl
  | cons c rest ih =>
    unfold ListContainersHandler.hostEntries
    simp only [matchesFilters_unfiltered, ih, if_true]
    rfl

theorem agentEntries_unfiltered (rt : Runtime) (m : List (GoString × List ContainerMetrics)) :
    ListContainersHandler.agentEntries rt [[]] [] [] [] m =
      some (m.flatMap (fun kv => kv.2.map (ContainerMetrics.toInfo kv.1))) := by
  induction m with
  | nil => rfl
  | cons kv rest ih =>
    obtain ⟨k, v⟩ := kv
    unfold ListContainersHandler.agentEntries
    simp only [hostEntries_unfiltered, ih, List.flatMap_cons]

theorem paginate_all (results : List ContainerInfo) :
    ListContainersHandler.paginate results 0 0 = some results := by
  unfold ListContainersHandler.paginate
  have h0 : ¬ ((0 : Int) > (results.length : Int)) := by omega
  simp only [h0, if_false, le_refl, true_or, if_true]
  unfold goSlice
  rw [if_pos ⟨le_refl _, by omega, le_refl _⟩]
  simp

/-- The query on an unfiltered request: it answers 500 when the Docker client cannot be
created or the local listing fails, and on a well-formed local listing it answers with a page
whose entries for a host `h` are those of that host's stored snapshot, together with the
entries of the local containers when `h` is `"master"`. -/
theorem query_unfiltered (rt : Runtime)
    (hsort : ∀ less xs, (rt.sortSlice less xs).Perm xs)
    (hrange : ∀ m, (rt.mapRange m).Perm m) (hlower : rt.ToLower [] = [])
    (s : State) (hkeys : (s.agentMetrics.map Prod.fst).Nodup)
    (sortBy order h : GoString) :
    (∀ (clientOk : Bool) (containers : Option (List DockerContainer)),
      clientOk = false ∨ containers = none →
        ListContainersHandler rt clientOk containers (Query.unfiltered sortBy order) s =
          Reply.error 500) ∧
    ∀ containers : List DockerContainer,
      (∀ c ∈ containers, c.Names ≠ [] ∧ 12 ≤ c.ID.length) →
      ∃ page, ListContainersHandler rt true (some containers) (Query.unfiltered sortBy order) s =
          Reply.ok page ∧
        (page.filter (fun e => decide (e.HostID = h))).Perm
          ((if h = str "master" then specLocalEntries containers else []) ++
            ((mapFind s.agentMetrics h).getD []).map (ContainerMetrics.toInfo h)) := by
  refine ⟨?_, ?_⟩
  · intro clientOk containers hfail
    unfold ListContainersHandler
    rcases hfail with hc | hc
    · simp [hc]
    · subst hc
      cases clientOk <;> rfl
  · intro containers hdocker
    have h1 := masterEntries_unfiltered rt containers hdocker
    have hsplit : stringsSplit [] 44 = [[]] := rfl
    unfold ListContainersHandler
    simp only [Query.unfiltered, hsplit, hlower, h1, agentEntries_unfiltered, paginate_all,
      Bool.not_true, Bool.false_eq_true, if_false]
    refine ⟨_, rfl, ?_⟩
    have hp1 := (hsort (ListContainersHandler.less sortBy order)
      (specLocalEntries containers ++ (rt.mapRange s.agentMetrics).flatMap
        (fun kv => kv.2.map (ContainerMetrics.toInfo kv.1)))).filter
      (fun e => decide (e.HostID = h))
    refine hp1.trans ?_
    rw [List.filter_append, ← filter_host_flatMap s.agentMetrics h hkeys]
    refine List.Perm.append ?_ (((hrange s.agentMetrics).flatMap_right _).filter _)
    by_cases hm : h = str "master"
    · rw [if_pos hm, List.filter_eq_self.mpr]
      intro e he
      simp only [decide_eq_true_eq]
      rw [specLocalEntries_host containers e he, hm]
    · rw [if_neg hm, List.filter_eq_nil_iff.mpr]
      intro e he
      simp only [decide_eq_true_eq]
      rw [specLocalEntries_host containers e he]
      exact fun e => hm e.symm

theorem insertByLess_perm {α : Type} (less : α → α → Bool) (x : α) (l : List α) :
    (insertByLess less x l).Perm (x :: l) := by
  induction l with
  | nil => exact List.Perm.refl _
  | cons y ys ih =>
    unfold insertByLess
    split_ifs
    · exact List.Perm.refl _
    · exact (List.Perm.cons y ih).trans (List.Perm.swap x y ys)

theorem foldl_insertByLess_perm {α : Type} (less : α → α → Bool) (xs : List α) :
    ∀ init : List α, (xs.foldl (fun acc x => insertByLess less x acc) init).Perm (init ++ xs) := by
  induction xs with
  | nil => intro init; simp
  | cons x xs ih =>
    intro init
    rw [List.foldl_cons]
    refine (ih _).trans ?_
    refine ((insertByLess_perm less x init).append_right xs).trans ?_
    exact (List.perm_middle).symm

theorem ascii_sortSlice_perm (less : ContainerInfo → ContainerInfo → Bool)
    (xs : List ContainerInfo) : (Runtime.ascii.sortSlice less xs).Perm xs := by
  have := foldl_insertByLess_perm less xs []
  simpa [Runtime.ascii] using this

/-- C3 (amended). For every host id `h` and sample lists `A` and `B`: after
`ReceiveAgentMetricsHandler` ingests `(h, A)` and then `(h, B)`, the store maps `h` to exactly
`B` and every other host's snapshot is unchanged. An unfiltered `ListContainersHandler` query
on that store answers 500 when the Docker client cannot be created or the listing of the local
runtime fails; when the listing succeeds, every listed container having a name and an id of at
least 12 bytes, the query answers with a page whose entries for host `h` are, up to the order
chosen by the sort, the entries of `B` together with, for `h = "master"`, the entries of the
local containers; for every other `h` they are exactly the entries of `B`. The store is a Go
map (distinct keys); `sort.Slice` and map iteration permute their input. -/
theorem C3_ingest_replaces (rt : Runtime)
    (hsort : ∀ less xs, (rt.sortSlice less xs).Perm xs)
    (hrange : ∀ m, (rt.mapRange m).Perm m) (hlower : rt.ToLower [] = [])
    (s : State) (hkeys : (s.agentMetrics.map Prod.fst).Nodup)
    (h tsA tsB : GoString) (A B : List ContainerMetrics) (sortBy order : GoString) :
    mapFind (ReceiveAgentMetricsHandler (some ⟨h, tsB, B⟩)
        (ReceiveAgentMetricsHandler (some ⟨h, tsA, A⟩) s).1).1.agentMetrics h = some B ∧
    (∀ h', h' ≠ h →
      mapFind (ReceiveAgentMetricsHandler (some ⟨h, tsB, B⟩)
        (ReceiveAgentMetricsHandler (some ⟨h, tsA, A⟩) s).1).1.agentMetrics h' =
      mapFind s.agentMetrics h') ∧
    (∀ (clientOk : Bool) (containers : Option (List DockerContainer)),
      clientOk = false ∨ containers = none →
        ListContainersHandler rt clientOk containers (Query.unfiltered sortBy order)
          (ReceiveAgentMetricsHandler (some ⟨h, tsB, B⟩)
            (ReceiveAgentMetricsHandler (some ⟨h, tsA, A⟩) s).1).1 = Reply.error 500) ∧
    ∀ containers : List DockerContainer,
      (∀ c ∈ containers, c.Names ≠ [] ∧ 12 ≤ c.ID.length) →
      ∃ page, ListContainersHandler rt true (some containers) (Query.unfiltered sortBy order)
          (ReceiveAgentMetricsHandler (some ⟨h, tsB, B⟩)
            (ReceiveAgentMetricsHandler (some ⟨h, tsA, A⟩) s).1).1 = Reply.ok page ∧
        (page.filter (fun e => decide (e.HostID = h))).Perm
          ((if h = str "master" then specLocalEntries containers else []) ++
            B.map (ContainerMetrics.toInfo h)) ∧
        (h ≠ str "master" →
          (page.filter (fun e => decide (e.HostID = h))).Perm
            (B.map (ContainerMetrics.toInfo h))) := by
  simp only [ReceiveAgentMetricsHandler]
  have hk2 : ((mapSet (mapSet s.agentMetrics h A) h B).map Prod.fst).Nodup :=
    mapSet_nodup _ h B (mapSet_nodup _ h A hkeys)
  have hq := query_unfiltered rt hsort hrange hlower
    { s with agentMetrics := mapSet (mapSet s.agentMetrics h A) h B } hk2 sortBy order h
  refine ⟨mapFind_mapSet_self _ h B, ?_, hq.1, ?_⟩
  · intro h' hne
    rw [mapFind_mapSet_ne _ h h' B hne, mapFind_mapSet_ne _ h h' A hne]
  · intro containers hdocker
    obtain ⟨page, hp, hperm⟩ := hq.2 containers hdocker
    simp only [mapFind_mapSet_self, Option.getD_some] at hperm
    refine ⟨page, hp, hperm, ?_⟩
    intro hm
    rw [if_neg hm, List.nil_append] at hperm
    exact hperm

/-- C3, witness (Scenario D): host `h1` pushes `c1` with cpu 10 and then with cpu 90, while
the local runtime lists one container; the unfiltered query answers, and the entries it returns
for `h1` are the one entry with cpu 90. -/
theorem C3_ingest_replaces_witness :
    ∃ page, ListContainersHandler Runtime.ascii true
        (some [⟨str "0123456789abcdef", [str "/web"], str "nginx"⟩]) (Query.unfiltered [] [])
        (ReceiveAgentMetricsHandler
          (some ⟨str "h1", [], [ContainerMetrics.sample (str "c1") (str "web") (str "nginx")
            (F64.ofNat 90) (F64.ofNat 64)]⟩)
          (ReceiveAgentMetricsHandler
            (some ⟨str "h1", [], [ContainerMetrics.sample (str "c1") (str "web") (str "nginx")
              (F64.ofNat 10) (F64.ofNat 64)]⟩) State.initial).1).1 = Reply.ok page ∧
      (page.filter (fun e => decide (e.HostID = str "h1"))).Perm
        ([ContainerMetrics.sample (str "c1") (str "web") (str "nginx")
            (F64.ofNat 90) (F64.ofNat 64)].map (ContainerMetrics.toInfo (str "h1"))) := by
  obtain ⟨page, hp, _, hne⟩ :=
    (C3_ingest_replaces Runtime.ascii ascii_sortSlice_perm (fun m => List.Perm.refl m) rfl
      State.initial (by decide) (str "h1") [] []
      [ContainerMetrics.sample (str "c1") (str "web") (str "nginx") (F64.ofNat 10) (F64.ofNat 64)]
      [ContainerMetrics.sample (str "c1") (str "web") (str "nginx") (F64.ofNat 90) (F64.ofNat 64)]
      [] []).2.2.2 [⟨str "0123456789abcdef", [str "/web"], str "nginx"⟩]
      (by
        intro c hc
        rw [List.mem_singleton] at hc
        subst hc
        decide)
  exact ⟨page, hp, hne (by decide)⟩

/-- C3, counterexample to the claim as stated (every host id, every query). First, an agent
pushes under the host id `"master"` while the local runtime lists a container: the query
answers with two entries for host `"master"`, the pushed sample and the local container, so the
entries returned for that host are not exactly those of the pushed list. Second, host `h1`
pushes `c1` twice and the listing of the local runtime fails: the query answers 500 and returns
no entry of the pushed list. -/
theorem C3_counterexample :
    (¬ ∃ page, ListContainersHandler Runtime.ascii true
        (some [⟨str "0123456789abcdef", [str "/web"], str "nginx"⟩]) (Query.unfiltered [] [])
        (ReceiveAgentMetricsHandler
          (some ⟨str "master", [], [ContainerMetrics.sample (str "c1") (str "db") (str "redis")
            (F64.ofNat 90) (F64.ofNat 64)]⟩)
          (ReceiveAgentMetricsHandler
            (some ⟨str "master", [], [ContainerMetrics.sample (str "c1") (str "db") (str "redis")
              (F64.ofNat 10) (F64.ofNat 64)]⟩) State.initial).1).1 = Reply.ok page ∧
      (page.filter (fun e => decide (e.HostID = str "master"))).Perm
        ([ContainerMetrics.sample (str "c1") (str "db") (str "redis")
            (F64.ofNat 90) (F64.ofNat 64)].map (ContainerMetrics.toInfo (str "master")))) ∧
    (¬ ∃ page, ListContainersHandler Runtime.ascii true none (Query.unfiltered [] [])
        (ReceiveAgentMetricsHandler
          (some ⟨str "h1", [], [ContainerMetrics.sample (str "c1") (str "web") (str "nginx")
            (F64.ofNat 90) (F64.ofNat 64)]⟩)
          (ReceiveAgentMetricsHandler
            (some ⟨str "h1", [], [ContainerMetrics.sample (str "c1") (str "web") (str "nginx")
              (F64.ofNat 10) (F64.ofNat 64)]⟩) State.initial).1).1 = Reply.ok page ∧
      (page.filter (fun e => decide (e.HostID = str "h1"))).Perm
        ([ContainerMetrics.sample (str "c1") (str "web") (str "nginx")
            (F64.ofNat 90) (F64.ofNat 64)].map (ContainerMetrics.toInfo (str "h1")))) := by
  refine ⟨?_, ?_⟩
  · rintro ⟨page, hp, hperm⟩
    have hrun : ListContainersHandler Runtime.ascii true
          (some [⟨str "0123456789abcdef", [str "/web"], str "nginx"⟩]) (Query.unfiltered [] [])
          (ReceiveAgentMetricsHandler
            (some ⟨str "master", [], [ContainerMetrics.sample (str "c1") (str "db") (str "redis")
              (F64.ofNat 90) (F64.ofNat 64)]⟩)
            (ReceiveAgentMetricsHandler
              (some ⟨str "master", [], [ContainerMetrics.sample (str "c1") (str "db")
                (str "redis") (F64.ofNat 10) (F64.ofNat 64)]⟩) State.initial).1).1 =
        Reply.ok
          [ContainerMetrics.toInfo (str "master")
            (ContainerMetrics.sample (str "c1") (str "db") (str "redis")
              (F64.ofNat 90) (F64.ofNat 64)),
           { ID := str "0123456789ab", Name := str "web", CPUPercent := F64.zero,
             MemoryMB := F64.zero, Logs := [], Image := str "nginx", HostID := str "master" }] := by
      decide
    rw [hrun] at hp
    cases hp
    have hlen := hperm.length_eq
    revert hlen
    decide
  · rintro ⟨page, hp, _⟩
    have hrun : ListContainersHandler Runtime.ascii true none (Query.unfiltered [] [])
          (ReceiveAgentMetricsHandler
            (some ⟨str "h1", [], [ContainerMetrics.sample (str "c1") (str "web") (str "nginx")
              (F64.ofNat 90) (F64.ofNat 64)]⟩)
            (ReceiveAgentMetricsHandler
              (some ⟨str "h1", [], [ContainerMetrics.sample (str "c1") (str "web")
                (str "nginx") (F64.ofNat 10) (F64.ofNat 64)]⟩) State.initial).1).1 =
        Reply.error 500 := rfl
    rw [hrun] at hp
    cases hp

/-! ## C4, C5: pagination -/

theorem wrapInt_of_range (x : Int) (h1 : -(2 ^ 63) ≤ x) (h2 : x < 2 ^ 63) : wrapInt x = x := by
  unfold wrapInt
  omega

/-- Pagination away from the overflow of `offset + limit`: for an offset `o ≥ 0` and a limit
`l` with `min o R + l` below `2 ^ 63`, the page is `results[min(o,R) : min(o+l,R)]` when
`l > 0` and `results[min(o,R) : R]` when `l ≤ 0`. -/
theorem paginate_of_no_overflow (results : List ContainerInfo) (o l : Int) (ho : 0 ≤ o)
    (hl : -(2 ^ 63) ≤ l) (hsum : min o (results.length : Int) + l < 2 ^ 63) :
    ListContainersHandler.paginate results o l =
      some ((results.take (if 0 < l then min (o + l) (results.length : Int)
          else (results.length : Int)).toNat).drop (min o (results.length : Int)).toNat) := by
  unfold ListContainersHandler.paginate
  have hlen : (0 : Int) ≤ (results.length : Int) := Int.natCast_nonneg _
  by_cases hgt : o > (results.length : Int)
  · have hmin : min o (results.length : Int) = (results.length : Int) := by omega
    rw [hmin] at hsum
    simp only [hgt, if_true, hmin]
    rw [wrapInt_of_range _ (by omega) hsum]
    by_cases hl0 : l ≤ 0
    · have : ¬ (0 < l) := by omega
      simp only [hl0, true_or, if_true, this, if_false]
      unfold goSlice
      rw [if_pos ⟨hlen, le_refl _, le_refl _⟩]
    · have hpos : 0 < l := by omega
      have hend : (results.length : Int) + l > (results.length : Int) := by omega
      have hmin2 : min (o + l) (results.length : Int) = (results.length : Int) := by omega
      simp only [hl0, false_or, hend, if_true, hpos, hmin2]
      unfold goSlice
      rw [if_pos ⟨hlen, le_refl _, le_refl _⟩]
  · have hmin : min o (results.length : Int) = o := by omega
    rw [hmin] at hsum
    simp only [hgt, if_false, hmin]
    rw [wrapInt_of_range _ (by omega) hsum]
    by_cases hl0 : l ≤ 0
    · have : ¬ (0 < l) := by omega
      simp only [hl0, true_or, if_true, this, if_false]
      unfold goSlice
      rw [if_pos ⟨ho, by omega, le_refl _⟩]
    · have hpos : 0 < l := by omega
      simp only [hl0, false_or, hpos, if_true]
      by_cases hend : o + l > (results.length : Int)
      · have hmin2 : min (o + l) (results.length : Int) = (results.length : Int) := by omega
        simp only [hend, if_true, hmin2]
        unfold goSlice
        rw [if_pos ⟨ho, by omega, le_refl _⟩]
      · have hmin2 : min (o + l) (results.length : Int) = o + l := by omega
        simp only [hend, if_false, hmin2]
        unfold goSlice
        rw [if_pos ⟨ho, by omega, by omega⟩]

/-- C4, failing input: one result, `offset = 1` and `limit = 9223372036854775807` (the largest
Go `int`). The sum `offset + limit` wraps to a negative `end`, which passes the guard
`end > len(results)`, and `results[1:end]` panics; the claim asks for `results[1:1]`. -/
theorem C4_paginate_overflow :
    ListContainersHandler.paginate
      [ContainerMetrics.toInfo (str "h1")
        (ContainerMetrics.sample (str "c1") (str "web") (str "nginx") F64.zero F64.zero)]
      1 9223372036854775807 = none ∧
    ListContainersHandler Runtime.ascii true (some [])
      { Query.unfiltered [] [] with offset := 1, limit := 9223372036854775807 }
      (ReceiveAgentMetricsHandler
        (some ⟨str "h1", [], [ContainerMetrics.sample (str "c1") (str "web") (str "nginx")
          F64.zero F64.zero]⟩) State.initial).1 = Reply.panic := by
  decide

/-- A negative offset is never clamped: the slice expression panics for every result list and
every limit. -/
theorem paginate_negative_offset (results : List ContainerInfo) (o l : Int) (ho : o < 0) :
    ListContainersHandler.paginate results o l = none := by
  unfold ListContainersHandler.paginate
  have hgt : ¬ (o > (results.length : Int)) := by omega
  simp only [hgt, if_false]
  unfold goSlice
  rw [if_neg]
  intro h
  omega

/-- C5, failing input: `offset = -1` (with no limit) on an empty result. The offset is only
clamped from above, `results[-1:0]` panics, and the handler does not answer; the claim asks for
an empty result. -/
theorem C5_paginate_negative_offset :
    ListContainersHandler.paginate [] (-1) 0 = none ∧
    ListContainersHandler Runtime.ascii true (some [])
      { Query.unfiltered [] [] with offset := -1 } State.initial = Reply.panic := by
  decide

/-! ## C6: trigger strictness -/

namespace F64

theorem gt_eq_false_of_le (v t : F64) (h : le v t = true) : gt v t = false := by
  unfold gt
  cases v with
  | nan => simp [le] at h
  | inf s =>
    cases t with
    | nan => simp [le] at h
    | inf u => cases s <;> cases u <;> simp_all [lt, le]
    | fin u k f => cases s <;> simp_all [lt, le]
  | fin s m e =>
    cases t with
    | nan => simp [le] at h
    | inf u => cases u <;> simp_all [lt, le]
    | fin u k f =>
      simp only [le, decide_eq_true_eq] at h
      simp only [lt, decide_eq_false_iff_not, not_lt]
      rw [min_comm f e]
      exact h

theorem gt_self (v : F64) : gt v v = false := by
  unfold gt
  cases v with
  | nan => rfl
  | inf s => cases s <;> rfl
  | fin s m e => simp [lt]

end F64

theorem sendAlert_ne_nil (rt : Runtime) (rule : AlertRule) (message : GoString) :
    sendAlert rt rule message ≠ [] := by
  unfold sendAlert
  simp

theorem highCPU_ne_highMemory : HighCPU ≠ HighMemory := by decide

theorem rules_single_highCPU (rt : Runtime) (env : MonitorEnv) (k : Nat) (rule : AlertRule)
    (stats : StatsJSON) (hen : rule.Enabled = true) (hc : env.newClient k = true)
    (hs : env.containerStats k rule.ContainerID = some stats) (hty : rule.Typ = HighCPU) :
    checkAllAlerts.rules rt env k [rule] =
      if F64.gt (calculateCPUPercent stats) rule.Threshold = true then
        sendAlert rt rule
          (str "High CPU usage: " ++ rt.FormatFloat (calculateCPUPercent stats) ++ str "%")
      else [] := by
  have hne : ¬ (HighCPU = HighMemory) := highCPU_ne_highMemory
  simp only [checkAllAlerts.rules, hen, checkContainerResource, hc, hs,
    checkContainerResource.check, hty, hne, List.append_nil, Bool.not_true, Bool.false_eq_true,
    if_false, true_or, if_true, decide_True, Bool.true_and, decide_False, Bool.false_and]

theorem rules_single_highMemory (rt : Runtime) (env : MonitorEnv) (k : Nat) (rule : AlertRule)
    (stats : StatsJSON) (hen : rule.Enabled = true) (hc : env.newClient k = true)
    (hs : env.containerStats k rule.ContainerID = some stats) (hty : rule.Typ = HighMemory) :
    checkAllAlerts.rules rt env k [rule] =
      if F64.gt (F64.div (F64.ofNat stats.MemoryStats.Usage) (F64.ofNat (1024 * 1024)))
          rule.Threshold = true then
        sendAlert rt rule
          (str "High Memory usage: " ++
            rt.FormatFloat (F64.div (F64.ofNat stats.MemoryStats.Usage) (F64.ofNat (1024 * 1024)))
            ++ str " MB")
      else [] := by
  have hne : ¬ (HighMemory = HighCPU) := fun e => highCPU_ne_highMemory e.symm
  simp only [checkAllAlerts.rules, hen, checkContainerResource, hc, hs,
    checkContainerResource.check, hty, hne, List.append_nil, Bool.not_true, Bool.false_eq_true,
    if_false, or_true, if_true, decide_True, Bool.true_and, decide_False, Bool.false_and,
    List.nil_append]

theorem body_eq_specEvent (env : EvalEnv) (payload : AgentPayload) (i : Nat)
    (container : ContainerMetrics) (j : Nat) (alert : AlertDefinition) :
    (EvaluateAlerts.body env payload i container j alert).map Prod.fst =
      specEvent env payload i container j alert := by
  unfold EvaluateAlerts.body specEvent
  by_cases hcond : alert.Enabled = true ∧ alert.HostID = payload.HostID ∧
      alert.ContainerID = container.ID
  · obtain ⟨h1, h2, h3⟩ := hcond
    simp only [h1, h2, h3, Bool.not_true, ne_eq, not_true_eq_false, decide_False, Bool.or_self,
      Bool.false_eq_true, if_false, and_self, if_true]
    unfold QueryAverageMetric
    by_cases hcpu : alert.Typ = str "high_cpu"
    · simp only [hcpu, if_true]
      cases env.influx i j (str "cpu") payload.HostID container.ID with
      | none => rfl
      | some avg =>
        by_cases hgt : F64.gt avg alert.Threshold = true
        · simp [hgt]
        · simp [hgt]
    · by_cases hmem : alert.Typ = str "high_memory"
      · have hne : ¬ (str "high_memory" = str "high_cpu") := by decide
        simp only [hmem, hne, if_false, if_true]
        cases env.influx i j (str "memory") payload.HostID container.ID with
        | none => rfl
        | some avg =>
          by_cases hgt : F64.gt avg alert.Threshold = true
          · simp [hgt]
          · simp [hgt]
      · simp only [hcpu, hmem, if_false]
        rfl
  · have hb : (!alert.Enabled || decide (alert.HostID ≠ payload.HostID) ||
        decide (alert.ContainerID ≠ container.ID)) = true := by
      simp only [Bool.or_eq_true, Bool.not_eq_true', decide_eq_true_eq, ne_eq]
      by_cases h1 : alert.Enabled = true
      · by_cases h2 : alert.HostID = payload.HostID
        · exact Or.inr (fun h3 => hcond ⟨h1, h2, h3⟩)
        · exact Or.inl (Or.inr h2)
      · exact Or.inl (Or.inl (by simpa using h1))
    simp only [hb, if_true, hcond, if_false]
    rfl

/-- C6. For every enabled threshold rule the rule triggers if and only if the measured value is
strictly above the threshold, in the monitor (`checkAllAlerts` evaluating the rule through
`checkContainerResource` on a fetched reading: the CPU percentage for `high_cpu`, the memory
usage in MiB for `high_memory`) and in `EvaluateAlerts` (the queried mean; a successful query
means the kind is `high_cpu` or `high_memory`). A value that is at most the threshold, in
particular one equal to it, gives `v > threshold = false`. -/
theorem C6_threshold_strict (rt : Runtime) (env : MonitorEnv) (k : Nat) (rule : AlertRule)
    (stats : StatsJSON) (hen : rule.Enabled = true) (hc : env.newClient k = true)
    (hs : env.containerStats k rule.ContainerID = some stats)
    (eenv : EvalEnv) (payload : AgentPayload) (i j : Nat) (container : ContainerMetrics)
    (alert : AlertDefinition) (avg : F64) (haen : alert.Enabled = true)
    (hhost : alert.HostID = payload.HostID) (hcid : alert.ContainerID = container.ID)
    (hq : QueryAverageMetric (eenv.influx i j) alert.Typ container.ID payload.HostID = some avg) :
    (rule.Typ = HighCPU →
      (checkAllAlerts.rules rt env k [rule] ≠ [] ↔
        F64.gt (calculateCPUPercent stats) rule.Threshold = true)) ∧
    (rule.Typ = HighMemory →
      (checkAllAlerts.rules rt env k [rule] ≠ [] ↔
        F64.gt (F64.div (F64.ofNat stats.MemoryStats.Usage) (F64.ofNat (1024 * 1024)))
          rule.Threshold = true)) ∧
    ((EvaluateAlerts.body eenv payload i container j alert).isSome = true ↔
      F64.gt avg alert.Threshold = true) ∧
    (∀ v t : F64, F64.le v t = true → F64.gt v t = false) ∧
    (∀ v : F64, F64.gt v v = false) := by
  refine ⟨?_, ?_, ?_, F64.gt_eq_false_of_le, F64.gt_self⟩
  · intro hty
    rw [rules_single_highCPU rt env k rule stats hen hc hs hty]
    split_ifs with hgt
    · exact ⟨fun _ => hgt, fun _ => sendAlert_ne_nil _ _ _⟩
    · exact ⟨fun h => absurd rfl h, fun h => absurd h hgt⟩
  · intro hty
    rw [rules_single_highMemory rt env k rule stats hen hc hs hty]
    split_ifs with hgt
    · exact ⟨fun _ => hgt, fun _ => sendAlert_ne_nil _ _ _⟩
    · exact ⟨fun h => absurd rfl h, fun h => absurd h hgt⟩
  · have hbody := body_eq_specEvent eenv payload i container j alert
    have hsome : (EvaluateAlerts.body eenv payload i container j alert).isSome =
        (specEvent eenv payload i container j alert).isSome := by
      rw [← hbody]
      simp
    rw [hsome]
    unfold specEvent
    simp only [haen, hhost, hcid, and_self, if_true, hq]
    by_cases hgt : F64.gt avg alert.Threshold = true
    · simp [hgt]
    · simp [hgt]

set_option maxRecDepth 8000 in
/-- C6, witness: a `high_cpu` rule with threshold 80 on a reading whose CPU percentage is 80
does not trigger, and a queried mean of 80 against the threshold 80 appends nothing. -/
theorem C6_threshold_strict_witness :
    checkAllAlerts.rules Runtime.ascii
        (MonitorEnv.steady (StatsJSON.sample 1200 1000 6000 5000 4 0 none 0) []) 0
        [AlertRule.sample (str "r1") (str "c1") HighCPU (F64.ofNat 80)] = [] ∧
    (EvaluateAlerts.body (EvalEnv.steady (F64.ofNat 80))
        ⟨str "h1", [], []⟩ 0
        (ContainerMetrics.sample (str "c1") (str "web") (str "nginx") F64.zero F64.zero) 0
        (AlertDefinition.sample (str "a1") (str "h1") (str "c1") (str "high_cpu")
          (F64.ofNat 80))).isSome = false := by
  have h := C6_threshold_strict Runtime.ascii
    (MonitorEnv.steady (StatsJSON.sample 1200 1000 6000 5000 4 0 none 0) []) 0
    (AlertRule.sample (str "r1") (str "c1") HighCPU (F64.ofNat 80))
    (StatsJSON.sample 1200 1000 6000 5000 4 0 none 0) rfl rfl rfl
    (EvalEnv.steady (F64.ofNat 80)) ⟨str "h1", [], []⟩ 0 0
    (ContainerMetrics.sample (str "c1") (str "web") (str "nginx") F64.zero F64.zero)
    (AlertDefinition.sample (str "a1") (str "h1") (str "c1") (str "high_cpu") (F64.ofNat 80))
    (F64.ofNat 80) rfl rfl rfl (by decide)
  refine ⟨?_, ?_⟩
  · by_contra hne
    have hgt := (h.1 rfl).mp hne
    revert hgt
    decide
  · cases hb : (EvaluateAlerts.body (EvalEnv.steady (F64.ofNat 80))
        ⟨str "h1", [], []⟩ 0
        (ContainerMetrics.sample (str "c1") (str "web") (str "nginx") F64.zero F64.zero) 0
        (AlertDefinition.sample (str "a1") (str "h1") (str "c1") (str "high_cpu")
          (F64.ofNat 80))).isSome with
    | false => rfl
    | true =>
      have hgt := h.2.2.1.mp hb
      revert hgt
      decide

/-! ## C7, C8: the rule list and the event list around the monitor -/

/-- The rule list that `ListAlertRulesHandler` returns and that `checkAllAlerts` snapshots is
the same before and after any `CreateAlertRuleHandler` request. -/
theorem create_keeps_alertRules (body : Option AlertDefinition) (s : State) :
    ListAlertRulesHandler (CreateAlertRuleHandler body s).1 = ListAlertRulesHandler s := by
  unfold CreateAlertRuleHandler ListAlertRulesHandler
  cases body with
  | none => rfl
  | some rule =>
    simp only
    split_ifs <;> rfl

/-- C7, failing input: on a fresh process, `POST /alerts` with the rule `r1` (id, container
and type present) is accepted with status 200 and appended to `alertDefinitions`, while
`ListAlertRulesHandler` still returns the empty `alertRules` and the next tick, on a reading
far above the threshold, evaluates no rule; the claim asks for `r1` to be listed and
evaluated. -/
theorem C7_created_rule_not_listed :
    (CreateAlertRuleHandler
      (some (AlertDefinition.sample (str "r1") (str "master") (str "c1") (str "high_cpu")
        (F64.ofNat 1))) State.initial).2 = 200 ∧
    (CreateAlertRuleHandler
      (some (AlertDefinition.sample (str "r1") (str "master") (str "c1") (str "high_cpu")
        (F64.ofNat 1))) State.initial).1.alertDefinitions =
      [AlertDefinition.sample (str "r1") (str "master") (str "c1") (str "high_cpu")
        (F64.ofNat 1)] ∧
    ListAlertRulesHandler (CreateAlertRuleHandler
      (some (AlertDefinition.sample (str "r1") (str "master") (str "c1") (str "high_cpu")
        (F64.ofNat 1))) State.initial).1 = [] ∧
    (checkAllAlerts Runtime.ascii
      (MonitorEnv.steady (StatsJSON.sample 1200 1000 6000 5000 4 0 none 0) [])
      (CreateAlertRuleHandler
        (some (AlertDefinition.sample (str "r1") (str "master") (str "c1") (str "high_cpu")
          (F64.ofNat 1))) State.initial).1).2 = [] := by
  decide

/-- A tick of the monitor leaves every shared variable, the event list included, as it
was. -/
theorem checkAllAlerts_keeps_state (rt : Runtime) (env : MonitorEnv) (s : State) :
    (checkAllAlerts rt env s).1 = s := rfl

theorem inner_spec (env : EvalEnv) (payload : AgentPayload) (i : Nat)
    (container : ContainerMetrics) (defs : List AlertDefinition) :
    ∀ (j : Nat) (acc : State × List Action),
      (EvaluateAlerts.inner env payload i container j defs acc).1 =
        { acc.1 with
          alertEvents := (acc.1.alertEvents ++ (defs.enumFrom j).filterMap
            (fun ja => specEvent env payload i container ja.1 ja.2)) } := by
  induction defs with
  | nil =>
    intro j acc
    simp [EvaluateAlerts.inner]
  | cons alert rest ih =>
    intro j acc
    unfold EvaluateAlerts.inner
    have hb := body_eq_specEvent env payload i container j alert
    cases hbody : EvaluateAlerts.body env payload i container j alert with
    | none =>
      rw [hbody] at hb
      simp only [Option.map_none'] at hb
      simp only [ih, List.enumFrom_cons, List.filterMap_cons, ← hb]
    | some ev =>
      obtain ⟨event, actions⟩ := ev
      rw [hbody] at hb
      simp only [Option.map_some'] at hb
      simp only [ih, List.enumFrom_cons, List.filterMap_cons, ← hb, List.append_assoc,
        List.singleton_append]

theorem outer_spec (env : EvalEnv) (payload : AgentPayload) (containers : List ContainerMetrics) :
    ∀ (i : Nat) (acc : State × List Action),
      (EvaluateAlerts.outer env payload i containers acc).1 =
        { acc.1 with
          alertEvents := (acc.1.alertEvents ++ (containers.enumFrom i).flatMap
            (fun ic => acc.1.alertDefinitions.enum.filterMap
              (fun ja => specEvent env payload ic.1 ic.2 ja.1 ja.2))) } := by
  induction containers with
  | nil =>
    intro i acc
    simp [EvaluateAlerts.outer]
  | cons container rest ih =>
    intro i acc
    unfold EvaluateAlerts.outer
    rw [ih, inner_spec]
    simp only [List.enumFrom_cons, List.flatMap_cons, List.append_assoc, List.enum]

/-- C9. For every payload, rule list and outcome of the mean queries, the event list after
`EvaluateAlerts` is the event list before it followed by the events of the specification: one
new `AlertEvent` per (container, alert) pair, in iteration order, for which the alert is
enabled, matches the payload's host and the container's id, the query succeeded and the mean
is strictly above the threshold. Existing events are neither edited nor removed, and the other
shared variables are unchanged. -/
theorem C9_events_append_only (env : EvalEnv) (payload : AgentPayload) (s : State) :
    (EvaluateAlerts env payload s).1.alertEvents =
      s.alertEvents ++ specEvents env payload s.alertDefinitions ∧
    (EvaluateAlerts env payload s).1.alertDefinitions = s.alertDefinitions ∧
    (EvaluateAlerts env payload s).1.alertRules = s.alertRules ∧
    (EvaluateAlerts env payload s).1.agentMetrics = s.agentMetrics := by
  unfold EvaluateAlerts
  rw [outer_spec]
  exact ⟨rfl, rfl, rfl, rfl⟩

set_option maxRecDepth 8000 in
/-- C9, witness (Scenario E): with a rule of threshold 80 for container `c1` of host `h1`, a
measured mean of 80 appends nothing and a measured mean of 80.1 appends exactly one event. -/
theorem C9_events_append_only_witness :
    (EvaluateAlerts (EvalEnv.steady (F64.ofNat 80))
      ⟨str "h1", [], [ContainerMetrics.sample (str "c1") (str "web") (str "nginx")
        F64.zero F64.zero]⟩
      { State.initial with
        alertDefinitions := [AlertDefinition.sample (str "a1") (str "h1") (str "c1")
          (str "high_cpu") (F64.ofNat 80)] }).1.alertEvents = [] ∧
    (EvaluateAlerts (EvalEnv.steady (F64.roundPos false 801 10))
      ⟨str "h1", [], [ContainerMetrics.sample (str "c1") (str "web") (str "nginx")
        F64.zero F64.zero]⟩
      { State.initial with
        alertDefinitions := [AlertDefinition.sample (str "a1") (str "h1") (str "c1")
          (str "high_cpu") (F64.ofNat 80)] }).1.alertEvents =
      [{ AlertID := str "a1", HostID := str "h1", ContainerID := str "c1",
         Typ := str "high_cpu", Message := str "CPU usage exceeded threshold",
         Timestamp := 0, Restarted := false }] :=
  ⟨(C9_events_append_only _ _ _).1.trans (by decide),
   (C9_events_append_only _ _ _).1.trans (by decide)⟩

/-! ## C11: memory percentage -/

/-- On a reading whose memory limit is 0 the division of line 229 is a division by zero: the
memory percentage is `+Inf` when some memory is used and NaN when none is. -/
theorem memPercent_of_limit_zero (data : StatsJSON) (h : data.MemoryStats.Limit = 0) :
    WSContainerMetricsHandler.memPercent data =
      if WSContainerMetricsHandler.memUsed data = 0 then F64.nan else F64.inf false := by
  have hlt : WSContainerMetricsHandler.memUsed data < 2 ^ 64 := by
    unfold WSContainerMetricsHandler.memUsed u64sub
    exact Nat.mod_lt _ (by decide)
  unfold WSContainerMetricsHandler.memPercent
  rw [h]
  generalize WSContainerMetricsHandler.memUsed data = u at hlt
  by_cases hu : u = 0
  · subst hu
    decide
  · rw [if_neg hu]
    obtain ⟨m, e, hfin, hm, _⟩ := F64.ofNat_pos_cases u (Nat.pos_of_ne_zero hu) hlt
    rw [hfin, F64.ofNat_hundred]
    simp [F64.ofNat, F64.zero, F64.div, F64.mul, hm]

/-- On every reading the memory percentage is the float expression
`float64(memUsed) / float64(limit) * 100`; with a limit that is not 0 it is a number. -/
theorem memPercent_of_limit_pos (data : StatsJSON) (hwf : data.wf)
    (h : data.MemoryStats.Limit ≠ 0) :
    WSContainerMetricsHandler.memPercent data =
      F64.mul (F64.div (F64.ofNat (WSContainerMetricsHandler.memUsed data))
        (F64.ofNat data.MemoryStats.Limit)) (F64.ofNat 100) ∧
    WSContainerMetricsHandler.memPercent data ≠ F64.nan := by
  refine ⟨rfl, ?_⟩
  obtain ⟨_, _, _, _, _, _, hl, _⟩ := hwf
  have hlt : WSContainerMetricsHandler.memUsed data < 2 ^ 64 := by
    unfold WSContainerMetricsHandler.memUsed u64sub
    exact Nat.mod_lt _ (by decide)
  unfold WSContainerMetricsHandler.memPercent
  rw [F64.ofNat_hundred]
  apply F64.mul_ne_nan_of_ne_zero _ _ _ _ _ (by decide)
  generalize WSContainerMetricsHandler.memUsed data = u at hlt
  by_cases hu : u = 0
  · subst hu
    obtain ⟨m, e, hfin, hm, _⟩ :=
      F64.ofNat_pos_cases data.MemoryStats.Limit (Nat.pos_of_ne_zero h) hl
    rw [hfin]
    simp [F64.ofNat, F64.zero, F64.div, hm]
  · obtain ⟨s, m, e, hd⟩ := F64.div_ofNat_fin u data.MemoryStats.Limit
      (Nat.pos_of_ne_zero hu) hlt (Nat.pos_of_ne_zero h) hl
    rw [hd]
    intro hc
    cases hc

set_option maxRecDepth 8000 in
/-- C11. On a stats reading whose memory limit is 0, `WSContainerMetricsHandler` does not
report a memory percentage of 0: with 200 MB of usage and 50 MB of cache the payload carries
`+Inf`, and with no usage at all it carries NaN. (With a limit that is not 0 the value is
`memory_used / limit * 100`, see `memPercent_of_limit_pos`.) -/
theorem C11_memory_percent_limit_zero :
    (WSContainerMetricsHandler.payload
      (StatsJSON.sample 0 0 0 0 1 (200 * 2 ^ 20) (some (50 * 2 ^ 20)) 0)).MemoryPercent =
        F64.inf false ∧
    (WSContainerMetricsHandler.payload (StatsJSON.sample 0 0 0 0 1 0 none 0)).MemoryPercent =
      F64.nan ∧
    (StatsJSON.sample 0 0 0 0 1 (200 * 2 ^ 20) (some (50 * 2 ^ 20)) 0).wf := by
  decide

/-! ## C12, C13: the CPU percentage at its call sites -/

/-- The two metrics handlers compute the CPU percentage with the same text. -/
theorem handlers_cpuPercent_eq (data : StatsJSON) :
    GetContainerMetricsHandler.cpuPercent data = WSContainerMetricsHandler.cpuPercent data :=
  rfl

/-- The agent and the monitor compute the CPU percentage with the same text. -/
theorem agent_calculateCPUPercent_eq (stats : StatsJSON) :
    agent.calculateCPUPercent stats = calculateCPUPercent stats :=
  rfl

/-- The handlers report the value of `calculateCPUPercent` when it lies in `[0, 1000]` and `0`
in its place otherwise. -/
theorem handler_cpuPercent_eq_clamp (data : StatsJSON) :
    WSContainerMetricsHandler.cpuPercent data =
      if F64.lt (calculateCPUPercent data) F64.zero ||
          F64.gt (calculateCPUPercent data) (F64.ofNat 1000) then F64.zero
      else calculateCPUPercent data :=
  rfl

/-- A counter that went backwards gives a delta just below `2 ^ 64`. -/
theorem u64sub_of_lt (a b : Nat) (hb : b < 2 ^ 64) (h : a < b) :
    u64sub a b = 2 ^ 64 - (b - a) := by
  unfold u64sub
  rw [Nat.mod_eq_of_lt hb, Nat.mod_eq_of_lt (by omega)]
  omega

set_option maxRecDepth 8000 in
/-- C12. A reading whose counters went backwards is not always reported as 0. With both
counters 100 below their previous value on 4 CPUs, both deltas wrap to `2 ^ 64 - 100` and the
two metrics handlers report 400; with only the system counter going backwards (by 1000, the
container counter advancing by 200) the handlers report a small positive number; with only the
container counter going backwards, `calculateCPUPercent` of the monitor and of the agent
returns a number above `2 ^ 62`. -/
theorem C12_counter_regression :
    u64sub 900 1000 = 2 ^ 64 - 100 ∧
    WSContainerMetricsHandler.cpuPercent (StatsJSON.sample 900 1000 5900 6000 4 0 none 0) =
      F64.ofNat 400 ∧
    GetContainerMetricsHandler.cpuPercent (StatsJSON.sample 900 1000 5900 6000 4 0 none 0) =
      F64.ofNat 400 ∧
    WSContainerMetricsHandler.cpuPercent (StatsJSON.sample 1200 1000 5000 6000 4 0 none 0) =
      F64.fin false 5497558138880000 (-100) ∧
    calculateCPUPercent (StatsJSON.sample 900 1000 6000 5000 4 0 none 0) =
      F64.fin false 7205759403792794 10 ∧
    agent.calculateCPUPercent (StatsJSON.sample 900 1000 6000 5000 4 0 none 0) =
      F64.fin false 7205759403792794 10 ∧
    F64.ofNat 400 ≠ F64.zero := by
  decide

set_option maxRecDepth 8000 in
/-- C13. The call sites diverge: on a reading with `cpu_delta = system_delta = 1000` and 16
per-CPU entries, `calculateCPUPercent` of the monitor and of the agent returns 1600, while the
inline computation of the two metrics handlers reports 0. -/
theorem C13_cpu_call_sites_diverge :
    calculateCPUPercent (StatsJSON.sample 2000 1000 6000 5000 16 0 none 0) = F64.ofNat 1600 ∧
    agent.calculateCPUPercent (StatsJSON.sample 2000 1000 6000 5000 16 0 none 0) =
      F64.ofNat 1600 ∧
    WSContainerMetricsHandler.cpuPercent (StatsJSON.sample 2000 1000 6000 5000 16 0 none 0) =
      F64.zero ∧
    GetContainerMetricsHandler.cpuPercent (StatsJSON.sample 2000 1000 6000 5000 16 0 none 0) =
      F64.zero ∧
    F64.ofNat 1600 ≠ F64.zero := by
  decide

/-! ## C14, C19: the decode loop on every stream -/

theorem frameSize_eq_headerDeclared (header : List Byte) :
    WSLogsHandler.frameSize header = (headerDeclared header : Int) := by
  simp only [WSLogsHandler.frameSize, headerDeclared]
  rw [be32_or_eq_add _ _ _ _ (header.getD 5 0).isLt (header.getD 6 0).isLt
    (header.getD 7 0).isLt]

/-- One iteration of the decode loop on a stream that starts with a well-formed frame. -/
theorem loop_frame_step (rt : Runtime) (filter : GoString) (writeOk : Nat → GoString → Bool)
    (f : Frame) (hf : f.wf) (rest : List Byte) (fuel : Nat) (sent : List GoString) :
    WSLogsHandler.loop rt filter writeOk (fuel + 1) (f.encode ++ rest) sent =
      if f.payload = [] then WSLogsHandler.loop rt filter writeOk fuel rest sent
      else if lineMatches rt filter f.payload = false then
        WSLogsHandler.loop rt filter writeOk fuel rest sent
      else if writeOk sent.length f.payload then
        WSLogsHandler.loop rt filter writeOk fuel rest (sent ++ [f.payload])
      else sent := by
  rw [WSLogsHandler.loop, readFull_encode]
  simp only [frameSize_encode]
  by_cases hp : f.payload = []
  · have hd : f.declared = 0 := by
      rw [hf, hp]
      rfl
    simp only [hd, hp, List.nil_append]
    rw [if_pos (by simp), if_pos trivial]
  · have hd : ¬ ((f.declared : Int) ≤ 0) := by
      have : f.payload.length ≠ 0 := fun h => hp (List.length_eq_zero.mp h)
      have := hf
      unfold Frame.wf at this
      omega
    rw [if_neg hd, if_neg hp]
    have hn : (f.declared : Int).toNat = f.payload.length := by
      rw [hf]
      simp
    rw [hn, readFull_append]
    simp only [lineMatches]
    by_cases hfl : filter = []
    · simp [hfl]
    · by_cases hc : stringsContains (rt.ToLower f.payload) (rt.ToLower filter) = true
      · simp [hfl, hc]
      · simp [hfl, hc]

/-- The decode loop stops at a truncated tail without writing anything. -/
theorem loop_truncatedTail (rt : Runtime) (filter : GoString)
    (writeOk : Nat → GoString → Bool) (tail : List Byte) (h : truncatedTail tail) (fuel : Nat)
    (sent : List GoString) : WSLogsHandler.loop rt filter writeOk fuel tail sent = sent := by
  cases fuel with
  | zero => rfl
  | succ fuel =>
    rw [WSLogsHandler.loop]
    by_cases h8 : tail.length < 8
    · simp [readFull, h8]
    · have hd : tail.length - 8 < headerDeclared (tail.take 8) := by
        rcases h with h | h
        · exact absurd h h8
        · exact h
      have hr : readFull 8 tail = some (tail.take 8, tail.drop 8) := by
        simp [readFull, h8]
      rw [hr]
      simp only [frameSize_eq_headerDeclared]
      rw [if_neg (by omega)]
      have hr2 : readFull ((headerDeclared (tail.take 8) : Int)).toNat (tail.drop 8) = none := by
        simp only [readFull, Int.toNat_ofNat, List.length_drop]
        rw [if_pos hd]
      rw [hr2]

/-- The decode loop on well-formed frames followed by a truncated tail: it writes the decoded
lines that pass the filter until a write fails. -/
theorem loop_frames_tail (rt : Runtime) (filter : GoString) (writeOk : Nat → GoString → Bool)
    (tail : List Byte) (htail : truncatedTail tail) (frames : List Frame) :
    ∀ (fuel : Nat) (sent : List GoString), (∀ f ∈ frames, f.wf) →
      (encodeFrames frames ++ tail).length < fuel →
      WSLogsHandler.loop rt filter writeOk fuel (encodeFrames frames ++ tail) sent =
        sent ++ pushUntilFailure writeOk sent.length
          ((decodedLines frames).filter (lineMatches rt filter)) := by
  induction frames with
  | nil =>
    intro fuel sent _ _
    simp only [encodeFrames, List.flatMap_nil, List.nil_append]
    rw [loop_truncatedTail rt filter writeOk tail htail]
    simp [decodedLines, pushUntilFailure]
  | cons f frames ih =>
    intro fuel sent hwf hfuel
    have hf : f.wf := hwf f (List.mem_cons_self _ _)
    have hrest : ∀ g ∈ frames, g.wf := fun g hg => hwf g (List.mem_cons_of_mem _ hg)
    have henc : encodeFrames (f :: frames) ++ tail = f.encode ++ (encodeFrames frames ++ tail) := by
      simp [encodeFrames]
    have hlen : (encodeFrames (f :: frames) ++ tail).length =
        8 + f.payload.length + (encodeFrames frames ++ tail).length := by
      rw [henc]
      simp [Frame.encode]
      omega
    cases fuel with
    | zero => omega
    | succ fuel =>
      rw [henc, loop_frame_step rt filter writeOk f hf]
      have hdec : decodedLines (f :: frames) =
          if f.payload = [] then decodedLines frames else f.payload :: decodedLines frames := by
        by_cases hp : f.payload = [] <;> simp [decodedLines, hp]
      rw [hdec]
      by_cases hp : f.payload = []
      · rw [if_pos hp, if_pos hp]
        exact ih fuel sent hrest (by omega)
      · rw [if_neg hp, if_neg hp]
        cases hm : lineMatches rt filter f.payload
        · rw [if_pos rfl, ih fuel sent hrest (by omega)]
          simp [List.filter_cons, hm]
        · rw [if_neg (by simp)]
          cases hw : writeOk sent.length f.payload
          · simp [List.filter_cons, hm, pushUntilFailure, hw]
          · rw [if_pos rfl, ih fuel (sent ++ [f.payload]) hrest (by omega)]
            simp [List.filter_cons, hm, pushUntilFailure, hw]

theorem truncatedTail_nil : truncatedTail [] := Or.inl (by decide)

/-- The session on well-formed frames followed by a truncated tail. -/
theorem session_frames_tail (rt : Runtime) (filter : GoString)
    (writeOk : Nat → GoString → Bool) (frames : List Frame) (hwf : ∀ f ∈ frames, f.wf)
    (tail : List Byte) (htail : truncatedTail tail) :
    WSLogsHandler.session rt filter writeOk (encodeFrames frames ++ tail) =
      pushUntilFailure writeOk 0 ((decodedLines frames).filter (lineMatches rt filter)) := by
  unfold WSLogsHandler.session
  rw [loop_frames_tail rt filter writeOk tail htail frames _ [] hwf (Nat.lt_succ_self _)]
  rfl

theorem pushUntilFailure_subset (writeOk : Nat → GoString → Bool) :
    ∀ (lines : List GoString) (k : Nat), ∀ line ∈ pushUntilFailure writeOk k lines,
      line ∈ lines := by
  intro lines
  induction lines with
  | nil => intro k line h; simp [pushUntilFailure] at h
  | cons l lines ih =>
    intro k line h
    simp only [pushUntilFailure] at h
    split_ifs at h
    · rcases List.mem_cons.mp h with h | h
      · exact h ▸ List.mem_cons_self _ _
      · exact List.mem_cons_of_mem _ (ih _ _ h)
    · simp at h

theorem header_eq_of_length (l : List Byte) (h : l.length = 8) :
    [l.getD 0 0, l.getD 1 0, l.getD 2 0, l.getD 3 0, l.getD 4 0, l.getD 5 0, l.getD 6 0,
      l.getD 7 0] = l := by
  rcases l with _ | ⟨a, _ | ⟨b, _ | ⟨c, _ | ⟨d, _ | ⟨e, _ | ⟨f, _ | ⟨g, _ | ⟨h8, _ | ⟨i, l⟩⟩⟩⟩⟩⟩⟩⟩⟩ <;>
    first
    | rfl
    | (simp only [List.length_cons, List.length_nil] at h; omega)

theorem ofBytes_encode (header payload : List Byte) (h : header.length = 8) :
    (Frame.ofBytes header payload).encode = header ++ payload := by
  have e := header_eq_of_length header h
  simp only [Frame.encode, Frame.ofBytes]
  rw [e]

/-- Every byte stream is a list of well-formed frames followed by a truncated tail. -/
theorem stream_decompose : ∀ (n : Nat) (bytes : List Byte), bytes.length ≤ n →
    ∃ (frames : List Frame) (tail : List Byte),
      (∀ f ∈ frames, f.wf) ∧ truncatedTail tail ∧ bytes = encodeFrames frames ++ tail := by
  intro n
  induction n with
  | zero =>
    intro bytes h
    exact ⟨[], bytes, by simp, Or.inl (by omega), by simp [encodeFrames]⟩
  | succ n ih =>
    intro bytes h
    by_cases ht : truncatedTail bytes
    · exact ⟨[], bytes, by simp, ht, by simp [encodeFrames]⟩
    · unfold truncatedTail at ht
      have h8 : 8 ≤ bytes.length := by omega
      have hd : headerDeclared (bytes.take 8) ≤ bytes.length - 8 := by omega
      obtain ⟨frames, tail, hwf, htail, heq⟩ :=
        ih ((bytes.drop 8).drop (headerDeclared (bytes.take 8)))
          (by simp only [List.length_drop]; omega)
      have hlen : (bytes.take 8).length = 8 := by
        rw [List.length_take]
        omega
      refine ⟨Frame.ofBytes (bytes.take 8)
        ((bytes.drop 8).take (headerDeclared (bytes.take 8))) :: frames, tail, ?_, htail, ?_⟩
      · intro f hf
        rcases List.mem_cons.mp hf with hf | hf
        · subst hf
          show headerDeclared (bytes.take 8) =
            ((bytes.drop 8).take (headerDeclared (bytes.take 8))).length
          rw [List.length_take, List.length_drop]
          omega
        · exact hwf f hf
      · have e1 := ofBytes_encode (bytes.take 8)
          ((bytes.drop 8).take (headerDeclared (bytes.take 8))) hlen
        have e2 : encodeFrames (Frame.ofBytes (bytes.take 8)
            ((bytes.drop 8).take (headerDeclared (bytes.take 8))) :: frames) =
            (Frame.ofBytes (bytes.take 8)
              ((bytes.drop 8).take (headerDeclared (bytes.take 8)))).encode ++
              encodeFrames frames := by
          simp [encodeFrames]
        rw [e2, e1, List.append_assoc, List.append_assoc, ← heq, List.take_append_drop,
          List.take_append_drop]

/-- C14. For every list of well-formed frames followed by a truncated tail (fewer than 8
header bytes, or a complete header followed by fewer payload bytes than it declares), every
filter and every behaviour of the pushes, the log session of `WSLogsHandler` pushes exactly
what it pushes for the complete frames alone and then ends (the session is a total function:
the loop is left by `break`, no error is raised); every pushed line is the whole payload of one
of the complete frames. -/
theorem C14_truncated_tail (rt : Runtime) (filter : GoString) (writeOk : Nat → GoString → Bool)
    (frames : List Frame) (hwf : ∀ f ∈ frames, f.wf) (tail : List Byte)
    (htail : truncatedTail tail) :
    WSLogsHandler.session rt filter writeOk (encodeFrames frames ++ tail) =
      WSLogsHandler.session rt filter writeOk (encodeFrames frames) ∧
    ∀ line ∈ WSLogsHandler.session rt filter writeOk (encodeFrames frames ++ tail),
      line ∈ frames.map Frame.payload := by
  have h1 := session_frames_tail rt filter writeOk frames hwf tail htail
  have h2 := session_frames_tail rt filter writeOk frames hwf [] truncatedTail_nil
  rw [List.append_nil] at h2
  refine ⟨h1.trans h2.symm, ?_⟩
  intro line hline
  rw [h1] at hline
  have h3 := pushUntilFailure_subset writeOk _ _ line hline
  exact (List.mem_filter.mp (List.mem_filter.mp h3).1).1

/-- C14, witness: the frame `"hello"` followed by a header that declares 5 bytes and only the
two bytes `"wo"`; the session pushes `"hello"` alone. -/
theorem C14_truncated_tail_witness :
    truncatedTail ([2, 0, 0, 0, 0, 0, 0, 5] ++ str "wo") ∧
    WSLogsHandler.session Runtime.ascii [] (fun _ _ => true)
      (encodeFrames [⟨1, 0, 0, 0, 0, 0, 0, 5, str "hello"⟩] ++
        ([2, 0, 0, 0, 0, 0, 0, 5] ++ str "wo")) = [str "hello"] :=
  ⟨by decide,
   (C14_truncated_tail Runtime.ascii [] (fun _ _ => true)
      [⟨1, 0, 0, 0, 0, 0, 0, 5, str "hello"⟩] (by decide)
      ([2, 0, 0, 0, 0, 0, 0, 5] ++ str "wo") (by decide)).1.trans (by decide)⟩

/-- C19. For every stream of well-formed frames (followed by a truncated tail, so that every
byte stream is covered, see `stream_decompose`) and every filter string, the lines a log
session of `WSLogsHandler` pushes are, in decode order, the decoded lines whose lower-cased
text contains the lower-cased filter (all decoded lines when the filter is empty), cut off at
the first push that fails: nothing is pushed after a failed push. -/
theorem C19_filtered_pushes (rt : Runtime) (filter : GoString)
    (writeOk : Nat → GoString → Bool) (frames : List Frame) (hwf : ∀ f ∈ frames, f.wf)
    (tail : List Byte) (htail : truncatedTail tail) :
    WSLogsHandler.session rt filter writeOk (encodeFrames frames ++ tail) =
      pushUntilFailure writeOk 0
        ((decodedLines frames).filter
          (fun line => decide (filter = []) ||
            stringsContains (rt.ToLower line) (rt.ToLower filter))) :=
  session_frames_tail rt filter writeOk frames hwf tail htail

/-- C19, witness: of the lines `"Error one"`, `"info"`, `"ERROR two"`, `"error three"` (with
an empty frame in between) and the filter `"error"`, a session whose third push fails pushes
`"Error one"` and `"ERROR two"`. -/
theorem C19_filtered_pushes_witness :
    WSLogsHandler.session Runtime.ascii (str "error") (fun k _ => decide (k < 2))
      (encodeFrames
        [⟨1, 0, 0, 0, 0, 0, 0, 9, str "Error one"⟩, ⟨1, 0, 0, 0, 0, 0, 0, 4, str "info"⟩,
         ⟨1, 0, 0, 0, 0, 0, 0, 0, []⟩, ⟨2, 0, 0, 0, 0, 0, 0, 9, str "ERROR two"⟩,
         ⟨1, 0, 0, 0, 0, 0, 0, 11, str "error three"⟩] ++ []) =
      [str "Error one", str "ERROR two"] :=
  (C19_filtered_pushes Runtime.ascii (str "error") (fun k _ => decide (k < 2))
    [⟨1, 0, 0, 0, 0, 0, 0, 9, str "Error one"⟩, ⟨1, 0, 0, 0, 0, 0, 0, 4, str "info"⟩,
     ⟨1, 0, 0, 0, 0, 0, 0, 0, []⟩, ⟨2, 0, 0, 0, 0, 0, 0, 9, str "ERROR two"⟩,
     ⟨1, 0, 0, 0, 0, 0, 0, 11, str "error three"⟩] (by decide) [] (by decide)).trans
    (by decide)

/-! ## The order of floats and of strings -/

namespace F64

theorem scaled_cast (s : Bool) (m : Nat) (e b : Int) (h : b ≤ e) :
    ((scaled s m e b : Int) : ℚ) * (2 : ℚ) ^ b = toRat s m e := by
  have h2 : ((2 : ℚ) ^ (e - b).toNat) * (2 : ℚ) ^ b = (2 : ℚ) ^ e := by
    rw [← zpow_natCast, Int.toNat_of_nonneg (by omega), ← zpow_add₀ (by norm_num)]
    congr 1
    omega
  unfold scaled toRat
  cases s
  · simp only [Bool.false_eq_true, if_false, Nat.cast_mul, Nat.cast_pow, Nat.cast_ofNat,
      Int.cast_mul, Int.cast_natCast, Int.cast_pow, Int.cast_ofNat, one_mul]
    rw [mul_assoc, h2]
  · simp only [if_true, Nat.cast_mul, Nat.cast_pow, Nat.cast_ofNat, Int.cast_neg,
      Int.cast_mul, Int.cast_natCast, Int.cast_pow, Int.cast_ofNat]
    rw [neg_mul, mul_assoc, h2]
    ring

theorem scaled_lt_iff_toRat (s : Bool) (m : Nat) (e : Int) (t : Bool) (k : Nat) (f : Int) :
    scaled s m e (min e f) < scaled t k f (min e f) ↔ toRat s m e < toRat t k f := by
  rw [← scaled_cast s m e (min e f) (min_le_left _ _),
    ← scaled_cast t k f (min e f) (min_le_right _ _)]
  have hpos : (0 : ℚ) < (2 : ℚ) ^ (min e f) := zpow_pos (by norm_num) _
  rw [mul_lt_mul_right hpos, Int.cast_lt]

theorem scaled_le_iff_toRat (s : Bool) (m : Nat) (e : Int) (t : Bool) (k : Nat) (f : Int) :
    scaled s m e (min e f) ≤ scaled t k f (min e f) ↔ toRat s m e ≤ toRat t k f := by
  rw [← scaled_cast s m e (min e f) (min_le_left _ _),
    ← scaled_cast t k f (min e f) (min_le_right _ _)]
  have hpos : (0 : ℚ) < (2 : ℚ) ^ (min e f) := zpow_pos (by norm_num) _
  rw [mul_le_mul_right hpos, Int.cast_le]

/-- The comparison `<` of floats that are not NaN is the order of their values. -/
theorem lt_iff_toExt (a b : F64) (ha : a ≠ nan) (hb : b ≠ nan) :
    lt a b = true ↔ toExt a < toExt b := by
  cases a with
  | nan => exact absurd rfl ha
  | inf s =>
    cases b with
    | nan => exact absurd rfl hb
    | inf t => cases s <;> cases t <;> simp [lt, toExt]
    | fin t k f => cases s <;> simp [lt, toExt]
  | fin s m e =>
    cases b with
    | nan => exact absurd rfl hb
    | inf t =>
      cases t
      · simp only [lt, toExt, Bool.not_false, true_iff]
        exact WithBot.coe_lt_coe.mpr (WithTop.coe_lt_top _)
      · simp [lt, toExt]
    | fin t k f =>
      simp only [lt, decide_eq_true_eq, toExt, WithBot.coe_lt_coe, WithTop.coe_lt_coe]
      exact scaled_lt_iff_toRat s m e t k f

/-- The comparison `<=` of floats that are not NaN is the order of their values. -/
theorem le_iff_toExt (a b : F64) (ha : a ≠ nan) (hb : b ≠ nan) :
    le a b = true ↔ toExt a ≤ toExt b := by
  cases a with
  | nan => exact absurd rfl ha
  | inf s =>
    cases b with
    | nan => exact absurd rfl hb
    | inf t => cases s <;> cases t <;> simp [le, toExt]
    | fin t k f => cases s <;> simp [le, toExt]
  | fin s m e =>
    cases b with
    | nan => exact absurd rfl hb
    | inf t => cases t <;> simp [le, toExt]
    | fin t k f =>
      simp only [le, decide_eq_true_eq, toExt, WithBot.coe_le_coe, WithTop.coe_le_coe]
      exact scaled_le_iff_toRat s m e t k f

theorem lt_self (a : F64) : lt a a = false := gt_self a

theorem lt_transitive (a b c : F64) (ha : a ≠ nan) (hb : b ≠ nan) (hc : c ≠ nan)
    (h1 : lt a b = true) (h2 : lt b c = true) : lt a c = true :=
  (lt_iff_toExt a c ha hc).mpr
    (lt_trans ((lt_iff_toExt a b ha hb).mp h1) ((lt_iff_toExt b c hb hc).mp h2))

theorem lt_eq_false_iff (a b : F64) (ha : a ≠ nan) (hb : b ≠ nan) :
    lt a b = false ↔ le b a = true := by
  rw [le_iff_toExt b a hb ha, ← not_lt, ← lt_iff_toExt a b ha hb]
  simp

theorem lt_negTransitive (a b c : F64) (ha : a ≠ nan) (hb : b ≠ nan) (hc : c ≠ nan)
    (h1 : lt a b = false) (h2 : lt b c = false) : lt a c = false := by
  rw [lt_eq_false_iff _ _ ha hb] at h1
  rw [lt_eq_false_iff _ _ hb hc] at h2
  rw [lt_eq_false_iff _ _ ha hc]
  rw [le_iff_toExt _ _ hb ha] at h1
  rw [le_iff_toExt _ _ hc hb] at h2
  rw [le_iff_toExt _ _ hc ha]
  exact le_trans h2 h1

end F64

theorem stringLt_self : ∀ a : GoString, stringLt a a = false
  | [] => rfl
  | x :: as => by
    simp only [stringLt, lt_irrefl, if_false]
    exact stringLt_self as

theorem stringLt_transitive : ∀ (a b c : GoString),
    stringLt a b = true → stringLt b c = true → stringLt a c = true
  | a, [], _, h, _ => by
    cases a <;> simp [stringLt] at h
  | _, _ :: _, [], _, h => by
    simp [stringLt] at h
  | [], _ :: _, _ :: _, _, _ => rfl
  | x :: as, y :: bs, z :: cs, h1, h2 => by
    simp only [stringLt] at h1 h2 ⊢
    rcases lt_trichotomy x y with hxy | hxy | hxy
    · rcases lt_trichotomy y z with hyz | hyz | hyz
      · rw [if_pos (lt_trans hxy hyz)]
      · subst hyz
        rw [if_pos hxy]
      · rw [if_neg (lt_asymm hyz), if_pos hyz] at h2
        cases h2
    · subst hxy
      rcases lt_trichotomy x z with hxz | hxz | hxz
      · rw [if_pos hxz]
      · subst hxz
        rw [if_neg (lt_irrefl _), if_neg (lt_irrefl _)] at h1 h2 ⊢
        exact stringLt_transitive as bs cs h1 h2
      · rw [if_neg (lt_asymm hxz), if_pos hxz] at h2
        cases h2
    · rw [if_neg (lt_asymm hxy), if_pos hxy] at h1
      cases h1

/-- On strings, `a < b` fails exactly when `b ≤ a`. -/
theorem stringLt_eq_false_iff : ∀ (a b : GoString), stringLt a b = false ↔ stringLe b a = true
  | [], [] => by simp [stringLt, stringLe]
  | _ :: _, [] => by simp [stringLt, stringLe]
  | [], _ :: _ => by simp [stringLt, stringLe]
  | x :: as, y :: bs => by
    simp only [stringLt, stringLe]
    rcases lt_trichotomy x y with hxy | hxy | hxy
    · rw [if_pos hxy]
      simp [lt_asymm hxy, ne_of_gt hxy]
    · subst hxy
      rw [if_neg (lt_irrefl _), if_neg (lt_irrefl _)]
      simp [stringLt_eq_false_iff as bs]
    · rw [if_neg (lt_asymm hxy), if_pos hxy]
      simp [hxy]

theorem stringLe_transitive : ∀ (a b c : GoString),
    stringLe a b = true → stringLe b c = true → stringLe a c = true
  | [], _, _, _, _ => by simp [stringLe]
  | _ :: _, [], _, h, _ => by simp [stringLe] at h
  | _ :: _, _ :: _, [], _, h => by simp [stringLe] at h
  | x :: as, y :: bs, z :: cs, h1, h2 => by
    simp only [stringLe, Bool.or_eq_true, decide_eq_true_eq, Bool.and_eq_true] at h1 h2 ⊢
    rcases h1 with h1 | ⟨h1, h1r⟩
    · rcases h2 with h2 | ⟨h2, _⟩
      · exact Or.inl (lt_trans h1 h2)
      · subst h2
        exact Or.inl h1
    · subst h1
      rcases h2 with h2 | ⟨h2, h2r⟩
      · exact Or.inl h2
      · subst h2
        exact Or.inr ⟨rfl, stringLe_transitive as bs cs h1r h2r⟩

theorem stringLt_negTransitive (a b c : GoString) (h1 : stringLt a b = false)
    (h2 : stringLt b c = false) : stringLt a c = false := by
  rw [stringLt_eq_false_iff] at h1 h2 ⊢
  exact stringLe_transitive c b a h2 h1

/-- On strings, `a ≤ b` and `b ≤ a` hold together exactly when the strings are equal. -/
theorem stringLe_antisymm : ∀ (a b : GoString),
    stringLe a b = true → stringLe b a = true → a = b
  | [], [], _, _ => rfl
  | [], _ :: _, _, h => by simp [stringLe] at h
  | _ :: _, [], h, _ => by simp [stringLe] at h
  | x :: as, y :: bs, h1, h2 => by
    simp only [stringLe, Bool.or_eq_true, decide_eq_true_eq, Bool.and_eq_true] at h1 h2
    rcases h1 with h1 | ⟨h1, h1r⟩
    · rcases h2 with h2 | ⟨h2, _⟩
      · exact absurd h2 (lt_asymm h1)
      · subst h2
        exact absurd h1 (lt_irrefl _)
    · subst h1
      rcases h2 with h2 | ⟨_, h2r⟩
      · exact absurd h2 (lt_irrefl _)
      · rw [stringLe_antisymm as bs h1r h2r]

theorem stringLe_self (a : GoString) : stringLe a a = true :=
  (stringLt_eq_false_iff a a).mp (stringLt_self a)

/-! ## C15, C16: the sort of the listing -/

/-- The `less` function of the handler compares the keys chosen by `sort_by`, the other way
round when `order` is `"desc"`. -/
theorem less_eq_keyLt (sortBy order : GoString) (a b : ContainerInfo) :
    ListContainersHandler.less sortBy order a b =
      if order = str "desc" then (SortKey.ofParam sortBy).lt b a
      else (SortKey.ofParam sortBy).lt a b := by
  unfold ListContainersHandler.less SortKey.ofParam
  split_ifs <;> rfl

theorem keyLt_self (k : SortKey) (a : ContainerInfo) : k.lt a a = false := by
  cases k
  · exact F64.lt_self _
  · exact F64.lt_self _
  · exact stringLt_self _

theorem keyLt_transitive (k : SortKey) (a b c : ContainerInfo) (ha : a.wf) (hb : b.wf)
    (hc : c.wf) (h1 : k.lt a b = true) (h2 : k.lt b c = true) : k.lt a c = true := by
  cases k
  · exact F64.lt_transitive _ _ _ ha.1 hb.1 hc.1 h1 h2
  · exact F64.lt_transitive _ _ _ ha.2 hb.2 hc.2 h1 h2
  · exact stringLt_transitive _ _ _ h1 h2

theorem keyLt_negTransitive (k : SortKey) (a b c : ContainerInfo) (ha : a.wf) (hb : b.wf)
    (hc : c.wf) (h1 : k.lt a b = false) (h2 : k.lt b c = false) : k.lt a c = false := by
  cases k
  · exact F64.lt_negTransitive _ _ _ ha.1 hb.1 hc.1 h1 h2
  · exact F64.lt_negTransitive _ _ _ ha.2 hb.2 hc.2 h1 h2
  · exact stringLt_negTransitive _ _ _ h1 h2

/-- The key of `a` is not below the key of `b` exactly when the key of `b` is at most the key
of `a`. -/
theorem keyLt_eq_false_iff (k : SortKey) (a b : ContainerInfo) (ha : a.wf) (hb : b.wf) :
    k.lt a b = false ↔ k.le b a = true := by
  cases k
  · exact F64.lt_eq_false_iff _ _ ha.1 hb.1
  · exact F64.lt_eq_false_iff _ _ ha.2 hb.2
  · exact stringLt_eq_false_iff _ _

/-- The `less` function of the handler describes a transitive ordering of entries whose
figures are numbers. -/
theorem less_transitiveOrdering (sortBy order : GoString) (xs : List ContainerInfo)
    (hwf : ∀ c ∈ xs, c.wf) :
    transitiveOrdering (ListContainersHandler.less sortBy order) xs := by
  refine ⟨?_, ?_, ?_⟩
  · intro a _
    rw [less_eq_keyLt]
    split_ifs <;> exact keyLt_self _ _
  · intro a ha b hb c hc
    simp only [less_eq_keyLt]
    split_ifs
    · intro h1 h2
      exact keyLt_transitive _ c b a (hwf c hc) (hwf b hb) (hwf a ha) h2 h1
    · exact keyLt_transitive _ a b c (hwf a ha) (hwf b hb) (hwf c hc)
  · intro a ha b hb c hc
    simp only [less_eq_keyLt]
    split_ifs
    · intro h1 h2
      exact keyLt_negTransitive _ c b a (hwf c hc) (hwf b hb) (hwf a ha) h2 h1
    · exact keyLt_negTransitive _ a b c (hwf a ha) (hwf b hb) (hwf c hc)

/-- For the `less` function of the handler, "`b` is not below `a`" says that `a` may stand
before `b` in the order of the chosen key and direction. -/
theorem less_eq_false_iff (sortBy order : GoString) (a b : ContainerInfo) (ha : a.wf)
    (hb : b.wf) :
    ListContainersHandler.less sortBy order b a = false ↔
      keyOrdered (SortKey.ofParam sortBy) (decide (order = str "desc")) a b := by
  rw [less_eq_keyLt]
  unfold keyOrdered
  by_cases hd : order = str "desc"
  · rw [if_pos hd, if_pos (by simpa using hd)]
    exact keyLt_eq_false_iff _ a b ha hb
  · rw [if_neg hd, if_neg (by simpa using hd)]
    exact keyLt_eq_false_iff _ b a hb ha

theorem mem_insertByLess {α : Type} (less : α → α → Bool) (x : α) (l : List α) (a : α) :
    a ∈ insertByLess less x l ↔ a = x ∨ a ∈ l := by
  rw [(insertByLess_perm less x l).mem_iff, List.mem_cons]

/-- Insertion into a sorted list gives a sorted list, for a `less` that is irreflexive and
transitive on the elements at hand. -/
theorem insertByLess_pairwise {α : Type} (less : α → α → Bool) (S : List α)
    (hirr : ∀ a ∈ S, less a a = false)
    (htr : ∀ a ∈ S, ∀ b ∈ S, ∀ c ∈ S, less a b = true → less b c = true → less a c = true)
    (x : α) (hx : x ∈ S) :
    ∀ l : List α, (∀ a ∈ l, a ∈ S) → l.Pairwise (fun a b => less b a = false) →
      (insertByLess less x l).Pairwise (fun a b => less b a = false) := by
  intro l
  induction l with
  | nil =>
    intro _ _
    simp [insertByLess]
  | cons y ys ih =>
    intro hS hp
    have hy : y ∈ S := hS y (List.mem_cons_self _ _)
    have hys : ∀ a ∈ ys, a ∈ S := fun a ha => hS a (List.mem_cons_of_mem _ ha)
    rw [List.pairwise_cons] at hp
    unfold insertByLess
    by_cases hlt : less x y = true
    · rw [if_pos hlt, List.pairwise_cons]
      refine ⟨?_, List.pairwise_cons.mpr hp⟩
      intro z hz
      cases hzx : less z x with
      | false => rfl
      | true =>
        exfalso
        have hzS : z ∈ S := hS z hz
        have hzy := htr z hzS x hx y hy hzx hlt
        rcases List.mem_cons.mp hz with hz | hz
        · subst hz
          rw [hirr z hzS] at hzy
          cases hzy
        · rw [hp.1 z hz] at hzy
          cases hzy
    · rw [if_neg hlt, List.pairwise_cons]
      refine ⟨?_, ih hys hp.2⟩
      intro z hz
      rcases (mem_insertByLess less x ys z).mp hz with hz | hz
      · subst hz
        simpa using hlt
      · exact hp.1 z hz

theorem foldl_insertByLess_pairwise {α : Type} (less : α → α → Bool) (S : List α)
    (hirr : ∀ a ∈ S, less a a = false)
    (htr : ∀ a ∈ S, ∀ b ∈ S, ∀ c ∈ S, less a b = true → less b c = true → less a c = true) :
    ∀ (xs acc : List α), (∀ a ∈ xs, a ∈ S) → (∀ a ∈ acc, a ∈ S) →
      acc.Pairwise (fun a b => less b a = false) →
      (xs.foldl (fun acc x => insertByLess less x acc) acc).Pairwise
        (fun a b => less b a = false) := by
  intro xs
  induction xs with
  | nil =>
    intro acc _ _ hp
    exact hp
  | cons x xs ih =>
    intro acc hxs hacc hp
    rw [List.foldl_cons]
    have hx : x ∈ S := hxs x (List.mem_cons_self _ _)
    refine ih _ (fun a ha => hxs a (List.mem_cons_of_mem _ ha)) ?_
      (insertByLess_pairwise less S hirr htr x hx acc hacc hp)
    intro a ha
    rcases (mem_insertByLess less x acc a).mp ha with ha | ha
    · exact ha ▸ hx
    · exact hacc a ha

/-- The insertion sort of `Runtime.ascii` behaves as `sort.Slice` is documented to. -/
theorem ascii_sortsSlices : Runtime.ascii.sortsSlices := by
  intro less xs h
  refine ⟨ascii_sortSlice_perm less xs, ?_⟩
  exact foldl_insertByLess_pairwise less xs h.1 h.2.1 xs [] (fun _ ha => ha)
    (fun _ ha => by cases ha) List.Pairwise.nil

/-- The sort of `Runtime.tieReversing` behaves as `sort.Slice` is documented to. -/
theorem tieReversing_sortsSlices : Runtime.tieReversing.sortsSlices := by
  intro less xs h
  refine ⟨?_, ?_⟩
  · have h1 : (Runtime.tieReversing.sortSlice less xs).Perm xs.reverse := by
      have := foldl_insertByLess_perm less xs.reverse []
      simpa [Runtime.tieReversing] using this
    exact h1.trans (List.reverse_perm xs)
  · exact foldl_insertByLess_pairwise less xs h.1 h.2.1 xs.reverse []
      (fun _ ha => List.mem_reverse.mp ha) (fun _ ha => by cases ha) List.Pairwise.nil

/-- The listing handler sorts the filtered entries (first those of the local containers, then
those of the agent snapshots) with `sort.Slice` and the `less` function of the query, and then
paginates. -/
theorem ListContainersHandler_eq_sorted (rt : Runtime) (containers : List DockerContainer)
    (q : Query) (s : State) (r1 r2 : List ContainerInfo)
    (h1 : ListContainersHandler.masterEntries rt (stringsSplit q.host_id 44) (rt.ToLower q.name)
      (rt.ToLower q.image) (rt.ToLower q.label) containers = some r1)
    (h2 : ListContainersHandler.agentEntries rt (stringsSplit q.host_id 44) (rt.ToLower q.name)
      (rt.ToLower q.image) (rt.ToLower q.label) (rt.mapRange s.agentMetrics) = some r2) :
    ListContainersHandler rt true (some containers) q s =
      match ListContainersHandler.paginate
        (rt.sortSlice (ListContainersHandler.less q.sort_by q.order) (r1 ++ r2))
        q.offset q.limit with
      | none => Reply.panic
      | some page => Reply.ok page := by
  simp only [ListContainersHandler, h1, h2, Bool.not_true, Bool.false_eq_true, if_false]

/-- The entries of the local containers carry the figure 0. -/
theorem masterEntries_wf (rt : Runtime) (hostIDs : List GoString) (name image label : GoString) :
    ∀ (containers : List DockerContainer) (r : List ContainerInfo),
      ListContainersHandler.masterEntries rt hostIDs name image label containers = some r →
      ∀ c ∈ r, c.wf := by
  intro containers
  induction containers with
  | nil =>
    intro r h c hc
    simp only [ListContainersHandler.masterEntries, Option.some.injEq] at h
    subst h
    cases hc
  | cons d rest ih =>
    intro r h c hc
    cases hn : d.Names with
    | nil => simp [ListContainersHandler.masterEntries, hn] at h
    | cons n0 ns =>
      cases hs : goSlice d.ID 0 12 with
      | none => simp [ListContainersHandler.masterEntries, hn, hs] at h
      | some id =>
        cases hr : ListContainersHandler.masterEntries rt hostIDs name image label rest with
        | none =>
          simp only [ListContainersHandler.masterEntries, hn, hs, hr] at h
          split at h <;> cases h
        | some results =>
          simp only [ListContainersHandler.masterEntries, hn, hs, hr] at h
          split at h
          · cases h
          · simp only [Option.some.injEq] at h
            subst h
            split_ifs at hc
            · rcases List.mem_cons.mp hc with hc | hc
              · subst hc
                refine ⟨?_, ?_⟩ <;> intro h <;> cases h
              · exact ih results hr c hc
            · exact ih results hr c hc

/-- The entries of a snapshot carry the figures of its samples. -/
theorem hostEntries_wf (rt : Runtime) (hostIDs : List GoString) (name image label : GoString)
    (hostID : GoString) :
    ∀ (containers : List ContainerMetrics) (r : List ContainerInfo),
      (∀ m ∈ containers, m.CPUPercent ≠ F64.nan ∧ m.MemoryMB ≠ F64.nan) →
      ListContainersHandler.hostEntries rt hostIDs name image label hostID containers =
        some r →
      ∀ c ∈ r, c.wf := by
  intro containers
  induction containers with
  | nil =>
    intro r _ h c hc
    simp only [ListContainersHandler.hostEntries, Option.some.injEq] at h
    subst h
    cases hc
  | cons d rest ih =>
    intro r hm h c hc
    cases hr : ListContainersHandler.hostEntries rt hostIDs name image label hostID rest with
    | none =>
      simp only [ListContainersHandler.hostEntries, hr] at h
      split at h <;> cases h
    | some results =>
      have hrest := ih results (fun m hmem => hm m (List.mem_cons_of_mem _ hmem)) hr
      simp only [ListContainersHandler.hostEntries, hr] at h
      split at h
      · cases h
      · simp only [Option.some.injEq] at h
        subst h
        split_ifs at hc
        · rcases List.mem_cons.mp hc with hc | hc
          · subst hc
            exact hm d (List.mem_cons_self _ _)
          · exact hrest c hc
        · exact hrest c hc

theorem agentEntries_wf (rt : Runtime) (hostIDs : List GoString) (name image label : GoString) :
    ∀ (m : List (GoString × List ContainerMetrics)) (r : List ContainerInfo),
      (∀ kv ∈ m, ∀ x ∈ kv.2, x.CPUPercent ≠ F64.nan ∧ x.MemoryMB ≠ F64.nan) →
      ListContainersHandler.agentEntries rt hostIDs name image label m = some r →
      ∀ c ∈ r, c.wf := by
  intro m
  induction m with
  | nil =>
    intro r _ h c hc
    simp only [ListContainersHandler.agentEntries, Option.some.injEq] at h
    subst h
    cases hc
  | cons kv rest ih =>
    intro r hm h c hc
    obtain ⟨hostID, containers⟩ := kv
    cases hh : ListContainersHandler.hostEntries rt hostIDs name image label hostID
        containers with
    | none => simp [ListContainersHandler.agentEntries, hh] at h
    | some here =>
      cases hr : ListContainersHandler.agentEntries rt hostIDs name image label rest with
      | none => simp [ListContainersHandler.agentEntries, hh, hr] at h
      | some results =>
        simp only [ListContainersHandler.agentEntries, hh, hr, Option.some.injEq] at h
        subst h
        rcases List.mem_append.mp hc with hc | hc
        · exact hostEntries_wf rt hostIDs name image label hostID containers here
            (hm (hostID, containers) (List.mem_cons_self _ _)) hh c hc
        · exact ih results (fun kv hkv => hm kv (List.mem_cons_of_mem _ hkv)) hr c hc

/-- C15. For every list of filtered entries (whose figures are numbers, as those of the
handler are, see `masterEntries_wf` and `agentEntries_wf`) and every `sort_by` and `order`
parameter, the list that `ListContainersHandler` hands to the pagination, the result of
`sort.Slice` with the `less` function of the query, is a permutation of the filtered entries
in which each adjacent pair is ordered by the chosen key (`cpu`, `memory`, or the name) in the
chosen direction; a `sort_by` other than `"cpu"` and `"memory"` sorts by name and an `order`
other than `"desc"` sorts ascending. `sort.Slice` is taken to behave as documented
(`Runtime.sortsSlices`). -/
theorem C15_sorted_listing (rt : Runtime) (hsort : rt.sortsSlices)
    (entries : List ContainerInfo) (hwf : ∀ c ∈ entries, c.wf) (sortBy order : GoString) :
    (rt.sortSlice (ListContainersHandler.less sortBy order) entries).Perm entries ∧
    (rt.sortSlice (ListContainersHandler.less sortBy order) entries).Chain'
      (keyOrdered (SortKey.ofParam sortBy) (decide (order = str "desc"))) ∧
    (sortBy ≠ str "cpu" → sortBy ≠ str "memory" →
      ListContainersHandler.less sortBy order = ListContainersHandler.less (str "name") order ∧
      SortKey.ofParam sortBy = SortKey.name) ∧
    (order ≠ str "desc" →
      ListContainersHandler.less sortBy order = ListContainersHandler.less sortBy (str "asc")) := by
  obtain ⟨hperm, hpair⟩ := hsort _ entries (less_transitiveOrdering sortBy order entries hwf)
  refine ⟨hperm, ?_, ?_, ?_⟩
  · refine List.Pairwise.chain' (List.Pairwise.imp_of_mem ?_ hpair)
    intro a b ha hb h
    exact (less_eq_false_iff sortBy order a b (hwf a (hperm.mem_iff.mp ha))
      (hwf b (hperm.mem_iff.mp hb))).mp h
  · intro h1 h2
    have n1 : str "name" ≠ str "cpu" := by decide
    have n2 : str "name" ≠ str "memory" := by decide
    refine ⟨?_, ?_⟩
    · funext a b
      simp only [ListContainersHandler.less, h1, h2, n1, n2, if_false]
    · simp only [SortKey.ofParam, h1, h2, if_false]
  · intro h1
    have n1 : str "asc" ≠ str "desc" := by decide
    funext a b
    simp only [ListContainersHandler.less, h1, n1, if_false]

set_option maxRecDepth 8000 in
/-- C15, witness: three entries with CPU figures 30, 10 and 20, sorted by `cpu` in descending
order. -/
theorem C15_sorted_listing_witness :
    Runtime.ascii.sortsSlices ∧
    (Runtime.ascii.sortSlice (ListContainersHandler.less (str "cpu") (str "desc"))
      [ContainerMetrics.toInfo (str "h1")
        (ContainerMetrics.sample (str "c1") (str "web") (str "nginx") (F64.ofNat 30) F64.zero),
       ContainerMetrics.toInfo (str "h1")
        (ContainerMetrics.sample (str "c2") (str "db") (str "redis") (F64.ofNat 10) F64.zero),
       ContainerMetrics.toInfo (str "h1")
        (ContainerMetrics.sample (str "c3") (str "api") (str "go") (F64.ofNat 20) F64.zero)]).Chain'
      (keyOrdered (SortKey.ofParam (str "cpu")) (decide (str "desc" = str "desc"))) :=
  ⟨ascii_sortsSlices,
   (C15_sorted_listing Runtime.ascii ascii_sortsSlices
      [ContainerMetrics.toInfo (str "h1")
        (ContainerMetrics.sample (str "c1") (str "web") (str "nginx") (F64.ofNat 30) F64.zero),
       ContainerMetrics.toInfo (str "h1")
        (ContainerMetrics.sample (str "c2") (str "db") (str "redis") (F64.ofNat 10) F64.zero),
       ContainerMetrics.toInfo (str "h1")
        (ContainerMetrics.sample (str "c3") (str "api") (str "go") (F64.ofNat 20) F64.zero)]
      (by decide) (str "cpu") (str "desc")).2.1⟩

/-- Two entries have equal sort keys exactly when the `less` function of the handler puts
neither below the other. -/
theorem keyTied_iff (sortBy order : GoString) (a b : ContainerInfo) (ha : a.wf) (hb : b.wf) :
    keyTied (SortKey.ofParam sortBy) a b ↔
      ListContainersHandler.less sortBy order a b = false ∧
      ListContainersHandler.less sortBy order b a = false := by
  rw [less_eq_false_iff sortBy order a b ha hb, less_eq_false_iff sortBy order b a hb ha]
  unfold keyTied keyOrdered
  by_cases hd : order = str "desc"
  · rw [if_pos (by simpa using hd), if_pos (by simpa using hd)]
  · rw [if_neg (by simpa using hd), if_neg (by simpa using hd)]
    exact And.comm

set_option maxRecDepth 100000 in
/-- C16, counterexample. Go documents that `sort.Slice` is not guaranteed to be stable. With a
`sort.Slice` that sorts as documented (`Runtime.sortsSlices`) and visits the slice from its last
element, two containers of host `h1` with the same name `"web"`, collected in the order `c1`,
`c2`, are listed in the order `c2`, `c1`. With the `sort.Slice` of Go 1.19 and later
(`GoSort.pdqsort`), thirteen containers collected in the order 0, 1, ..., 12, of which 0 and 1
are named `"web"` and the others `"api"`, are sorted by name into the order 6, 2, 3, 4, 5, 7,
..., 12, 1, 0: the pivot swap moves container 0 behind container 1. -/
theorem C16_counterexample :
    Runtime.tieReversing.sortsSlices ∧
    ListContainersHandler.agentEntries Runtime.tieReversing [[]] [] [] []
      [(str "h1", [ContainerMetrics.sample (str "c1") (str "web") (str "nginx") F64.zero F64.zero,
        ContainerMetrics.sample (str "c2") (str "web") (str "nginx") F64.zero F64.zero])] =
      some [ContainerMetrics.toInfo (str "h1")
          (ContainerMetrics.sample (str "c1") (str "web") (str "nginx") F64.zero F64.zero),
        ContainerMetrics.toInfo (str "h1")
          (ContainerMetrics.sample (str "c2") (str "web") (str "nginx") F64.zero F64.zero)] ∧
    ListContainersHandler Runtime.tieReversing true (some []) (Query.unfiltered [] [])
      { alertRules := [], alertEvents := [], alertDefinitions := [],
        agentMetrics := [(str "h1",
          [ContainerMetrics.sample (str "c1") (str "web") (str "nginx") F64.zero F64.zero,
           ContainerMetrics.sample (str "c2") (str "web") (str "nginx") F64.zero F64.zero])] } =
      Reply.ok [ContainerMetrics.toInfo (str "h1")
          (ContainerMetrics.sample (str "c2") (str "web") (str "nginx") F64.zero F64.zero),
        ContainerMetrics.toInfo (str "h1")
          (ContainerMetrics.sample (str "c1") (str "web") (str "nginx") F64.zero F64.zero)] ∧
    GoSort.pdqsort (ListContainersHandler.less [] []) (tiedListing (List.range 13)) =
      some (tiedListing [6, 2, 3, 4, 5, 7, 8, 9, 10, 11, 12, 1, 0]) :=
  ⟨tieReversing_sortsSlices, by decide, by decide, by decide⟩

/-- C16 (amended). For every list of filtered entries (whose figures are numbers) and every
`sort_by` and `order` parameter, entries with equal sort keys stand next to one another in the
sorted list of `ListContainersHandler`: whenever `a` stands before `b` and their keys are
equal, every entry between them has that key too. The order among them is the one `sort.Slice`
leaves; `sort.Slice` is taken to behave as documented (`Runtime.sortsSlices`), which does not
fix it. -/
theorem C16_ties_contiguous (rt : Runtime) (hsort : rt.sortsSlices)
    (entries : List ContainerInfo) (hwf : ∀ c ∈ entries, c.wf) (sortBy order : GoString)
    (l1 l2 l3 : List ContainerInfo) (a b : ContainerInfo)
    (hout : rt.sortSlice (ListContainersHandler.less sortBy order) entries =
      l1 ++ a :: (l2 ++ b :: l3))
    (htie : keyTied (SortKey.ofParam sortBy) a b) :
    ∀ c ∈ l2, keyTied (SortKey.ofParam sortBy) a c ∧ keyTied (SortKey.ofParam sortBy) c b := by
  have hord := less_transitiveOrdering sortBy order entries hwf
  obtain ⟨hperm, hpair⟩ := hsort _ entries hord
  rw [hout] at hperm hpair
  have hmem : ∀ x ∈ l1 ++ a :: (l2 ++ b :: l3), x ∈ entries := fun x hx => hperm.mem_iff.mp hx
  have ha : a ∈ entries := hmem a (by simp)
  have hb : b ∈ entries := hmem b (by simp)
  have hp2 := (List.pairwise_append.mp hpair).2.1
  rw [List.pairwise_cons] at hp2
  have hp3 := List.pairwise_append.mp hp2.2
  have hab := (keyTied_iff sortBy order a b (hwf a ha) (hwf b hb)).mp htie
  intro c hc
  have hcm : c ∈ entries := hmem c (by simp [hc])
  have hca : ListContainersHandler.less sortBy order c a = false :=
    hp2.1 c (List.mem_append_left _ hc)
  have hbc : ListContainersHandler.less sortBy order b c = false :=
    hp3.2.2 c hc b (List.mem_cons_self _ _)
  have hac : ListContainersHandler.less sortBy order a c = false :=
    hord.2.2 a ha b hb c hcm hab.1 hbc
  have hcb : ListContainersHandler.less sortBy order c b = false :=
    hord.2.2 c hcm a ha b hb hca hab.1
  exact ⟨(keyTied_iff sortBy order a c (hwf a ha) (hwf c hcm)).mpr ⟨hac, hca⟩,
    (keyTied_iff sortBy order c b (hwf c hcm) (hwf b hb)).mpr ⟨hcb, hbc⟩⟩

/-- C16 (amended), witness: of four containers named `"web"`, `"api"`, `"web"`, `"web"`, the
three named `"web"` are listed one after the other. -/
theorem C16_ties_contiguous_witness :
    keyTied (SortKey.ofParam [])
      (ContainerMetrics.toInfo (str "h1")
        (ContainerMetrics.sample (str "c1") (str "web") (str "nginx") F64.zero F64.zero))
      (ContainerMetrics.toInfo (str "h1")
        (ContainerMetrics.sample (str "c3") (str "web") (str "nginx") F64.zero F64.zero)) ∧
    keyTied (SortKey.ofParam [])
      (ContainerMetrics.toInfo (str "h1")
        (ContainerMetrics.sample (str "c3") (str "web") (str "nginx") F64.zero F64.zero))
      (ContainerMetrics.toInfo (str "h1")
        (ContainerMetrics.sample (str "c4") (str "web") (str "nginx") F64.zero F64.zero)) :=
  C16_ties_contiguous Runtime.ascii ascii_sortsSlices
    [ContainerMetrics.toInfo (str "h1")
      (ContainerMetrics.sample (str "c1") (str "web") (str "nginx") F64.zero F64.zero),
     ContainerMetrics.toInfo (str "h1")
      (ContainerMetrics.sample (str "c2") (str "api") (str "go") F64.zero F64.zero),
     ContainerMetrics.toInfo (str "h1")
      (ContainerMetrics.sample (str "c3") (str "web") (str "nginx") F64.zero F64.zero),
     ContainerMetrics.toInfo (str "h1")
      (ContainerMetrics.sample (str "c4") (str "web") (str "nginx") F64.zero F64.zero)]
    (by decide) [] []
    [ContainerMetrics.toInfo (str "h1")
      (ContainerMetrics.sample (str "c2") (str "api") (str "go") F64.zero F64.zero)]
    [ContainerMetrics.toInfo (str "h1")
      (ContainerMetrics.sample (str "c3") (str "web") (str "nginx") F64.zero F64.zero)]
    []
    (ContainerMetrics.toInfo (str "h1")
      (ContainerMetrics.sample (str "c1") (str "web") (str "nginx") F64.zero F64.zero))
    (ContainerMetrics.toInfo (str "h1")
      (ContainerMetrics.sample (str "c4") (str "web") (str "nginx") F64.zero F64.zero))
    (by decide) ⟨by decide, by decide⟩
    (ContainerMetrics.toInfo (str "h1")
      (ContainerMetrics.sample (str "c3") (str "web") (str "nginx") F64.zero F64.zero))
    (List.mem_singleton_self _)

/-! ## C17, C18: the filters of the listing -/

theorem stringsSplit_ne_nil (s : GoString) (sep : Byte) : stringsSplit s sep ≠ [] := by
  cases s with
  | nil => simp [stringsSplit]
  | cons c rest =>
    unfold stringsSplit
    split_ifs
    · simp
    · split <;> simp

theorem stringsSplit_nil (sep : Byte) : stringsSplit [] sep = [[]] := rfl

/-- The decision of `matchesFilters` as the conjunction of its four checks. The host check
passes when the first element of `hostIDs` is empty or the host id of the entry equals some
element with its surrounding white space trimmed; the name, image and label checks pass when
the filter is empty or contained in the lower-cased name (image, image) of the entry. -/
theorem matchesFilters_eq (rt : Runtime) (c : ContainerInfo) (h0 : GoString)
    (rest : List GoString) (name image label : GoString) :
    matchesFilters rt c (h0 :: rest) name image label =
      some ((decide (h0 = []) || (h0 :: rest).any (fun v => rt.TrimSpace v = c.HostID)) &&
        (decide (name = []) || stringsContains (rt.ToLower c.Name) name) &&
        (decide (image = []) || stringsContains (rt.ToLower c.Image) image) &&
        (decide (label = []) || stringsContains (rt.ToLower c.Image) label)) := by
  have key : ∀ a p b q c r d s : Bool,
      (if (!a && !p) = true then some false
        else if (!b && !q) = true then some false
        else if (!c && !r) = true then some false
        else if (!d && !s) = true then some false
        else some true) = some ((a || p) && (b || q) && (c || r) && (d || s)) := by
    decide
  simp only [matchesFilters, contains, ne_eq, decide_not]
  exact key _ _ _ _ _ _ _ _

/-- The host filter alone, on the elements of a `host_id` parameter whose first element is not
empty: an entry passes exactly when its host id equals one of the elements, each taken with
its surrounding white space trimmed. With an empty first element (in particular with an empty
parameter) every entry passes. -/
theorem matchesFilters_host (rt : Runtime) (c : ContainerInfo) (param : GoString) :
    (stringsSplit param 44).head? ≠ some [] →
      (matchesFilters rt c (stringsSplit param 44) [] [] [] = some true ↔
        ∃ v ∈ stringsSplit param 44, rt.TrimSpace v = c.HostID) := by
  intro hne
  cases hs : stringsSplit param 44 with
  | nil => exact absurd hs (stringsSplit_ne_nil _ _)
  | cons h0 rest =>
    rw [hs] at hne
    have h0ne : h0 ≠ [] := fun h => hne (by simp [h])
    rw [matchesFilters_eq]
    simp [h0ne]

theorem matchesFilters_host_open (rt : Runtime) (c : ContainerInfo) (param : GoString) :
    (stringsSplit param 44).head? = some [] →
      matchesFilters rt c (stringsSplit param 44) [] [] [] = some true := by
  intro he
  cases hs : stringsSplit param 44 with
  | nil => exact absurd hs (stringsSplit_ne_nil _ _)
  | cons h0 rest =>
    rw [hs] at he
    have h0e : h0 = [] := by simpa using he
    rw [matchesFilters_eq]
    simp [h0e]

/-- C17. The host filter does not apply to every non-empty `host_id` parameter: with
`host_id=,h1` the parameter splits into `""` and `"h1"`, the guard `hostIDs[0] != ""` turns
the filter off, and `ListContainersHandler` returns the container of host `h2`, whose host id
equals none of the trimmed elements. -/
theorem C17_host_filter_leading_comma :
    stringsSplit (str ",h1") 44 = [[], str "h1"] ∧
    contains Runtime.ascii (stringsSplit (str ",h1") 44) (str "h2") = false ∧
    ListContainersHandler Runtime.ascii true (some [])
      { host_id := str ",h1", name := [], image := [], label := [], limit := 0, offset := 0,
        sort_by := [], order := [] }
      { alertRules := [], alertEvents := [], alertDefinitions := [],
        agentMetrics := [(str "h2", [ContainerMetrics.sample (str "c1") (str "db") (str "redis")
          F64.zero F64.zero])] } =
      Reply.ok [ContainerMetrics.toInfo (str "h2")
        (ContainerMetrics.sample (str "c1") (str "db") (str "redis") F64.zero F64.zero)] := by
  decide

/-- The defaults of lines 34-48: a missing or unparsable parameter, and a value below 1, give
page 1 and limit 100; any other value is kept. -/
theorem pageOf_limitOf (page limit : Option Int) :
    1 ≤ GetContainerLogsHandler.pageOf page ∧ 1 ≤ GetContainerLogsHandler.limitOf limit ∧
    (∀ p, page = some p → 1 ≤ p → GetContainerLogsHandler.pageOf page = p) ∧
    (∀ p, page = some p → p < 1 → GetContainerLogsHandler.pageOf page = 1) ∧
    (page = none → GetContainerLogsHandler.pageOf page = 1) ∧
    (∀ l, limit = some l → 1 ≤ l → GetContainerLogsHandler.limitOf limit = l) ∧
    (∀ l, limit = some l → l < 1 → GetContainerLogsHandler.limitOf limit = 100) ∧
    (limit = none → GetContainerLogsHandler.limitOf limit = 100) := by
  refine ⟨?_, ?_, ?_, ?_, ?_, ?_, ?_, ?_⟩
  · unfold GetContainerLogsHandler.pageOf
    split
    · decide
    · split_ifs <;> omega
  · unfold GetContainerLogsHandler.limitOf
    split
    · decide
    · split_ifs <;> omega
  · rintro p rfl hp
    simp only [GetContainerLogsHandler.pageOf]
    rw [if_neg (by omega)]
  · rintro p rfl hp
    simp only [GetContainerLogsHandler.pageOf]
    rw [if_pos hp]
  · rintro rfl
    rfl
  · rintro l rfl hl
    simp only [GetContainerLogsHandler.limitOf]
    rw [if_neg (by omega)]
  · rintro l rfl hl
    simp only [GetContainerLogsHandler.limitOf]
    rw [if_pos hl]
  · rintro rfl
    rfl

/-- As long as `page * limit` is a Go `int`, the pagination step returns
`filtered[min((page-1)*limit, R) : min(page*limit, R)]` and does not panic. -/
theorem logs_paginate_of_no_overflow (filtered : List GoString) (p l : Int) (hp : 1 ≤ p)
    (hl : 1 ≤ l) (h : p * l < 2 ^ 63) :
    GetContainerLogsHandler.paginate filtered p l =
      some ((filtered.take (min (p * l) (filtered.length : Int)).toNat).drop
        (min ((p - 1) * l) (filtered.length : Int)).toNat) := by
  have e1 : (p - 1) * l + l = p * l := by ring
  have h0 : 0 ≤ (p - 1) * l := mul_nonneg (by omega) (by omega)
  simp only [GetContainerLogsHandler.paginate]
  rw [wrapInt_of_range ((p - 1) * l) (by omega) (by omega), e1,
    wrapInt_of_range (p * l) (by omega) h]
  generalize (p - 1) * l = S at *
  generalize p * l = E at *
  have hR : (0 : Int) ≤ (filtered.length : Int) := Int.natCast_nonneg _
  unfold goSlice
  by_cases hS : S > (filtered.length : Int) <;> by_cases hE : E > (filtered.length : Int)
  · have m1 : min E (filtered.length : Int) = (filtered.length : Int) := by omega
    have m2 : min S (filtered.length : Int) = (filtered.length : Int) := by omega
    rw [if_pos hS, if_pos hE, if_pos ⟨by omega, by omega, by omega⟩, m1, m2]
  · omega
  · have m1 : min E (filtered.length : Int) = (filtered.length : Int) := by omega
    have m2 : min S (filtered.length : Int) = S := by omega
    rw [if_neg hS, if_pos hE, if_pos ⟨by omega, by omega, by omega⟩, m1, m2]
  · have m1 : min E (filtered.length : Int) = E := by omega
    have m2 : min S (filtered.length : Int) = S := by omega
    rw [if_neg hS, if_neg hE, if_pos ⟨by omega, by omega, by omega⟩, m1, m2]

set_option maxRecDepth 100000 in
/-- Scenario F: of 250 filtered lines, page 3 with limit 100 is the lines `[200:250]`, 50
lines, and page 4 is empty. -/
theorem logs_paginate_scenario :
    GetContainerLogsHandler.paged ((List.range 250).map (fun i => [Fin.ofNat i])) (some 3)
      (some 100) = some ((List.range' 200 50).map (fun i => [Fin.ofNat i])) ∧
    GetContainerLogsHandler.paged ((List.range 250).map (fun i => [Fin.ofNat i])) (some 4)
      (some 100) = some [] := by
  decide

/-- C20. With `page` and `limit` at least 1 the pagination step of `GetContainerLogsHandler`
does not always return `filtered[min((page-1)*limit, R) : min(page*limit, R)]`: on three lines,
`page = 2` with `limit = 9223372036854775807` makes `start + limit` wrap to `-2` and the slice
expression panics, and `page = 4294967297` with `limit = 4294967296` makes `(page-1)*limit`
wrap to `0` and the handler returns all three lines where the claim has none. -/
theorem C20_logs_page_overflow :
    GetContainerLogsHandler.paged [str "a", str "b", str "c"] (some 2)
      (some 9223372036854775807) = none ∧
    GetContainerLogsHandler.paged [str "a", str "b", str "c"] (some 4294967297)
      (some 4294967296) = some [str "a", str "b", str "c"] := by
  decide

/-! ## C22: a tick evaluates each rule on its own -/

/-- The effects of one rule in the loop of `checkAllAlerts` are those of the specification. -/
theorem rules_single_spec (rt : Runtime) (env : MonitorEnv) (k : Nat) (rule : AlertRule) :
    checkAllAlerts.rules rt env k [rule] = specRuleActions rt env k rule := by
  have h1 : HighCPU ≠ HighMemory := by decide
  have h2 : HighCPU ≠ LogPattern := by decide
  have h3 : HighMemory ≠ LogPattern := by decide
  simp only [checkAllAlerts.rules, List.append_nil, specRuleActions, specTrigger,
    checkContainerResource, checkLogPattern, checkContainerResource.check]
  by_cases hen : rule.Enabled = true
  · by_cases hc : env.newClient k = true
    · by_cases t1 : rule.Typ = HighCPU
      · cases hs : env.containerStats k rule.ContainerID with
        | none => simp [hen, hc, t1, hs]
        | some stats =>
          by_cases hg : F64.gt (calculateCPUPercent stats) rule.Threshold = true
          · simp [hen, hc, t1, hs, hg, h1]
          · simp [hen, hc, t1, hs, hg, h1]
      · by_cases t2 : rule.Typ = HighMemory
        · cases hs : env.containerStats k rule.ContainerID with
          | none => simp [hen, hc, t1, t2, hs]
          | some stats =>
            by_cases hg : F64.gt (F64.div (F64.ofNat stats.MemoryStats.Usage)
                (F64.ofNat (1024 * 1024))) rule.Threshold = true
            · simp [hen, hc, t1, t2, hs, hg, h1.symm]
            · simp [hen, hc, t1, t2, hs, hg, h1.symm]
        · by_cases t3 : rule.Typ = LogPattern
          · cases hs : env.containerLogs k rule.ContainerID with
            | none => simp [hen, hc, t1, t2, t3, hs, h2.symm, h3.symm]
            | some logs =>
              by_cases hg : stringsContains logs rule.Pattern = true
              · simp [hen, hc, t1, t2, t3, hs, hg, h2.symm, h3.symm]
              · simp [hen, hc, t1, t2, t3, hs, hg, h2.symm, h3.symm]
          · simp [hen, hc, t1, t2, t3]
    · by_cases t1 : rule.Typ = HighCPU
      · simp [hen, hc, t1]
      · by_cases t2 : rule.Typ = HighMemory
        · simp [hen, hc, t1, t2]
        · by_cases t3 : rule.Typ = LogPattern
          · simp [hen, hc, t1, t2, t3, h2.symm, h3.symm]
          · simp [hen, hc, t1, t2, t3]
  · simp [hen]

theorem rules_cons (rt : Runtime) (env : MonitorEnv) (k : Nat) (rule : AlertRule)
    (rest : List AlertRule) :
    checkAllAlerts.rules rt env k (rule :: rest) =
      checkAllAlerts.rules rt env k [rule] ++ checkAllAlerts.rules rt env (k + 1) rest := by
  simp [checkAllAlerts.rules]

/-- The loop of `checkAllAlerts` from rule number `k` on: the effects of the rules, one after
the other. -/
theorem rules_spec (rt : Runtime) (env : MonitorEnv) (rules : List AlertRule) :
    ∀ k : Nat, checkAllAlerts.rules rt env k rules =
      (rules.enumFrom k).flatMap (fun kr => specRuleActions rt env kr.1 kr.2) := by
  induction rules with
  | nil =>
    intro k
    simp [checkAllAlerts.rules]
  | cons rule rest ih =>
    intro k
    rw [rules_cons, rules_single_spec, ih (k + 1)]
    simp [List.enumFrom_cons]

theorem rules_append (rt : Runtime) (env : MonitorEnv) (pre post : List AlertRule) :
    ∀ k : Nat, checkAllAlerts.rules rt env k (pre ++ post) =
      checkAllAlerts.rules rt env k pre ++ checkAllAlerts.rules rt env (k + pre.length) post := by
  induction pre with
  | nil =>
    intro k
    simp [checkAllAlerts.rules]
  | cons rule rest ih =>
    intro k
    rw [List.cons_append, rules_cons, rules_cons rt env k rule rest, ih (k + 1),
      List.append_assoc, List.length_cons]
    congr 3
    omega

/-- A rule that is disabled, or whose fetch fails, has no effect in a tick, whatever the other
fetches return. -/
theorem specRuleActions_of_failure (rt : Runtime) (env : MonitorEnv) (k : Nat)
    (rule : AlertRule)
    (h : rule.Enabled = false ∨ env.newClient k = false ∨
      (env.containerStats k rule.ContainerID = none ∧
        env.containerLogs k rule.ContainerID = none)) :
    specRuleActions rt env k rule = [] := by
  unfold specRuleActions specTrigger
  rcases h with h | h | ⟨h1, h2⟩
  · simp [h]
  · simp [h]
  · rw [h1, h2]
    split_ifs <;> rfl

/-- The loop of `checkAllAlerts` consults, for the rules from number `k` on, the fetches of
these rule numbers only. -/
theorem rules_congr (rt : Runtime) (env env2 : MonitorEnv) (rules : List AlertRule) :
    ∀ k : Nat,
      (∀ j, k ≤ j → j < k + rules.length →
        env2.newClient j = env.newClient j ∧ env2.containerStats j = env.containerStats j ∧
        env2.containerLogs j = env.containerLogs j) →
      checkAllAlerts.rules rt env2 k rules = checkAllAlerts.rules rt env k rules := by
  induction rules with
  | nil =>
    intro k _
    simp [checkAllAlerts.rules]
  | cons rule rest ih =>
    intro k h
    rw [rules_cons, rules_cons rt env, ih (k + 1) (fun j h1 h2 => h j (by omega)
      (by simp only [List.length_cons]; omega))]
    obtain ⟨e1, e2, e3⟩ := h k (le_refl _) (by simp only [List.length_cons]; omega)
    rw [rules_single_spec, rules_single_spec]
    unfold specRuleActions specTrigger
    rw [e1, e2, e3]

/-- C22. For every rule list and every outcome of the per-rule fetches, the effects of a tick
of `checkAllAlerts` are the alerts of exactly the rules that are enabled, whose fetch succeeded
and whose condition holds (`specTick`), in rule order. The effects of a rule list `pre`
followed by a rule and the rules `post` are those of `pre`, then those of the rule alone, then
those of `post`; a rule that is disabled, or whose fetch fails, contributes nothing; and the
effects of the rules before and after a rule are the same whatever the outcome of that rule's
fetch. Likewise the events that `EvaluateAlerts` appends are those of exactly the (container,
alert) pairs whose alert is enabled and matches, whose mean query succeeded and whose mean is
above the threshold (`specEvents`), in iteration order. -/
theorem C22_rules_independent (rt : Runtime) (env : MonitorEnv) (s : State)
    (pre post : List AlertRule) (rule : AlertRule) (eenv : EvalEnv) (payload : AgentPayload) :
    (checkAllAlerts rt env s).2 = specTick rt env s.alertRules ∧
    checkAllAlerts.rules rt env 0 (pre ++ rule :: post) =
      checkAllAlerts.rules rt env 0 pre ++ specRuleActions rt env pre.length rule ++
        checkAllAlerts.rules rt env (pre.length + 1) post ∧
    ((rule.Enabled = false ∨ env.newClient pre.length = false ∨
        (env.containerStats pre.length rule.ContainerID = none ∧
          env.containerLogs pre.length rule.ContainerID = none)) →
      checkAllAlerts.rules rt env 0 (pre ++ rule :: post) =
        checkAllAlerts.rules rt env 0 pre ++
          checkAllAlerts.rules rt env (pre.length + 1) post) ∧
    (∀ env2 : MonitorEnv,
      (∀ j, j ≠ pre.length →
        env2.newClient j = env.newClient j ∧ env2.containerStats j = env.containerStats j ∧
        env2.containerLogs j = env.containerLogs j) →
      checkAllAlerts.rules rt env2 0 pre = checkAllAlerts.rules rt env 0 pre ∧
      checkAllAlerts.rules rt env2 (pre.length + 1) post =
        checkAllAlerts.rules rt env (pre.length + 1) post) ∧
    (rule.Enabled = false →
      ∀ env2 : MonitorEnv, checkAllAlerts.rules rt env2 pre.length [rule] = []) ∧
    (EvaluateAlerts eenv payload s).1.alertEvents =
      s.alertEvents ++ specEvents eenv payload s.alertDefinitions := by
  have hdec : checkAllAlerts.rules rt env 0 (pre ++ rule :: post) =
      checkAllAlerts.rules rt env 0 pre ++ specRuleActions rt env pre.length rule ++
        checkAllAlerts.rules rt env (pre.length + 1) post := by
    rw [rules_append, rules_cons, rules_single_spec, Nat.zero_add, List.append_assoc]
  refine ⟨?_, hdec, ?_, ?_, ?_, ?_⟩
  · simp only [checkAllAlerts, specTick, List.enum]
    exact rules_spec rt env s.alertRules 0
  · intro h
    rw [hdec, specRuleActions_of_failure rt env pre.length rule h, List.append_nil]
  · intro env2 h
    exact ⟨rules_congr rt env env2 pre 0 (fun j _ h2 => h j (by omega)),
      rules_congr rt env env2 post (pre.length + 1) (fun j h1 _ => h j (by omega))⟩
  · intro h env2
    rw [rules_single_spec, specRuleActions_of_failure rt env2 pre.length rule (Or.inl h)]
  · unfold EvaluateAlerts
    rw [outer_spec]
    rfl

set_option maxRecDepth 8000 in
/-- C22, witness: of three enabled rules on a reading with 80 % CPU and 200 MiB of memory, the
first (`high_cpu` above 50) and the third (`high_memory` above 100) trigger although the fetch
for the second fails. -/
theorem C22_rules_independent_witness :
    (checkAllAlerts Runtime.ascii
      (MonitorEnv.failingAt [1] (StatsJSON.sample 1200 1000 6000 5000 4 (200 * 2 ^ 20) none 0) [])
      { State.initial with
        alertRules := [AlertRule.sample (str "r0") (str "c0") HighCPU (F64.ofNat 50),
          AlertRule.sample (str "r1") (str "c1") HighCPU (F64.ofNat 50),
          AlertRule.sample (str "r2") (str "c2") HighMemory (F64.ofNat 100)] }).2 =
      [Action.autoRecovery (AlertRule.sample (str "r0") (str "c0") HighCPU (F64.ofNat 50)),
       Action.autoRecovery (AlertRule.sample (str "r2") (str "c2") HighMemory (F64.ofNat 100))] :=
  (C22_rules_independent Runtime.ascii
    (MonitorEnv.failingAt [1] (StatsJSON.sample 1200 1000 6000 5000 4 (200 * 2 ^ 20) none 0) [])
    { State.initial with
      alertRules := [AlertRule.sample (str "r0") (str "c0") HighCPU (F64.ofNat 50),
        AlertRule.sample (str "r1") (str "c1") HighCPU (F64.ofNat 50),
        AlertRule.sample (str "r2") (str "c2") HighMemory (F64.ofNat 100)] }
    [] [] (AlertRule.sample (str "r1") (str "c1") HighCPU (F64.ofNat 50))
    (EvalEnv.steady F64.zero) ⟨[], [], []⟩).1.trans (by decide)

/-! ## C8: a tick and the event list -/

/-- An accepted request appends its rule to `alertDefinitions`; a rejected one leaves the state
as it is. -/
theorem create_eq (body : Option AlertDefinition) (s : State) :
    CreateAlertRuleHandler body s =
      match body with
      | none => (s, 400)
      | some rule =>
        if rule.ID = [] ∨ rule.ContainerID = [] ∨ rule.Typ = [] then (s, 400)
        else ({ s with alertDefinitions := s.alertDefinitions ++ [rule] }, 200) :=
  rfl

/-- C23, counterexample: with the rule `r1` stored, a second `POST /alerts` with a rule of id
`r1` is accepted with status 200 and stored next to the first; the ids of the stored rules were
distinct before the request and are not after it. -/
theorem C23_counterexample :
    ((({ State.initial with
        alertDefinitions := [AlertDefinition.sample (str "r1") (str "master") (str "c1")
          (str "high_cpu") (F64.ofNat 80)] } : State).alertDefinitions).map
      AlertDefinition.ID).Nodup ∧
    (CreateAlertRuleHandler
      (some (AlertDefinition.sample (str "r1") (str "master") (str "c2") (str "high_memory")
        (F64.ofNat 512)))
      { State.initial with
        alertDefinitions := [AlertDefinition.sample (str "r1") (str "master") (str "c1")
          (str "high_cpu") (F64.ofNat 80)] }).2 = 200 ∧
    ((CreateAlertRuleHandler
      (some (AlertDefinition.sample (str "r1") (str "master") (str "c2") (str "high_memory")
        (F64.ofNat 512)))
      { State.initial with
        alertDefinitions := [AlertDefinition.sample (str "r1") (str "master") (str "c1")
          (str "high_cpu") (F64.ofNat 80)] }).1.alertDefinitions.map AlertDefinition.ID) =
      [str "r1", str "r1"] ∧
    ¬ ((CreateAlertRuleHandler
      (some (AlertDefinition.sample (str "r1") (str "master") (str "c2") (str "high_memory")
        (F64.ofNat 512)))
      { State.initial with
        alertDefinitions := [AlertDefinition.sample (str "r1") (str "master") (str "c1")
          (str "high_cpu") (F64.ofNat 80)] }).1.alertDefinitions.map
        AlertDefinition.ID).Nodup := by
  decide

/-- C23 (amended). For every stored list of rules (`alertDefinitions`, the list to which
`CreateAlertRuleHandler` appends) with distinct ids and every request, the ids of the stored
rules after the request are distinct if and only if the request is rejected or the id of its
rule is not stored yet: the handler does not look at the stored ids. The list `alertRules`,
which the monitor and the listing read, is left as it is. -/
theorem C23_unique_ids_iff_fresh (body : Option AlertDefinition) (s : State)
    (hinv : (s.alertDefinitions.map AlertDefinition.ID).Nodup) :
    (((CreateAlertRuleHandler body s).1.alertDefinitions.map AlertDefinition.ID).Nodup ↔
      ((CreateAlertRuleHandler body s).2 = 400 ∨
        ∀ rule, body = some rule → rule.ID ∉ s.alertDefinitions.map AlertDefinition.ID)) ∧
    (CreateAlertRuleHandler body s).1.alertRules = s.alertRules := by
  cases body with
  | none => exact ⟨⟨fun _ => Or.inl rfl, fun _ => hinv⟩, rfl⟩
  | some rule =>
    by_cases hrej : rule.ID = [] ∨ rule.ContainerID = [] ∨ rule.Typ = []
    · have e : CreateAlertRuleHandler (some rule) s = (s, 400) := by
        rw [create_eq]
        exact if_pos hrej
      rw [e]
      exact ⟨⟨fun _ => Or.inl rfl, fun _ => hinv⟩, rfl⟩
    · have e : CreateAlertRuleHandler (some rule) s =
          ({ s with alertDefinitions := s.alertDefinitions ++ [rule] }, 200) := by
        rw [create_eq]
        exact if_neg hrej
      rw [e]
      refine ⟨?_, rfl⟩
      show ((s.alertDefinitions ++ [rule]).map AlertDefinition.ID).Nodup ↔ _
      rw [List.map_append, List.map_singleton, List.nodup_append]
      constructor
      · rintro ⟨_, _, hdis⟩
        right
        intro r hr hmem
        cases hr
        exact hdis hmem (List.mem_singleton_self _)
      · intro h
        rcases h with h | h
        · cases h
        · refine ⟨hinv, List.nodup_singleton _, ?_⟩
          intro x hx hx2
          rw [List.mem_singleton] at hx2
          subst hx2
          exact h rule rfl hx

/-- C23 (amended), witness: with the rule `r1` stored, a request with a rule of id `r2` leaves
the ids distinct. -/
theorem C23_unique_ids_iff_fresh_witness :
    ((CreateAlertRuleHandler
      (some (AlertDefinition.sample (str "r2") (str "master") (str "c2") (str "high_memory")
        (F64.ofNat 512)))
      { State.initial with
        alertDefinitions := [AlertDefinition.sample (str "r1") (str "master") (str "c1")
          (str "high_cpu") (F64.ofNat 80)] }).1.alertDefinitions.map
        AlertDefinition.ID).Nodup :=
  (C23_unique_ids_iff_fresh
    (some (AlertDefinition.sample (str "r2") (str "master") (str "c2") (str "high_memory")
      (F64.ofNat 512)))
    { State.initial with
      alertDefinitions := [AlertDefinition.sample (str "r1") (str "master") (str "c1")
        (str "high_cpu") (F64.ofNat 80)] } (by decide)).1.mpr
    (Or.inr (fun rule h => by cases h; decide))

/-! ## C26: one iteration of the metrics session -/

/-- One iteration of the metrics session reaches the push exactly when the container id has at
least 12 bytes: otherwise `containerID[:12]` panics. -/
theorem iteration_eq (containerID : GoString) (data : StatsJSON) :
    WSContainerMetricsHandler.iteration containerID data =
      if 12 ≤ containerID.length then some (WSContainerMetricsHandler.payload data)
      else none := by
  unfold WSContainerMetricsHandler.iteration goSlice
  by_cases h : 12 ≤ containerID.length
  · rw [if_pos h, if_pos ⟨le_refl _, by decide, by exact_mod_cast h⟩]
  · rw [if_neg h, if_neg (fun hc => h (by exact_mod_cast hc.2.2))]

set_option maxRecDepth 8000 in
/-- C26, failing input: the session for `id=web` (a container name, which the Docker API
resolves as it does a short id) with a successfully decoded reading. The id is not empty, and
the iteration panics at `containerID[:12]` before the push. -/
theorem C26_short_container_id :
    str "web" ≠ [] ∧
    WSContainerMetricsHandler.iteration (str "web")
      (StatsJSON.sample 1200 1000 6000 5000 4 (200 * 2 ^ 20) (some (50 * 2 ^ 20)) (2 ^ 30)) =
      none ∧
    (StatsJSON.sample 1200 1000 6000 5000 4 (200 * 2 ^ 20) (some (50 * 2 ^ 20)) (2 ^ 30)).wf := by
  decide

/-! ## C21: historical logs read the multiplexed stream without decoding it -/

theorem takeWhile_ne_append (l rest : List Byte) (b : Byte) (h : b ∉ l) :
    (l ++ b :: rest).takeWhile (fun x => x ≠ b) = l := by
  induction l with
  | nil => simp [List.takeWhile]
  | cons x xs ih =>
    have hx : x ≠ b := fun e => h (e ▸ List.mem_cons_self _ _)
    have hxs : b ∉ xs := fun hm => h (List.mem_cons_of_mem _ hm)
    simpa [List.takeWhile, hx] using ih hxs

/-- One step of the scanner on a stream that starts with a line of at most 65535 bytes ended
by a newline. -/
theorem scanLines_step (fuel : Nat) (l rest : List Byte) (h : (10 : Byte) ∉ l)
    (hlen : l.length ≤ 65535) :
    GetContainerLogsHandler.scanLines (fuel + 1) (l ++ 10 :: rest) =
      GetContainerLogsHandler.dropCR l :: GetContainerLogsHandler.scanLines fuel rest := by
  rw [GetContainerLogsHandler.scanLines, takeWhile_ne_append l rest 10 h]
  rw [if_neg (by simp), if_neg (by omega)]
  simp

/-- The loop body drops every text whose first byte is neither a digit nor a space, for a
`time.Parse` that refuses a text that does not start with a digit (the layout starts with the
four digits of the year). -/
theorem keeps_eq_false_of_head (rt : Runtime) (timeParse : GoString → Option Int)
    (hdigit : ∀ (s : GoString) (b : Byte), s.head? = some b → digitValue b = none →
      timeParse s = none)
    (sinceTime untilTime : Int) (search raw : GoString) (b : Byte) (hb : raw.head? = some b)
    (hd : digitValue b = none) (hs : b ≠ 32) :
    GetContainerLogsHandler.keeps rt timeParse sinceTime untilTime search raw = false := by
  unfold GetContainerLogsHandler.keeps stringsSplitN2
  split_ifs with hlen
  · rfl
  · have hhead : (raw.takeWhile (fun x => x ≠ 32)).head? = some b := by
      cases raw with
      | nil => cases hb
      | cons x xs =>
        simp only [List.head?_cons, Option.some.injEq] at hb
        subst hb
        simp [List.takeWhile, hs]
    simp only [hdigit _ b hhead hd]

theorem head_dropCR (l : List Byte) (b : Byte) (hb : l.head? = some b) (hlen : 2 ≤ l.length) :
    (GetContainerLogsHandler.dropCR l).head? = some b := by
  unfold GetContainerLogsHandler.dropCR
  split_ifs
  · match l, hb, hlen with
    | x :: y :: rest, hb, _ => simpa [List.dropLast] using hb
  · exact hb

theorem digitValue_of_le_two (b : Byte) (h : b.val ≤ 2) : digitValue b = none ∧ b ≠ 32 := by
  refine ⟨?_, ?_⟩
  · unfold digitValue
    rw [if_neg (by omega)]
  · intro e
    rw [e] at h
    revert h
    decide

/-- The scan of a stream of one-line frames gives only texts that the loop body drops: each
text starts with the tag byte of a frame header. -/
theorem filter_scanLines_frames (rt : Runtime) (timeParse : GoString → Option Int)
    (hdigit : ∀ (s : GoString) (b : Byte), s.head? = some b → digitValue b = none →
      timeParse s = none)
    (sinceTime untilTime : Int) (search : GoString) (frames : List Frame) :
    (∀ f ∈ frames, f.oneLine) → ∀ fuel : Nat,
      (GetContainerLogsHandler.scanLines fuel (encodeFrames frames)).filter
        (GetContainerLogsHandler.keeps rt timeParse sinceTime untilTime search) = [] := by
  induction frames with
  | nil =>
    intro _ fuel
    cases fuel <;> simp [GetContainerLogsHandler.scanLines, encodeFrames]
  | cons f frames ih =>
    intro hall fuel
    cases fuel with
    | zero => simp [GetContainerLogsHandler.scanLines]
    | succ fuel =>
      obtain ⟨_, htag, hhead, hlast, hbody, hlen⟩ := hall f (List.mem_cons_self _ _)
      have hpl : f.payload = f.payload.dropLast ++ [10] := by
        have := List.dropLast_append_getLast? 10 (by rw [hlast]; rfl : (10 : Byte) ∈ f.payload.getLast?)
        exact this.symm
      have henc : encodeFrames (f :: frames) =
          (f.header ++ f.payload.dropLast) ++ 10 :: encodeFrames frames := by
        have e : encodeFrames (f :: frames) = f.header ++ f.payload ++ encodeFrames frames := by
          simp [encodeFrames, Frame.encode, Frame.header]
        rw [e]
        nth_rewrite 1 [hpl]
        simp
      have hno : (10 : Byte) ∉ f.header ++ f.payload.dropLast := by
        intro hm
        rcases List.mem_append.mp hm with hm | hm
        · exact hhead hm
        · exact hbody hm
      have hl : (f.header ++ f.payload.dropLast).length ≤ 65535 := by
        simp only [List.length_append, List.length_dropLast, Frame.header, List.length_cons,
          List.length_nil]
        omega
      rw [henc, scanLines_step fuel _ _ hno hl, List.filter_cons]
      have hh : (GetContainerLogsHandler.dropCR (f.header ++ f.payload.dropLast)).head? =
          some f.tag := by
        apply head_dropCR
        · simp [Frame.header]
        · simp only [List.length_append, Frame.header, List.length_cons, List.length_nil]
          omega
      have hd := digitValue_of_le_two f.tag htag
      rw [keeps_eq_false_of_head rt timeParse hdigit sinceTime untilTime search _ f.tag hh
        hd.1 hd.2]
      simp only [Bool.false_eq_true, if_false]
      exact ih (fun g hg => hall g (List.mem_cons_of_mem _ hg)) fuel

/-- For every stream of one-line frames, whatever the timestamps and the bounds, the list
`filtered` of `GetContainerLogsHandler` is empty. -/
theorem filtered_frames_eq_nil (rt : Runtime) (timeParse : GoString → Option Int)
    (hdigit : ∀ (s : GoString) (b : Byte), s.head? = some b → digitValue b = none →
      timeParse s = none)
    (sinceTime untilTime : Int) (search : GoString) (frames : List Frame)
    (hall : ∀ f ∈ frames, f.oneLine) :
    GetContainerLogsHandler.filtered rt timeParse sinceTime untilTime search
      (encodeFrames frames) = [] :=
  filter_scanLines_frames rt timeParse hdigit sinceTime untilTime search frames hall _

/-- The time parser for concrete runs refuses a text that does not start with a digit. -/
theorem timeParseUTC_head (s : GoString) (b : Byte) (hb : s.head? = some b)
    (hd : digitValue b = none) : timeParseUTC s = none := by
  unfold timeParseUTC
  split_ifs with h
  · have h4 : digitsValue (s.take 4) = none := by
      cases s with
      | nil => cases hb
      | cons x xs =>
        simp only [List.head?_cons, Option.some.injEq] at hb
        subst hb
        have key : ∀ (l : List Byte) (acc : Option Nat), acc = none →
            l.foldl (fun acc b =>
              match acc, digitValue b with
              | some n, some d => some (10 * n + d)
              | _, _ => none) acc = none := by
          intro l
          induction l with
          | nil => intro acc h; exact h
          | cons y ys ih => intro acc h; subst h; exact ih _ rfl
        simp only [digitsValue, List.take_succ_cons, List.foldl_cons, hd]
        exact key _ _ rfl
    simp only [h4]
  · rfl

set_option maxRecDepth 100000 in
/-- C21, failing input: the bounded stream of one well-formed `stdout` frame whose payload is
the line `2024-01-01T00:00:00.000000000Z hello` and a newline, with no search term and the
bounds `[0001-01-01, 2100-01-01]`. The scanner gives the header bytes followed by the line as
one text, the timestamp field does not parse, and `filtered` is empty: the handler returns no
line, where the claim has one entry per frame. The line alone, without the header, is kept. -/
theorem C21_bounded_mode_keeps_header :
    (⟨1, 0, 0, 0, 0, 0, 0, 37, str "2024-01-01T00:00:00.000000000Z hello\n"⟩ : Frame).oneLine ∧
    GetContainerLogsHandler.scanLines 46
      (encodeFrames [⟨1, 0, 0, 0, 0, 0, 0, 37, str "2024-01-01T00:00:00.000000000Z hello\n"⟩]) =
      [[1, 0, 0, 0, 0, 0, 0, 37] ++ str "2024-01-01T00:00:00.000000000Z hello"] ∧
    GetContainerLogsHandler.filtered Runtime.ascii timeParseUTC 0 66238041600000000000 []
      (encodeFrames [⟨1, 0, 0, 0, 0, 0, 0, 37, str "2024-01-01T00:00:00.000000000Z hello\n"⟩]) =
      [] ∧
    GetContainerLogsHandler Runtime.ascii timeParseUTC (str "web") [] 0 66238041600000000000
      none none true
      (some (encodeFrames
        [⟨1, 0, 0, 0, 0, 0, 0, 37, str "2024-01-01T00:00:00.000000000Z hello\n"⟩])) =
      Reply.ok [] ∧
    GetContainerLogsHandler.filtered Runtime.ascii timeParseUTC 0 66238041600000000000 []
      (str "2024-01-01T00:00:00.000000000Z hello\n") =
      [str "2024-01-01T00:00:00.000000000Z hello"] ∧
    timeParseUTC (str "2100-01-01T00:00:00Z") = some 66238041600000000000 := by
  decide

/-! ## C24: the push of the agent as the backend decodes it -/

/-- The backend decodes the object of one container of the agent into its id, name and image:
the keys `cpu` and `memory` address no field of the backend's `ContainerMetrics`, whose keys
are `cpu_percent` and `memory_mb`, and are skipped. -/
theorem unmarshal_marshal (c : agent.ContainerMetrics) :
    ContainerMetrics.unmarshal c.marshal =
      some { ContainerMetrics.zero with ID := c.ID, Name := c.Name, Image := c.Image } := by
  have k1 : ContainerMetrics.fieldFor (str "id") = some (str "id") := by decide
  have k2 : ContainerMetrics.fieldFor (str "name") = some (str "name") := by decide
  have k3 : ContainerMetrics.fieldFor (str "image") = some (str "image") := by decide
  have k4 : ContainerMetrics.fieldFor (str "cpu") = none := by decide
  have k5 : ContainerMetrics.fieldFor (str "memory") = none := by decide
  have n1 : str "name" ≠ str "id" := by decide
  have n2 : str "image" ≠ str "id" := by decide
  have n3 : str "image" ≠ str "name" := by decide
  simp only [ContainerMetrics.unmarshal, agent.ContainerMetrics.marshal, List.foldl_cons,
    List.foldl_nil, Option.bind, ContainerMetrics.setField, k1, k2, k3, k4, k5, n1, n2, n3,
    if_true, if_false]

theorem unmarshalAll_marshal (cs : List agent.ContainerMetrics) :
    ContainerMetrics.unmarshalAll (cs.map agent.ContainerMetrics.marshal) =
      some (cs.map (fun c =>
        { ContainerMetrics.zero with ID := c.ID, Name := c.Name, Image := c.Image })) := by
  induction cs with
  | nil => rfl
  | cons c cs ih =>
    simp only [List.map_cons, ContainerMetrics.unmarshalAll, unmarshal_marshal, ih]

/-- For every payload of the agent that can be marshalled, the backend accepts the push and
stores, under the host id of the agent, one sample per container with the id, name and image
of the agent and with the figures 0 in `CPUPercent` and `MemoryMB`. -/
theorem push_stores_zero_figures (p : agent.AgentPayload) (s : State)
    (h : p.Containers.all (fun c => c.CPU.isFinite && c.Memory.isFinite) = true) :
    pushToServer p s =
      some ({ s with
        agentMetrics := mapSet s.agentMetrics p.HostID
          (p.Containers.map (fun c =>
            { ContainerMetrics.zero with ID := c.ID, Name := c.Name, Image := c.Image })) },
        200) := by
  simp only [pushToServer, agent.AgentPayload.marshal, h, if_true, AgentPayload.unmarshal,
    unmarshalAll_marshal, ReceiveAgentMetricsHandler]

set_option maxRecDepth 8000 in
/-- C24, failing input: the agent of host `h1` lists the container `web` and reads counters
that advance by `cpu_delta = 200` and `system_delta = 1000` on 4 CPUs, with 150 MiB of memory
in use: it measures 80 and 150. The push is accepted with status 200 and the backend stores
the sample with the figures 0 and 0, which is not the snapshot of the claim. -/
theorem C24_push_drops_figures :
    agent.collectMetrics (str "h1")
      (some [(⟨str "0123456789abcdef", [str "/web"], str "nginx"⟩,
        some (StatsJSON.sample 1200 1000 6000 5000 4 (150 * 2 ^ 20) none (2 ^ 30)))])
      (str "2024-01-01T00:00:00Z") =
      some ⟨str "h1", [⟨str "0123456789abcdef", str "web", str "nginx", F64.ofNat 80,
        F64.ofNat 150⟩], str "2024-01-01T00:00:00Z"⟩ ∧
    (pushToServer
      ⟨str "h1", [⟨str "0123456789abcdef", str "web", str "nginx", F64.ofNat 80,
        F64.ofNat 150⟩], str "2024-01-01T00:00:00Z"⟩ State.initial).map
      (fun r => (r.2, r.1.agentMetrics)) =
      some (200, [(str "h1",
        [ContainerMetrics.sample (str "0123456789abcdef") (str "web") (str "nginx")
          F64.zero F64.zero])]) ∧
    specSnapshot
      ⟨str "h1", [⟨str "0123456789abcdef", str "web", str "nginx", F64.ofNat 80,
        F64.ofNat 150⟩], str "2024-01-01T00:00:00Z"⟩ =
      [ContainerMetrics.sample (str "0123456789abcdef") (str "web") (str "nginx")
        (F64.ofNat 80) (F64.ofNat 150)] ∧
    F64.ofNat 80 ≠ F64.zero ∧ F64.ofNat 150 ≠ F64.zero := by
  decide

/-! ## C25: the ingest takes no lock -/

set_option maxRecDepth 100000 in
theorem specReachable_closed :
    specReachable.all (fun st =>
      (List.range 3).all (fun t =>
        match st.step t with
        | none => true
        | some st1 => specReachable.contains st1)) = true := by
  decide!

set_option maxRecDepth 100000 in
theorem specReachable_safe :
    specReachable.all (fun st => !st.conflict && decide (st.pending.length = 3)) = true := by
  decide!

theorem step_of_length_le (st : SyncState) (t : Nat) (h : st.pending.length ≤ t) :
    st.step t = none := by
  unfold SyncState.step
  rw [List.get?_eq_none.mpr h]

/-- Every state that a query and two ingests of the specification reach, in any schedule, is
among `specReachable`. -/
theorem run_mem_specReachable : ∀ (schedule : List Nat) (st0 st : SyncState),
    st0 ∈ specReachable → st0.run schedule = some st → st ∈ specReachable := by
  intro schedule
  induction schedule with
  | nil =>
    intro st0 st h0 hrun
    simp only [SyncState.run, Option.some.injEq] at hrun
    exact hrun ▸ h0
  | cons t rest ih =>
    intro st0 st h0 hrun
    simp only [SyncState.run] at hrun
    cases hs : st0.step t with
    | none => simp [hs] at hrun
    | some st1 =>
      rw [hs] at hrun
      refine ih st1 st ?_ hrun
      have hsafe := List.all_eq_true.mp specReachable_safe st0 h0
      simp only [Bool.and_eq_true, decide_eq_true_eq] at hsafe
      have ht : t < 3 := by
        by_contra hge
        rw [step_of_length_le st0 t (by omega)] at hs
        cases hs
      have hcl := List.all_eq_true.mp
        (List.all_eq_true.mp specReachable_closed st0 h0) t (List.mem_range.mpr ht)
      rw [hs] at hcl
      simpa using hcl

set_option maxRecDepth 100000 in
theorem start_mem_specReachable :
    SyncState.start [ListContainersHandler.sync, specIngestSync, specIngestSync] ∈
      specReachable := by
  decide!

/-- With an ingest that takes the exclusive lock around the map assignment, the read lock of
`ListContainersHandler` is enough: in no schedule of a query and two ingests does a reader
read the map while it is written, and no two writes overlap. -/
theorem spec_ingest_exclusive (schedule : List Nat) (st : SyncState)
    (h : (SyncState.start [ListContainersHandler.sync, specIngestSync, specIngestSync]).run
      schedule = some st) : st.conflict = false := by
  have hmem := run_mem_specReachable schedule _ st start_mem_specReachable h
  have hsafe := List.all_eq_true.mp specReachable_safe st hmem
  simp only [Bool.and_eq_true, Bool.not_eq_true', decide_eq_true_eq] at hsafe
  exact hsafe.1

/-- C25, failing schedule: a query (`ListContainersHandler`) takes the read lock and starts
its `range` over `agentMetrics`; an ingest (`ReceiveAgentMetricsHandler`) then starts its map
assignment, which no lock delays: the reader is reading the map while it is being written.
Two ingests likewise write at the same time. -/
theorem C25_ingest_without_lock :
    (SyncState.start [ListContainersHandler.sync, ReceiveAgentMetricsHandler.sync]).run
      [0, 0, 1] =
      some ⟨1, false, 1, 1, [[SyncOp.readEnd, SyncOp.runlock], [SyncOp.writeEnd]]⟩ ∧
    SyncState.conflict
      ⟨1, false, 1, 1, [[SyncOp.readEnd, SyncOp.runlock], [SyncOp.writeEnd]]⟩ = true ∧
    (SyncState.start [ReceiveAgentMetricsHandler.sync, ReceiveAgentMetricsHandler.sync]).run
      [0, 1] =
      some ⟨0, false, 0, 2, [[SyncOp.writeEnd], [SyncOp.writeEnd]]⟩ ∧
    SyncState.conflict ⟨0, false, 0, 2, [[SyncOp.writeEnd], [SyncOp.writeEnd]]⟩ = true := by
  decide

end DockScope
